import Mathlib

/-!
# Flappy Gopher: the frame loop of `main.go`

A shallow embedding of `src/main.go`.  The body of the render loop of `main`
is the function `frame`; it is split into the four blocks of the source
(menu, update, draw, game over), which run in that order in every iteration.

Conventions of the embedding.

* `int32` values are integers; every `int32` operation of the source is
  followed by `toInt32`, which reduces the result into `[-2^31, 2^31)`.
* Go `int` values (`highestScore`, `gameEndingIterations`) are integers.
* `score` is a `float64` that starts at `0.0` and only ever receives
  `+= 0.25`.  It is stored as the number of quarter units, `4 * score`:
  `float64` holds every `k / 4` with `k ≤ 2^53` exactly and the addition is
  exact there.  So `score > 1` reads `4 < q`, `math.Mod(score, 100.0) == 0`
  reads `q.tmod 400 = 0` and `int(score)` reads `q.tdiv 4`.
* The `float32` values of the program are integers: the source only ever
  converts `int32` values, and a sum of two such values, rounded, is again
  an integer.  The type `Float32` holds that integer, and `float32` is the
  conversion of the language: the nearest value with a 24-bit significand,
  ties to the even one.  It is exact below `2^24` and rounds above, so
  `float32 16777217` is 16777216.  A `float32` sum is the rounded exact sum.
* `CheckCollisionRecs` belongs to the raylib library and is not under
  `src/`; it is embedded as raylib defines it, on `float32` fields.
* Keyboard state and the results of `rand.Intn` are inputs of a frame.  raylib
  samples the keyboard once per frame, so both tests of Enter in one iteration
  see the same value.  `rand.Seed` only changes which results follow; the
  results are arbitrary here, so it leaves no trace.
* Textures are values with the dimensions the image files give them; the
  textures that the game logic refers to form the parameter `Assets`.
* Drawing, sound and music calls change none of the variables of `main` and
  are left out.
-/

namespace FlappyGopher

/-! ## Constants and types -/

def SCREEN_WIDTH : Int := 800

def SCREEN_HEIGHT : Int := 450

def GRAVITY : Int := 3

def TARGET_FPS : Int := 60

/-- Result of an `int32` expression whose mathematical value is `v`. -/
def toInt32 (v : Int) : Int := (v + 2147483648) % 4294967296 - 2147483648

inductive RenderScreen where
  | MainMenu
  | GamePlay
  | GameEnding
  | GameOver
  deriving DecidableEq, Repr

open RenderScreen

/-- The fields of `rl.Texture2D` that the program reads, and its identifier. -/
structure Texture2D where
  ID : Nat
  Width : Int
  Height : Int
  deriving DecidableEq, Repr

/-- The textures loaded at the top of `main` that the game logic refers to. -/
structure Assets where
  explosionTexture : Texture2D
  gopherUpTexture : Texture2D
  gopherDownTexture : Texture2D
  asteroidTexture : Texture2D
  deriving DecidableEq, Repr

structure GameEntity where
  xPos : Int
  yPos : Int
  width : Int
  height : Int
  texture : Texture2D
  deriving DecidableEq, Repr

/-- Method `GameEntity.update`: assigns the position and the texture. -/
def GameEntity.update (g : GameEntity) (xPos yPos : Int) (texture : Texture2D) : GameEntity :=
  { g with xPos := xPos, yPos := yPos, texture := texture }

structure GamePlayStartValues where
  score : Int
  gopher : GameEntity
  asteroids : List GameEntity
  renderScreen : RenderScreen
  gameEndingIterations : Int
  deriving DecidableEq, Repr

/-- The variables of `main` that live across iterations of the render loop. -/
structure GameState where
  highestScore : Int
  renderScreen : RenderScreen
  score : Int
  gopher : GameEntity
  asteroids : List GameEntity
  gameEndingIterations : Int
  deriving DecidableEq, Repr

/-- What one iteration of the loop reads from outside: whether Enter was newly
pressed (`rl.IsKeyPressed(rl.KeyEnter)`), whether Space is held
(`rl.IsKeyDown(rl.KeySpace)`), and the results of the calls of `rand.Intn`
made during the iteration, in call order. -/
structure Input where
  enterPressed : Bool
  spaceDown : Bool
  rand : Nat → Nat

/-- The stream of random results after its first element has been consumed. -/
def nextRand (rnd : Nat → Nat) : Nat → Nat := fun k => rnd (k + 1)

/-! ## Random vertical position -/

/-- The argument `max - min` that `getRandomYPos` passes to `rand.Intn`. -/
def randIntnArg : Int :=
  let min : Int := 50
  let max : Int := SCREEN_HEIGHT - min
  max - min

/-- Function `getRandomYPos`, given the result `r` of its call of `rand.Intn`. -/
def getRandomYPos (r : Nat) : Int :=
  let min : Int := 50
  toInt32 ((r : Int) + min)

/-! ## New game -/

/-- Function `setupNewGame`, given the result `r` of the one random draw. -/
def setupNewGame (gopherTexture asteroidTexture : Texture2D) (r : Nat) : GamePlayStartValues :=
  let gopher : GameEntity :=
    { xPos := toInt32 (toInt32 (Int.tdiv SCREEN_WIDTH 2) - toInt32 (Int.tdiv gopherTexture.Width 2))
      yPos := toInt32 (toInt32 (Int.tdiv SCREEN_HEIGHT 2) - toInt32 (Int.tdiv gopherTexture.Height 2))
      width := gopherTexture.Width
      height := gopherTexture.Height
      texture := gopherTexture }
  let initialAsteroid : GameEntity :=
    { xPos := SCREEN_WIDTH
      yPos := getRandomYPos r
      width := asteroidTexture.Width
      height := asteroidTexture.Height
      texture := asteroidTexture }
  { score := 0
    gopher := gopher
    asteroids := [] ++ [initialAsteroid]
    renderScreen := GamePlay
    gameEndingIterations := 0 }

/-- The state of `main` when the render loop is entered (lines 108 to 115). -/
def initialState (A : Assets) (r : Nat) : GameState :=
  let gamePlayStartValues := setupNewGame A.gopherDownTexture A.asteroidTexture r
  { highestScore := 0
    renderScreen := MainMenu
    score := gamePlayStartValues.score
    gopher := gamePlayStartValues.gopher
    asteroids := gamePlayStartValues.asteroids
    gameEndingIterations := gamePlayStartValues.gameEndingIterations }

/-! ## Collision test -/

/-- The exponent of the spacing between neighbouring `float32` values at the
magnitude `n`: the spacing is `1` below `2^24` and doubles with each further
bit of `n`.  The first argument bounds the number of halvings; `n` itself is
always enough. -/
def float32Exponent : Nat → Nat → Nat
  | 0, _ => 0
  | fuel + 1, n => if n < 16777216 then 0 else float32Exponent fuel (n / 2) + 1

/-- A `float32` value of the program.  Each of them is an integer, held in
`toInt`: the source converts `int32` values, and the collision test adds two
such values. -/
structure Float32 where
  toInt : Int
  deriving DecidableEq, Repr

/-- The conversion `float32(v)` of an integer `v`, as lines 198 and 199 apply
it to `int32` values: the nearest integer with a significand of 24 bits, of
two nearest ones the one with the even significand.  Below `2^24` every
integer is such a value.  The largest finite `float32` is far above every
value met here. -/
def float32 (v : Int) : Float32 :=
  if -16777216 < v ∧ v < 16777216 then { toInt := v }
  else
    let ulp : Int := 2 ^ float32Exponent v.natAbs v.natAbs
    let q := v / ulp
    let r := v % ulp
    if 2 * r < ulp then { toInt := q * ulp }
    else if ulp < 2 * r then { toInt := (q + 1) * ulp }
    else if q % 2 = 0 then { toInt := q * ulp }
    else { toInt := (q + 1) * ulp }

/-- The sum of two `float32` values: the exact sum, rounded. -/
instance : Add Float32 := ⟨fun a b => float32 (a.toInt + b.toInt)⟩

/-- The order of `float32` values. -/
instance : LT Float32 := ⟨fun a b => a.toInt < b.toInt⟩

instance (a b : Float32) : Decidable (a < b) :=
  inferInstanceAs (Decidable (a.toInt < b.toInt))

/-- A raylib `Rectangle`. -/
structure Rectangle where
  X : Float32
  Y : Float32
  Width : Float32
  Height : Float32
  deriving DecidableEq, Repr

/-- Function `rl.NewRectangle`. -/
def NewRectangle (x y width height : Float32) : Rectangle :=
  { X := x, Y := y, Width := width, Height := height }

/-- Modelled from the spec: function `rl.CheckCollisionRecs`, which belongs
to the raylib library and is not under `src/`.  The specification has it
test the overlap of two axis-aligned rectangles.  As in raylib, two
rectangles collide when they overlap on both axes, with strict comparisons;
the sums and the comparisons are those of `float32`. -/
def CheckCollisionRecs (rec1 rec2 : Rectangle) : Bool :=
  (decide (rec1.X < rec2.X + rec2.Width) && decide (rec1.X + rec1.Width > rec2.X)) &&
  (decide (rec1.Y < rec2.Y + rec2.Height) && decide (rec1.Y + rec1.Height > rec2.Y))

/-! ## The blocks of the loop body -/

/-- Lines 124 to 136: on the main menu a newly pressed Enter starts the game. -/
def menuBlock (s : GameState) (i : Input) : GameState :=
  if s.renderScreen = MainMenu then
    if i.enterPressed then { s with renderScreen := GamePlay } else s
  else s

/-- Lines 153 to 171: the vertical position the player gets this tick. -/
def newGopherY (gopher : GameEntity) (spaceDown : Bool) : Int :=
  let candidate :=
    if spaceDown then toInt32 (gopher.yPos - GRAVITY) else toInt32 (gopher.yPos + GRAVITY)
  if candidate < toInt32 (-gopher.height) then
    toInt32 (SCREEN_HEIGHT + gopher.height)
  else if candidate > toInt32 (SCREEN_HEIGHT + gopher.height) then
    toInt32 (-gopher.height)
  else candidate

/-- Lines 153 to 173: the player after the motion step. -/
def moveGopher (A : Assets) (gopher : GameEntity) (spaceDown : Bool) : GameEntity :=
  let newGopherTexture := if spaceDown then A.gopherUpTexture else A.gopherDownTexture
  gopher.update gopher.xPos (newGopherY gopher spaceDown) newGopherTexture

/-- The condition of line 175, on the score already incremented. -/
def spawnDue (score : Int) (asteroids : List GameEntity) : Bool :=
  decide (score > 4) && decide (Int.tmod score 400 = 0) && decide (asteroids.length ≤ 15)

/-- Lines 175 to 183: the spawn step, with the random stream it leaves. -/
def spawnStep (A : Assets) (score : Int) (asteroids : List GameEntity) (rnd : Nat → Nat) :
    List GameEntity × (Nat → Nat) :=
  if spawnDue score asteroids then
    (asteroids ++ [{ xPos := SCREEN_WIDTH
                     yPos := getRandomYPos (rnd 0)
                     width := A.asteroidTexture.Width
                     height := A.asteroidTexture.Height
                     texture := A.asteroidTexture }], nextRand rnd)
  else (asteroids, rnd)

/-- Lines 186 to 193: whether the obstacle leaves the screen on this move. -/
def recycles (asteroid : GameEntity) : Bool :=
  decide (toInt32 (asteroid.xPos - GRAVITY) < toInt32 (-asteroid.width))

/-- Lines 186 to 195: the obstacle after its move, where `r` is the random
result used if it is recycled. -/
def moveAsteroid (asteroid : GameEntity) (r : Nat) : GameEntity :=
  if recycles asteroid then
    asteroid.update (toInt32 (SCREEN_WIDTH + asteroid.width)) (getRandomYPos r) asteroid.texture
  else
    asteroid.update (toInt32 (asteroid.xPos - GRAVITY)) asteroid.yPos asteroid.texture

/-- Lines 197 to 200: the collision test between the player and a moved
obstacle. -/
def collides (gopher moved : GameEntity) : Bool :=
  CheckCollisionRecs
    (NewRectangle (float32 gopher.xPos) (float32 gopher.yPos) (float32 gopher.width)
      (float32 gopher.height))
    (NewRectangle (float32 moved.xPos) (float32 moved.yPos) (float32 moved.width)
      (float32 moved.height))

/-- The outcome of the scan of lines 185 to 206. -/
structure ScanResult where
  asteroids : List GameEntity
  hit : Bool
  rand : Nat → Nat

/-- Lines 185 to 206: the scan over the obstacles in collection order.  Each
obstacle is moved and then tested; the scan stops at the first collision and
leaves the rest of the collection as it was. -/
def scanAsteroids (gopher : GameEntity) : List GameEntity → (Nat → Nat) → ScanResult
  | [], rnd => { asteroids := [], hit := false, rand := rnd }
  | asteroid :: rest, rnd =>
    let moved := moveAsteroid asteroid (rnd 0)
    let rnd1 := if recycles asteroid then nextRand rnd else rnd
    if collides gopher moved then
      { asteroids := moved :: rest, hit := true, rand := rnd1 }
    else
      let r := scanAsteroids gopher rest rnd1
      { asteroids := moved :: r.asteroids, hit := r.hit, rand := r.rand }

/-- Lines 151 to 206 up to the collision test: the scan of this tick, run on
the moved player and on the collection after the spawn step, which itself
runs on the incremented score. -/
def tickScan (A : Assets) (s : GameState) (i : Input) : ScanResult :=
  let score := s.score + 1
  let gopher := moveGopher A s.gopher i.spaceDown
  let spawned := spawnStep A score s.asteroids i.rand
  scanAsteroids gopher spawned.1 spawned.2

/-- Lines 144 to 209: the update block, with the random stream it leaves. -/
def updateBlock (A : Assets) (s : GameState) (i : Input) : GameState × (Nat → Nat) :=
  if s.renderScreen = GamePlay then
    let score := s.score + 1
    let gopher := moveGopher A s.gopher i.spaceDown
    let scan := tickScan A s i
    if scan.hit then
      ({ s with
          score := score
          gopher := gopher.update gopher.xPos gopher.yPos A.explosionTexture
          asteroids := scan.asteroids
          renderScreen := GameEnding }, scan.rand)
    else
      ({ s with score := score, gopher := gopher, asteroids := scan.asteroids }, scan.rand)
  else (s, i.rand)

/-- Lines 212 to 226: the draw block; the only state it changes is the ending
counter and, through it, the screen. -/
def drawBlock (s : GameState) : GameState :=
  if s.renderScreen = GamePlay ∨ s.renderScreen = GameEnding then
    if s.renderScreen = GameEnding then
      let gameEndingIterations := s.gameEndingIterations + 1
      if gameEndingIterations > TARGET_FPS * 2 then
        { s with gameEndingIterations := gameEndingIterations, renderScreen := GameOver }
      else { s with gameEndingIterations := gameEndingIterations }
    else s
  else s

/-- Lines 229 to 231: the comparison of the truncated score with the best. -/
def updateHighestScore (score highestScore : Int) : Int :=
  if Int.tdiv score 4 > highestScore then Int.tdiv score 4 else highestScore

/-- Lines 228 to 251: the game-over block. -/
def gameOverBlock (A : Assets) (s : GameState) (i : Input) (rnd : Nat → Nat) : GameState :=
  if s.renderScreen = GameOver then
    let highestScore := updateHighestScore s.score s.highestScore
    if i.enterPressed then
      let gamePlayStartValues := setupNewGame A.gopherDownTexture A.asteroidTexture (rnd 0)
      { highestScore := highestScore
        renderScreen := gamePlayStartValues.renderScreen
        score := gamePlayStartValues.score
        gopher := gamePlayStartValues.gopher
        asteroids := gamePlayStartValues.asteroids
        gameEndingIterations := gamePlayStartValues.gameEndingIterations }
    else { s with highestScore := highestScore, asteroids := [] }
  else s

/-- The state and the random stream after the menu and update blocks. -/
def afterUpdate (A : Assets) (s : GameState) (i : Input) : GameState × (Nat → Nat) :=
  updateBlock A (menuBlock s i) i

/-- The state after the menu, update and draw blocks. -/
def afterDraw (A : Assets) (s : GameState) (i : Input) : GameState :=
  drawBlock (afterUpdate A s i).1

/-- One iteration of the render loop of `main` (lines 118 to 254). -/
def frame (A : Assets) (s : GameState) (i : Input) : GameState :=
  gameOverBlock A (afterDraw A s i) i (afterUpdate A s i).2

/-- The state after the frames with the given inputs, in order. -/
def run (A : Assets) (s : GameState) (inputs : List Input) : GameState :=
  inputs.foldl (frame A) s

/-! ## Reachable states -/

/-- Every random result of the frame is one that `rand.Intn` can return for
the argument `getRandomYPos` gives it. -/
def Input.valid (i : Input) : Prop := ∀ k, (i.rand k : Int) < randIntnArg

/-- The states the program can be in at the start of an iteration of the
render loop. -/
inductive Reachable (A : Assets) : GameState → Prop
  | start (r : Nat) (hr : (r : Int) < randIntnArg) : Reachable A (initialState A r)
  | step (s : GameState) (i : Input) (hs : Reachable A s) (hi : i.valid) :
      Reachable A (frame A s i)

/-! ## Reading the score, and the obstacles a complete scan would produce -/

/-- The `float64` value that the stored number of quarter units stands for. -/
def scoreValue (q : Int) : ℚ := (q : ℚ) / 4

/-- The obstacles as the moves of lines 186 to 195 leave them when no
collision interrupts the scan: every obstacle moved, the random results
consumed in collection order. -/
def movedAsteroids : List GameEntity → (Nat → Nat) → List GameEntity
  | [], _ => []
  | asteroid :: rest, rnd =>
    moveAsteroid asteroid (rnd 0) ::
      movedAsteroids rest (if recycles asteroid then nextRand rnd else rnd)

/-! ## Overlap of rectangles of integers -/

/-- The overlap of two entities as axis-aligned rectangles of integers, in
the words of the specification, with strict comparisons: the rectangles
share a point of positive extent on both axes.  It is compared below with
the test of lines 197 to 200, which works on `float32` values. -/
@[reducible] def rectanglesOverlap (g m : GameEntity) : Prop :=
  g.xPos < m.xPos + m.width ∧ g.xPos + g.width > m.xPos ∧
  g.yPos < m.yPos + m.height ∧ g.yPos + g.height > m.yPos

/-- The position, the size and the far edges of an entity lie strictly
between `-2^24` and `2^24`, where every integer is a `float32` value. -/
@[reducible] def exactInFloat32 (e : GameEntity) : Prop :=
  (-16777216 < e.xPos ∧ e.xPos < 16777216) ∧
  (-16777216 < e.yPos ∧ e.yPos < 16777216) ∧
  (-16777216 < e.width ∧ e.width < 16777216) ∧
  (-16777216 < e.height ∧ e.height < 16777216) ∧
  (-16777216 < e.xPos + e.width ∧ e.xPos + e.width < 16777216) ∧
  (-16777216 < e.yPos + e.height ∧ e.yPos + e.height < 16777216)

/-! ## A concrete game -/

/-- Textures of 50 by 50 pixels for the player and the obstacle, and of 64 by
64 pixels for the explosion. -/
def sampleAssets : Assets :=
  { explosionTexture := { ID := 1, Width := 64, Height := 64 }
    gopherUpTexture := { ID := 2, Width := 50, Height := 50 }
    gopherDownTexture := { ID := 3, Width := 50, Height := 50 }
    asteroidTexture := { ID := 4, Width := 50, Height := 50 } }

/-- A frame in which Enter is newly pressed; every random result is 0. -/
def pressEnter : Input := { enterPressed := true, spaceDown := false, rand := fun _ => 0 }

/-- A frame without any key; every random result is 0. -/
def noKeys : Input := { enterPressed := false, spaceDown := false, rand := fun _ => 0 }

/-- The state after Enter on the first frame and `n` more frames without keys.
The player falls and wraps to the top once; the obstacle, at height 50,
reaches the player on the 126th tick, so that `sampleRun 124` is the last
state in `GamePlay`, `sampleRun 125` the state after the collision frame and
`sampleRun 245` the first state in `GameOver`. -/
def sampleRun (n : Nat) : GameState :=
  run sampleAssets (initialState sampleAssets 0) (pressEnter :: List.replicate n noKeys)

/-- A frame with the given keys in which every random result is `r`. -/
def keys (enterPressed spaceDown : Bool) (r : Nat) : Input :=
  { enterPressed := enterPressed, spaceDown := spaceDown, rand := fun _ => r }

/-- The state after Enter on the first frame and `n` more frames without keys,
all random results being 200.  The obstacle, at height 250, passes below the
falling player, so that the game is still in `GamePlay` when the score reaches
100.0 on the 400th tick: `quietRun 398` is the state before that tick. -/
def quietRun (n : Nat) : GameState :=
  run sampleAssets (initialState sampleAssets 200)
    (keys true false 200 :: List.replicate n (keys false false 200))

/-- The inputs that take the quiet run from `quietRun 398` to a state with
three obstacles, one tick before the player meets the second of them: 100
frames without keys, 120 frames with Space held, 205 frames without keys, all
random results being 200. -/
def crowdedInputs : List Input :=
  List.replicate 100 (keys false false 200) ++
    (List.replicate 120 (keys false true 200) ++ List.replicate 205 (keys false false 200))

/-- The state of the concrete game after 824 ticks: the first obstacle has
passed the player, the second one is 2 pixels to the right of the player's
right edge, and the third one, placed on tick 800, is further to the right. -/
def crowdedRun : GameState := run sampleAssets (quietRun 398) crowdedInputs

/-! ## A game with a wide obstacle texture -/

/-- Textures of height 0, the one of the obstacle 2147483048 pixels wide, so
that `SCREEN_WIDTH` plus its width is not an `int32`. -/
def wideAssets : Assets :=
  { explosionTexture := { ID := 1, Width := 0, Height := 0 }
    gopherUpTexture := { ID := 2, Width := 0, Height := 0 }
    gopherDownTexture := { ID := 3, Width := 0, Height := 0 }
    asteroidTexture := { ID := 4, Width := 2147483048, Height := 0 } }

/-- The state of the game with the wide obstacle texture after Enter on the
first frame and `n` more frames without keys, all random results being 0. -/
def wideRun (n : Nat) : GameState :=
  run wideAssets (initialState wideAssets 0) (pressEnter :: List.replicate n noKeys)

/-! ## Sessions -/

/-- The inputs of the quiet run: Enter on the first frame, then `n` frames
without keys, all random results being 200. -/
def quietInputs (n : Nat) : List Input :=
  keys true false 200 :: List.replicate n (keys false false 200)

/-- Whether every one of the frames with the given inputs ends with the
screen equal to `GamePlay`. -/
def staysInGamePlay (A : Assets) : GameState → List Input → Bool
  | _, [] => true
  | s, i :: rest =>
    decide ((frame A s i).renderScreen = GamePlay) && staysInGamePlay A (frame A s i) rest

/-- Whether the frame from `s` with input `i` takes a session to `GameOver`:
the screen is not `GameOver` when the frame starts and is `GameOver` after
its draw block. -/
def endsSession (A : Assets) (s : GameState) (i : Input) : Bool :=
  decide (s.renderScreen ≠ GameOver) && decide ((afterDraw A s i).renderScreen = GameOver)

/-- The truncated integer final scores of the sessions that reach `GameOver`
during the frames with the given inputs, oldest first. -/
def finalScores (A : Assets) : GameState → List Input → List Int
  | _, [] => []
  | s, i :: rest =>
    if endsSession A s i then
      Int.tdiv (afterDraw A s i).score 4 :: finalScores A (frame A s i) rest
    else finalScores A (frame A s i) rest

/-- The invariant of the render loop that the proofs below rest on. -/
structure Inv (A : Assets) (s : GameState) : Prop where
  counter_idle :
    s.renderScreen = MainMenu ∨ s.renderScreen = GamePlay → s.gameEndingIterations = 0
  counter_ending :
    s.renderScreen = GameEnding → 1 ≤ s.gameEndingIterations ∧ s.gameEndingIterations ≤ 120
  counter_over : s.renderScreen = GameOver → s.gameEndingIterations = 121
  best_over : s.renderScreen = GameOver → Int.tdiv s.score 4 ≤ s.highestScore
  score_nonneg : 0 ≤ s.score
  count : s.asteroids.length ≤ 16
  height : s.gopher.height = A.gopherDownTexture.Height

/-! ## Basic facts -/

theorem randIntnArg_eq : randIntnArg = 350 := by decide

theorem toInt32_of_range (v : Int) (h1 : -2147483648 ≤ v) (h2 : v < 2147483648) :
    toInt32 v = v := by
  unfold toInt32
  omega

theorem toInt32_range (v : Int) : -2147483648 ≤ toInt32 v ∧ toInt32 v < 2147483648 := by
  unfold toInt32
  omega

theorem scanAsteroids_length (gopher : GameEntity) (l : List GameEntity) (rnd : Nat → Nat) :
    (scanAsteroids gopher l rnd).asteroids.length = l.length := by
  induction l generalizing rnd with
  | nil => rfl
  | cons a rest ih =>
    unfold scanAsteroids
    by_cases hc : collides gopher (moveAsteroid a (rnd 0)) = true
    · simp [hc]
    · simp [hc, ih]

theorem spawnStep_length_le (A : Assets) (score : Int) (l : List GameEntity) (rnd : Nat → Nat)
    (h : l.length ≤ 16) : (spawnStep A score l rnd).1.length ≤ 16 := by
  unfold spawnStep
  by_cases hd : spawnDue score l = true
  · have h15 : l.length ≤ 15 := by
      simp only [spawnDue, Bool.and_eq_true, decide_eq_true_eq] at hd
      exact hd.2
    simp [hd]
    omega
  · simp [hd, h]

theorem inv_initialState (A : Assets) (r : Nat) : Inv A (initialState A r) := by
  constructor <;> simp [initialState, setupNewGame]

/-! ## The blocks, one at a time -/

theorem menuBlock_of_ne (s : GameState) (i : Input) (h : s.renderScreen ≠ MainMenu) :
    menuBlock s i = s := by
  simp [menuBlock, h]

theorem menuBlock_idle (s : GameState) (i : Input) (h : i.enterPressed = false) :
    menuBlock s i = s := by
  simp [menuBlock, h]

theorem menuBlock_start (s : GameState) (i : Input) (h : s.renderScreen = MainMenu)
    (he : i.enterPressed = true) : menuBlock s i = { s with renderScreen := GamePlay } := by
  simp [menuBlock, h, he]

theorem updateBlock_of_ne (A : Assets) (s : GameState) (i : Input)
    (h : s.renderScreen ≠ GamePlay) : updateBlock A s i = (s, i.rand) := by
  simp [updateBlock, h]

theorem updateBlock_hit (A : Assets) (s : GameState) (i : Input)
    (h : s.renderScreen = GamePlay) (hh : (tickScan A s i).hit = true) :
    (updateBlock A s i).1 =
      { s with
        score := s.score + 1
        gopher := (moveGopher A s.gopher i.spaceDown).update
          (moveGopher A s.gopher i.spaceDown).xPos (moveGopher A s.gopher i.spaceDown).yPos
          A.explosionTexture
        asteroids := (tickScan A s i).asteroids
        renderScreen := GameEnding } := by
  simp [updateBlock, h, hh]

theorem updateBlock_miss (A : Assets) (s : GameState) (i : Input)
    (h : s.renderScreen = GamePlay) (hh : (tickScan A s i).hit = false) :
    (updateBlock A s i).1 =
      { s with
        score := s.score + 1
        gopher := moveGopher A s.gopher i.spaceDown
        asteroids := (tickScan A s i).asteroids } := by
  simp [updateBlock, h, hh]

theorem drawBlock_of_ne (s : GameState) (h : s.renderScreen ≠ GameEnding) : drawBlock s = s := by
  simp [drawBlock, h]

theorem drawBlock_continue (s : GameState) (h : s.renderScreen = GameEnding)
    (hc : s.gameEndingIterations + 1 ≤ 120) :
    drawBlock s = { s with gameEndingIterations := s.gameEndingIterations + 1 } := by
  have : ¬ (TARGET_FPS * 2 < s.gameEndingIterations + 1) := by
    simp only [TARGET_FPS]; omega
  simp [drawBlock, h, this]

theorem drawBlock_finish (s : GameState) (h : s.renderScreen = GameEnding)
    (hc : 120 < s.gameEndingIterations + 1) :
    drawBlock s =
      { s with gameEndingIterations := s.gameEndingIterations + 1, renderScreen := GameOver } := by
  have : TARGET_FPS * 2 < s.gameEndingIterations + 1 := by
    simp only [TARGET_FPS]; omega
  simp [drawBlock, h, this]

theorem gameOverBlock_of_ne (A : Assets) (s : GameState) (i : Input) (rnd : Nat → Nat)
    (h : s.renderScreen ≠ GameOver) : gameOverBlock A s i rnd = s := by
  simp [gameOverBlock, h]

theorem tickScan_length_le (A : Assets) (s : GameState) (i : Input)
    (h : s.asteroids.length ≤ 16) : (tickScan A s i).asteroids.length ≤ 16 := by
  unfold tickScan
  rw [scanAsteroids_length]
  exact spawnStep_length_le A _ _ _ h

@[simp] theorem menuBlock_score (s : GameState) (i : Input) :
    (menuBlock s i).score = s.score := by
  unfold menuBlock; split <;> [split; skip] <;> rfl

@[simp] theorem menuBlock_highestScore (s : GameState) (i : Input) :
    (menuBlock s i).highestScore = s.highestScore := by
  unfold menuBlock; split <;> [split; skip] <;> rfl

@[simp] theorem menuBlock_gopher (s : GameState) (i : Input) :
    (menuBlock s i).gopher = s.gopher := by
  unfold menuBlock; split <;> [split; skip] <;> rfl

@[simp] theorem menuBlock_asteroids (s : GameState) (i : Input) :
    (menuBlock s i).asteroids = s.asteroids := by
  unfold menuBlock; split <;> [split; skip] <;> rfl

@[simp] theorem menuBlock_gameEndingIterations (s : GameState) (i : Input) :
    (menuBlock s i).gameEndingIterations = s.gameEndingIterations := by
  unfold menuBlock; split <;> [split; skip] <;> rfl

@[simp] theorem tickScan_menuBlock (A : Assets) (s : GameState) (i : Input) :
    tickScan A (menuBlock s i) i = tickScan A s i := by
  simp [tickScan]

/-- The update block runs in `GamePlay` exactly when the frame starts in
`GamePlay`, or on the main menu with Enter newly pressed. -/
theorem menuBlock_play_iff (s : GameState) (i : Input) :
    (menuBlock s i).renderScreen = GamePlay ↔
      s.renderScreen = GamePlay ∨ (s.renderScreen = MainMenu ∧ i.enterPressed = true) := by
  unfold menuBlock
  cases h : s.renderScreen <;> cases he : i.enterPressed <;> simp [h, he]

/-! ## The frame, case by case -/

/-- On the main menu a frame without Enter changes nothing. -/
theorem frame_menu_idle (A : Assets) (s : GameState) (i : Input)
    (h : s.renderScreen = MainMenu) (he : i.enterPressed = false) : frame A s i = s := by
  have h1 : s.renderScreen ≠ GamePlay := by simp [h]
  have h2 : s.renderScreen ≠ GameEnding := by simp [h]
  have h3 : s.renderScreen ≠ GameOver := by simp [h]
  simp only [frame, afterDraw, afterUpdate, menuBlock_idle s i he, updateBlock_of_ne A s i h1,
    drawBlock_of_ne s h2, gameOverBlock_of_ne A s i _ h3]

/-- A frame that waits out the explosion only advances the ending counter. -/
theorem frame_ending_continue (A : Assets) (s : GameState) (i : Input)
    (h : s.renderScreen = GameEnding) (hc : s.gameEndingIterations + 1 ≤ 120) :
    frame A s i = { s with gameEndingIterations := s.gameEndingIterations + 1 } := by
  have h0 : s.renderScreen ≠ MainMenu := by simp [h]
  have h1 : s.renderScreen ≠ GamePlay := by simp [h]
  simp only [frame, afterDraw, afterUpdate, menuBlock_of_ne s i h0, updateBlock_of_ne A s i h1,
    drawBlock_continue s h hc]
  rw [gameOverBlock_of_ne]
  simp [h]

/-- The frame on which the ending counter passes the threshold runs the
game-over block on the state with the screen set to `GameOver`. -/
theorem frame_ending_finish (A : Assets) (s : GameState) (i : Input)
    (h : s.renderScreen = GameEnding) (hc : 120 < s.gameEndingIterations + 1) :
    frame A s i =
      gameOverBlock A
        { s with gameEndingIterations := s.gameEndingIterations + 1, renderScreen := GameOver }
        i i.rand := by
  have h0 : s.renderScreen ≠ MainMenu := by simp [h]
  have h1 : s.renderScreen ≠ GamePlay := by simp [h]
  simp only [frame, afterDraw, afterUpdate, menuBlock_of_ne s i h0, updateBlock_of_ne A s i h1,
    drawBlock_finish s h hc]

/-- On the game-over screen only the game-over block acts. -/
theorem frame_over (A : Assets) (s : GameState) (i : Input) (h : s.renderScreen = GameOver) :
    frame A s i = gameOverBlock A s i i.rand := by
  have h0 : s.renderScreen ≠ MainMenu := by simp [h]
  have h1 : s.renderScreen ≠ GamePlay := by simp [h]
  have h2 : s.renderScreen ≠ GameEnding := by simp [h]
  simp only [frame, afterDraw, afterUpdate, menuBlock_of_ne s i h0, updateBlock_of_ne A s i h1,
    drawBlock_of_ne s h2]

/-- A frame whose update block runs in `GamePlay` and detects no collision. -/
theorem frame_play_miss (A : Assets) (s : GameState) (i : Input)
    (h : (menuBlock s i).renderScreen = GamePlay)
    (hh : (tickScan A (menuBlock s i) i).hit = false) :
    frame A s i =
      { menuBlock s i with
        score := (menuBlock s i).score + 1
        gopher := moveGopher A (menuBlock s i).gopher i.spaceDown
        asteroids := (tickScan A (menuBlock s i) i).asteroids } := by
  simp only [frame, afterDraw, afterUpdate, updateBlock_miss A _ i h hh]
  rw [drawBlock_of_ne, gameOverBlock_of_ne] <;> simp [h]

/-- A frame whose update block runs in `GamePlay` and detects a collision,
while the ending counter is below the threshold. -/
theorem frame_play_hit (A : Assets) (s : GameState) (i : Input)
    (h : (menuBlock s i).renderScreen = GamePlay)
    (hh : (tickScan A (menuBlock s i) i).hit = true)
    (hc : (menuBlock s i).gameEndingIterations + 1 ≤ 120) :
    frame A s i =
      { menuBlock s i with
        score := (menuBlock s i).score + 1
        gopher := (moveGopher A (menuBlock s i).gopher i.spaceDown).update
          (moveGopher A (menuBlock s i).gopher i.spaceDown).xPos
          (moveGopher A (menuBlock s i).gopher i.spaceDown).yPos A.explosionTexture
        asteroids := (tickScan A (menuBlock s i) i).asteroids
        renderScreen := GameEnding
        gameEndingIterations := (menuBlock s i).gameEndingIterations + 1 } := by
  simp only [frame, afterDraw, afterUpdate, updateBlock_hit A _ i h hh]
  rw [drawBlock_continue _ rfl, gameOverBlock_of_ne]
  · simp
  · exact hc

/-! ## The invariant holds in every reachable state -/

theorem moveGopher_height (A : Assets) (g : GameEntity) (b : Bool) :
    (moveGopher A g b).height = g.height := rfl

theorem inv_frame_play (A : Assets) (s : GameState) (i : Input) (h : Inv A s)
    (hp : (menuBlock s i).renderScreen = GamePlay) : Inv A (frame A s i) := by
  have hc0 : s.gameEndingIterations = 0 := by
    rcases (menuBlock_play_iff s i).1 hp with h1 | ⟨h1, _⟩
    · exact h.counter_idle (Or.inr h1)
    · exact h.counter_idle (Or.inl h1)
  have hlen := tickScan_length_le A s i h.count
  have hsc := h.score_nonneg
  have hht := h.height
  cases hh : (tickScan A s i).hit
  · rw [frame_play_miss A s i hp (by simpa using hh)]
    constructor <;> simp [hp, hc0, hlen, moveGopher_height, hht]
    omega
  · rw [frame_play_hit A s i hp (by simpa using hh) (by simp [hc0])]
    constructor <;> simp [hc0, hlen, moveGopher_height, hht, GameEntity.update]
    omega

theorem inv_gameOverBlock (A : Assets) (s : GameState) (i : Input) (rnd : Nat → Nat)
    (h1 : s.renderScreen = GameOver) (h2 : s.gameEndingIterations = 121)
    (h3 : 0 ≤ s.score) (h4 : s.gopher.height = A.gopherDownTexture.Height) :
    Inv A (gameOverBlock A s i rnd) := by
  have hb : Int.tdiv s.score 4 ≤ updateHighestScore s.score s.highestScore := by
    unfold updateHighestScore
    split <;> omega
  cases he : i.enterPressed
  · constructor <;> simp [gameOverBlock, h1, he, h2, h3, h4, hb]
  · constructor <;> simp [gameOverBlock, h1, he, setupNewGame]

theorem inv_frame (A : Assets) (s : GameState) (i : Input) (h : Inv A s) :
    Inv A (frame A s i) := by
  cases hscr : s.renderScreen
  · cases he : i.enterPressed
    · rw [frame_menu_idle A s i hscr he]; exact h
    · exact inv_frame_play A s i h ((menuBlock_play_iff s i).2 (Or.inr ⟨hscr, he⟩))
  · exact inv_frame_play A s i h ((menuBlock_play_iff s i).2 (Or.inl hscr))
  · have hc := h.counter_ending hscr
    by_cases hlt : s.gameEndingIterations + 1 ≤ 120
    · rw [frame_ending_continue A s i hscr hlt]
      have := h.score_nonneg
      have := h.count
      have := h.height
      constructor <;> simp [hscr, *]
      omega
    · rw [frame_ending_finish A s i hscr (by omega)]
      apply inv_gameOverBlock
      · rfl
      · show s.gameEndingIterations + 1 = 121
        omega
      · exact h.score_nonneg
      · exact h.height
  · rw [frame_over A s i hscr]
    exact inv_gameOverBlock A s i _ hscr (h.counter_over hscr) h.score_nonneg h.height

theorem reachable_inv (A : Assets) (s : GameState) (h : Reachable A s) : Inv A s := by
  induction h with
  | start r _ => exact inv_initialState A r
  | step s i _ _ ih => exact inv_frame A s i ih

theorem inv_run (A : Assets) (inputs : List Input) (s : GameState) (h : Inv A s) :
    Inv A (run A s inputs) := by
  induction inputs generalizing s with
  | nil => exact h
  | cons i rest ih => exact ih (frame A s i) (inv_frame A s i h)

theorem reachable_run (A : Assets) (inputs : List Input) (s : GameState) (h : Reachable A s)
    (hv : ∀ i ∈ inputs, i.valid) : Reachable A (run A s inputs) := by
  induction inputs generalizing s with
  | nil => exact h
  | cons i rest ih =>
    exact ih (frame A s i) (Reachable.step s i h (hv i (List.mem_cons_self i rest)))
      (fun j hj => hv j (List.mem_cons_of_mem i hj))

theorem pressEnter_valid : pressEnter.valid := by
  intro k; simp [pressEnter, randIntnArg_eq]

theorem noKeys_valid : noKeys.valid := by
  intro k; simp [noKeys, randIntnArg_eq]

theorem sampleRun_reachable (n : Nat) : Reachable sampleAssets (sampleRun n) := by
  unfold sampleRun
  apply reachable_run
  · exact Reachable.start 0 (by simp [randIntnArg_eq])
  · intro i hi
    rcases List.mem_cons.1 hi with h | h
    · rw [h]; exact pressEnter_valid
    · rw [List.eq_of_mem_replicate h]; exact noKeys_valid

theorem run_append (A : Assets) (s : GameState) (l1 l2 : List Input) :
    run A s (l1 ++ l2) = run A (run A s l1) l2 := by
  simp [run, List.foldl_append]

/-! ## What the blocks leave unchanged -/

@[simp] theorem updateBlock_highestScore (A : Assets) (s : GameState) (i : Input) :
    (updateBlock A s i).1.highestScore = s.highestScore := by
  unfold updateBlock
  split
  · dsimp only
    split <;> rfl
  · rfl

@[simp] theorem updateBlock_gameEndingIterations (A : Assets) (s : GameState) (i : Input) :
    (updateBlock A s i).1.gameEndingIterations = s.gameEndingIterations := by
  unfold updateBlock
  split
  · dsimp only
    split <;> rfl
  · rfl

@[simp] theorem drawBlock_highestScore (s : GameState) :
    (drawBlock s).highestScore = s.highestScore := by
  unfold drawBlock
  split
  · split
    · dsimp only
      split <;> rfl
    · rfl
  · rfl

@[simp] theorem drawBlock_score (s : GameState) : (drawBlock s).score = s.score := by
  unfold drawBlock
  split
  · split
    · dsimp only
      split <;> rfl
    · rfl
  · rfl

@[simp] theorem afterDraw_highestScore (A : Assets) (s : GameState) (i : Input) :
    (afterDraw A s i).highestScore = s.highestScore := by
  simp [afterDraw, afterUpdate]

theorem le_updateHighestScore (score highestScore : Int) :
    highestScore ≤ updateHighestScore score highestScore := by
  unfold updateHighestScore
  split <;> omega

theorem gameOverBlock_highestScore (A : Assets) (s : GameState) (i : Input) (rnd : Nat → Nat)
    (h : s.renderScreen = GameOver) :
    (gameOverBlock A s i rnd).highestScore = updateHighestScore s.score s.highestScore := by
  cases he : i.enterPressed <;> simp [gameOverBlock, h, he]

theorem le_gameOverBlock_highestScore (A : Assets) (s : GameState) (i : Input)
    (rnd : Nat → Nat) : s.highestScore ≤ (gameOverBlock A s i rnd).highestScore := by
  by_cases h : s.renderScreen = GameOver
  · rw [gameOverBlock_highestScore A s i rnd h]
    exact le_updateHighestScore _ _
  · rw [gameOverBlock_of_ne A s i rnd h]

/-- In a reachable state, a frame whose update block runs in `GamePlay` ends
either in `GamePlay` after a scan without collision, or in `GameEnding` with
the ending counter at 1 after a collision. -/
theorem frame_play_cases (A : Assets) (s : GameState) (i : Input) (h : Inv A s)
    (hp : (menuBlock s i).renderScreen = GamePlay) :
    ((tickScan A s i).hit = false ∧ (frame A s i).renderScreen = GamePlay ∧
        (frame A s i).gameEndingIterations = 0) ∨
      ((tickScan A s i).hit = true ∧ (frame A s i).renderScreen = GameEnding ∧
        (frame A s i).gameEndingIterations = 1) := by
  have hc0 : s.gameEndingIterations = 0 := by
    rcases (menuBlock_play_iff s i).1 hp with h1 | ⟨h1, _⟩
    · exact h.counter_idle (Or.inr h1)
    · exact h.counter_idle (Or.inl h1)
  cases hh : (tickScan A s i).hit
  · left
    rw [frame_play_miss A s i hp (by simpa using hh)]
    simp [hp, hc0]
  · right
    rw [frame_play_hit A s i hp (by simpa using hh) (by simp [hc0])]
    simp [hc0]

theorem frame_play_highestScore (A : Assets) (s : GameState) (i : Input) (h : Inv A s)
    (hp : (menuBlock s i).renderScreen = GamePlay) :
    (frame A s i).highestScore = s.highestScore := by
  have hc0 : s.gameEndingIterations = 0 := by
    rcases (menuBlock_play_iff s i).1 hp with h1 | ⟨h1, _⟩
    · exact h.counter_idle (Or.inr h1)
    · exact h.counter_idle (Or.inl h1)
  cases hh : (tickScan A s i).hit
  · rw [frame_play_miss A s i hp (by simpa using hh)]
    simp
  · rw [frame_play_hit A s i hp (by simpa using hh) (by simp [hc0])]
    simp

theorem frame_play_score (A : Assets) (s : GameState) (i : Input) (h : Inv A s)
    (hp : (menuBlock s i).renderScreen = GamePlay) :
    (frame A s i).score = s.score + 1 := by
  have hc0 : s.gameEndingIterations = 0 := by
    rcases (menuBlock_play_iff s i).1 hp with h1 | ⟨h1, _⟩
    · exact h.counter_idle (Or.inr h1)
    · exact h.counter_idle (Or.inl h1)
  cases hh : (tickScan A s i).hit
  · rw [frame_play_miss A s i hp (by simpa using hh)]
    simp
  · rw [frame_play_hit A s i hp (by simpa using hh) (by simp [hc0])]
    simp

/-- While the counter stays within the threshold, frames in `GameEnding` only
count. -/
theorem run_ending (A : Assets) (inputs : List Input) (s : GameState)
    (h : s.renderScreen = GameEnding)
    (hc : s.gameEndingIterations + inputs.length ≤ 120) :
    run A s inputs =
      { s with gameEndingIterations := s.gameEndingIterations + inputs.length } := by
  induction inputs generalizing s with
  | nil => simp [run]
  | cons i rest ih =>
    have hlen : ((i :: rest).length : Int) = rest.length + 1 := by simp
    rw [hlen] at hc ⊢
    have hf := frame_ending_continue A s i h (by omega)
    have hrun : run A s (i :: rest) = run A (frame A s i) rest := rfl
    have hscr : ({ s with gameEndingIterations := s.gameEndingIterations + 1 } :
        GameState).renderScreen = GameEnding := h
    rw [hrun, hf, ih _ hscr (by show s.gameEndingIterations + 1 + _ ≤ 120; omega)]
    simp only [GameState.mk.injEq, true_and]
    omega

theorem afterDraw_ending_finish (A : Assets) (s : GameState) (i : Input)
    (h : s.renderScreen = GameEnding) (hc : 120 < s.gameEndingIterations + 1) :
    afterDraw A s i =
      { s with gameEndingIterations := s.gameEndingIterations + 1, renderScreen := GameOver } := by
  have h0 : s.renderScreen ≠ MainMenu := by simp [h]
  have h1 : s.renderScreen ≠ GamePlay := by simp [h]
  simp only [afterDraw, afterUpdate, menuBlock_of_ne s i h0, updateBlock_of_ne A s i h1,
    drawBlock_finish s h hc]

theorem updateBlock_score (A : Assets) (s : GameState) (i : Input)
    (h : s.renderScreen = GamePlay) : (updateBlock A s i).1.score = s.score + 1 := by
  unfold updateBlock
  rw [if_pos h]
  dsimp only
  split <;> rfl

theorem scoreValue_succ (q : Int) : scoreValue (q + 1) = scoreValue q + 1 / 4 := by
  simp only [scoreValue]
  push_cast
  ring

theorem scoreValue_nonneg (q : Int) (h : 0 ≤ q) : 0 ≤ scoreValue q := by
  simp only [scoreValue]
  have : (0 : ℚ) ≤ (q : ℚ) := by exact_mod_cast h
  positivity

/-! ## The player's vertical position -/

theorem newGopherY_bounds (g : GameEntity) (b : Bool) (h0 : 0 ≤ g.height)
    (h1 : g.height + 450 < 2147483648) :
    -g.height ≤ newGopherY g b ∧ newGopherY g b ≤ SCREEN_HEIGHT + g.height := by
  unfold newGopherY
  rw [toInt32_of_range (-g.height) (by omega) (by omega),
    toInt32_of_range (SCREEN_HEIGHT + g.height) (by simp only [SCREEN_HEIGHT]; omega)
      (by simp only [SCREEN_HEIGHT]; omega)]
  simp only [SCREEN_HEIGHT]
  generalize (if b = true then toInt32 (g.yPos - GRAVITY) else toInt32 (g.yPos + GRAVITY)) = c
  split
  · omega
  · split <;> omega

theorem setupNewGame_gopher_y (gopherTexture asteroidTexture : Texture2D) (r : Nat)
    (h0 : 0 ≤ gopherTexture.Height) (h1 : gopherTexture.Height < 2147483648) :
    (setupNewGame gopherTexture asteroidTexture r).gopher.yPos =
      225 - gopherTexture.Height / 2 := by
  simp only [setupNewGame, SCREEN_HEIGHT]
  rw [Int.tdiv_eq_ediv h0 (by decide), Int.tdiv_eq_ediv (by decide) (by decide)]
  simp only [toInt32]
  omega

theorem gameOverBlock_gopher (A : Assets) (s : GameState) (i : Input) (rnd : Nat → Nat) :
    (gameOverBlock A s i rnd).gopher = s.gopher ∨
      (gameOverBlock A s i rnd).gopher =
        (setupNewGame A.gopherDownTexture A.asteroidTexture (rnd 0)).gopher := by
  unfold gameOverBlock
  split
  · dsimp only
    split
    · right; rfl
    · left; rfl
  · left; rfl

/-- In every reachable state the player has the height of its texture and a
vertical position inside the wrap interval. -/
theorem reachable_gopher_y (A : Assets) (s : GameState) (hs : Reachable A s)
    (h0 : 0 ≤ A.gopherDownTexture.Height)
    (h1 : A.gopherDownTexture.Height + 450 < 2147483648) :
    -A.gopherDownTexture.Height ≤ s.gopher.yPos ∧
      s.gopher.yPos ≤ SCREEN_HEIGHT + A.gopherDownTexture.Height := by
  have hsetup : ∀ r : Nat,
      -A.gopherDownTexture.Height ≤
          (setupNewGame A.gopherDownTexture A.asteroidTexture r).gopher.yPos ∧
        (setupNewGame A.gopherDownTexture A.asteroidTexture r).gopher.yPos ≤
          SCREEN_HEIGHT + A.gopherDownTexture.Height := by
    intro r
    rw [setupNewGame_gopher_y _ _ r h0 (by omega)]
    simp only [SCREEN_HEIGHT]
    omega
  induction hs with
  | start r _ => exact hsetup r
  | step s i hs _ ih =>
    have hinv := reachable_inv A s hs
    have hht := hinv.height
    have hmove : -A.gopherDownTexture.Height ≤ newGopherY s.gopher i.spaceDown ∧
        newGopherY s.gopher i.spaceDown ≤ SCREEN_HEIGHT + A.gopherDownTexture.Height := by
      have := newGopherY_bounds s.gopher i.spaceDown (by omega) (by omega)
      rw [hht] at this
      exact this
    by_cases hp : (menuBlock s i).renderScreen = GamePlay
    · have hc0 : s.gameEndingIterations = 0 := by
        rcases (menuBlock_play_iff s i).1 hp with h2 | ⟨h2, _⟩
        · exact hinv.counter_idle (Or.inr h2)
        · exact hinv.counter_idle (Or.inl h2)
      cases hh : (tickScan A s i).hit
      · rw [frame_play_miss A s i hp (by simpa using hh)]
        simpa [moveGopher, GameEntity.update] using hmove
      · rw [frame_play_hit A s i hp (by simpa using hh) (by simp [hc0])]
        simpa [moveGopher, GameEntity.update] using hmove
    · have hmenu : menuBlock s i = s := by
        cases hscr : s.renderScreen
        · cases he : i.enterPressed
          · exact menuBlock_idle s i he
          · exact absurd ((menuBlock_play_iff s i).2 (Or.inr ⟨hscr, he⟩)) hp
        · exact absurd ((menuBlock_play_iff s i).2 (Or.inl hscr)) hp
        · exact menuBlock_of_ne s i (by simp [hscr])
        · exact menuBlock_of_ne s i (by simp [hscr])
      have hne : s.renderScreen ≠ GamePlay := by
        intro hscr
        exact hp ((menuBlock_play_iff s i).2 (Or.inl hscr))
      have hd : (afterDraw A s i).gopher = s.gopher := by
        simp only [afterDraw, afterUpdate, hmenu, updateBlock_of_ne A s i hne]
        unfold drawBlock
        split
        · split
          · dsimp only
            split <;> rfl
          · rfl
        · rfl
      have hfr : (frame A s i).gopher =
          (gameOverBlock A (afterDraw A s i) i (afterUpdate A s i).2).gopher := rfl
      rcases gameOverBlock_gopher A (afterDraw A s i) i (afterUpdate A s i).2 with hg | hg
      · rw [hfr, hg, hd]; exact ih
      · rw [hfr, hg]; exact hsetup _

theorem getRandomYPos_bounds (r : Nat) (hr : (r : Int) < randIntnArg) :
    50 ≤ getRandomYPos r ∧ getRandomYPos r < 400 := by
  rw [randIntnArg_eq] at hr
  simp only [getRandomYPos, toInt32]
  omega

/-! ## The screen -/

theorem gameOverBlock_screen (A : Assets) (s : GameState) (i : Input) (rnd : Nat → Nat)
    (h : s.renderScreen = GameOver) :
    (gameOverBlock A s i rnd).renderScreen = if i.enterPressed then GamePlay else GameOver := by
  cases he : i.enterPressed <;> simp [gameOverBlock, h, he, setupNewGame]

/-- A reachable state on the main menu is the state the program starts in. -/
theorem reachable_menu (A : Assets) (s : GameState) (hs : Reachable A s)
    (h : s.renderScreen = MainMenu) : ∃ r : Nat, s = initialState A r := by
  induction hs with
  | start r _ => exact ⟨r, rfl⟩
  | step s i hs _ ih =>
    have hinv := reachable_inv A s hs
    cases hscr : s.renderScreen
    · cases he : i.enterPressed
      · rw [frame_menu_idle A s i hscr he]
        exact ih hscr
      · exfalso
        rcases frame_play_cases A s i hinv
          ((menuBlock_play_iff s i).2 (Or.inr ⟨hscr, he⟩)) with ⟨_, h2, _⟩ | ⟨_, h2, _⟩ <;>
          · rw [h2] at h; cases h
    · exfalso
      rcases frame_play_cases A s i hinv
        ((menuBlock_play_iff s i).2 (Or.inl hscr)) with ⟨_, h2, _⟩ | ⟨_, h2, _⟩ <;>
        · rw [h2] at h; cases h
    · exfalso
      by_cases hlt : s.gameEndingIterations + 1 ≤ 120
      · rw [frame_ending_continue A s i hscr hlt] at h
        rw [hscr] at h; cases h
      · rw [frame_ending_finish A s i hscr (by omega), gameOverBlock_screen _ _ _ _ rfl] at h
        cases he : i.enterPressed <;> simp [he] at h
    · exfalso
      rw [frame_over A s i hscr, gameOverBlock_screen _ _ _ _ hscr] at h
      cases he : i.enterPressed <;> simp [he] at h

theorem scanAsteroids_singleton_miss (g a : GameEntity) (rnd : Nat → Nat)
    (h : collides g (moveAsteroid a (rnd 0)) = false) :
    (scanAsteroids g [a] rnd).hit = false := by
  simp [scanAsteroids, h]

/-- Below `2^24` the conversion to `float32` is exact. -/
theorem float32_of_small (v : Int) (h0 : -16777216 < v) (h1 : v < 16777216) :
    float32 v = { toInt := v } := by
  unfold float32
  rw [if_pos ⟨h0, h1⟩]

theorem Float32.add_def (a b : Float32) : a + b = float32 (a.toInt + b.toInt) := rfl

theorem Float32.lt_def (a b : Float32) : a < b ↔ a.toInt < b.toInt := Iff.rfl

/-- A player whose right edge is not beyond the left edge of the obstacle
does not collide with it, when the values involved are below `2^24`, where
`float32` holds them exactly. -/
theorem collides_false_of_left (g m : GameEntity)
    (hx : -16777216 < g.xPos ∧ g.xPos < 16777216)
    (hw : -16777216 < g.width ∧ g.width < 16777216)
    (hs : -16777216 < g.xPos + g.width ∧ g.xPos + g.width < 16777216)
    (hm : -16777216 < m.xPos ∧ m.xPos < 16777216)
    (h : g.xPos + g.width ≤ m.xPos) :
    collides g m = false := by
  simp only [collides, CheckCollisionRecs, NewRectangle, Bool.and_eq_false_iff,
    decide_eq_false_iff_not]
  left; right
  rw [float32_of_small g.xPos hx.1 hx.2, float32_of_small g.width hw.1 hw.2,
    float32_of_small m.xPos hm.1 hm.2, Float32.add_def,
    float32_of_small (g.xPos + g.width) hs.1 hs.2, gt_iff_lt, Float32.lt_def]
  show ¬ m.xPos < g.xPos + g.width
  omega

/-- Where `float32` holds every value involved exactly, the collision test
is the overlap of the rectangles of integers. -/
theorem collides_iff_rectanglesOverlap (g m : GameEntity) (hg : exactInFloat32 g)
    (hm : exactInFloat32 m) : collides g m = true ↔ rectanglesOverlap g m := by
  obtain ⟨g1, g2, g3, g4, g5, g6⟩ := hg
  obtain ⟨m1, m2, m3, m4, m5, m6⟩ := hm
  simp only [collides, CheckCollisionRecs, NewRectangle, rectanglesOverlap,
    float32_of_small g.xPos g1.1 g1.2, float32_of_small g.yPos g2.1 g2.2,
    float32_of_small g.width g3.1 g3.2, float32_of_small g.height g4.1 g4.2,
    float32_of_small m.xPos m1.1 m1.2, float32_of_small m.yPos m2.1 m2.2,
    float32_of_small m.width m3.1 m3.2, float32_of_small m.height m4.1 m4.2,
    Float32.add_def,
    float32_of_small (g.xPos + g.width) g5.1 g5.2,
    float32_of_small (g.yPos + g.height) g6.1 g6.2,
    float32_of_small (m.xPos + m.width) m5.1 m5.2,
    float32_of_small (m.yPos + m.height) m6.1 m6.2,
    gt_iff_lt, Float32.lt_def, Bool.and_eq_true, decide_eq_true_eq]
  tauto

/-- The conversion to `float32` above `2^24`: to the nearest of the values
2 apart up to `2^25`, 4 apart up to `2^26` and so on, to the even
significand from half way between two of them. -/
theorem float32_rounds :
    (float32 16777216).toInt = 16777216 ∧ (float32 16777217).toInt = 16777216 ∧
    (float32 16777218).toInt = 16777218 ∧ (float32 16777219).toInt = 16777220 ∧
    (float32 (-16777217)).toInt = -16777216 ∧ (float32 (-16777219)).toInt = -16777220 ∧
    (float32 33554433).toInt = 33554432 ∧ (float32 33554434).toInt = 33554432 ∧
    (float32 33554435).toInt = 33554436 ∧ (float32 33554438).toInt = 33554440 ∧
    (float32 2147483647).toInt = 2147483648 ∧
    (float32 (-2147483648)).toInt = -2147483648 ∧
    (float32 2147483520).toInt = 2147483520 ∧ (float32 2147483583).toInt = 2147483520 ∧
    (float32 2147483584).toInt = 2147483648 := by
  decide!

/-- Above `2^24` the collision test is not the overlap of the rectangles of
integers.  An obstacle 16777217 pixels wide at `x = -16776841` reaches one
pixel into a player at `x = 375`, but its width becomes 16777216 in `float32`
and no collision is detected.  An obstacle 16777219 pixels wide at
`x = -16776844` ends where that player begins, but its width becomes 16777220
and a collision is detected. -/
theorem collides_rounds_wide_obstacle :
    (float32 16777217).toInt = 16777216 ∧ (float32 16777219).toInt = 16777220 ∧
    rectanglesOverlap ⟨375, 250, 50, 50, ⟨3, 50, 50⟩⟩
      ⟨-16776841, 250, 16777217, 50, ⟨4, 16777217, 50⟩⟩ ∧
    collides ⟨375, 250, 50, 50, ⟨3, 50, 50⟩⟩
      ⟨-16776841, 250, 16777217, 50, ⟨4, 16777217, 50⟩⟩ = false ∧
    ¬ rectanglesOverlap ⟨375, 250, 50, 50, ⟨3, 50, 50⟩⟩
      ⟨-16776844, 250, 16777219, 50, ⟨4, 16777219, 50⟩⟩ ∧
    collides ⟨375, 250, 50, 50, ⟨3, 50, 50⟩⟩
      ⟨-16776844, 250, 16777219, 50, ⟨4, 16777219, 50⟩⟩ = true := by
  decide!

theorem spawnStep_of_not_due (A : Assets) (score : Int) (l : List GameEntity) (rnd : Nat → Nat)
    (h : spawnDue score l = false) : spawnStep A score l rnd = (l, rnd) := by
  simp [spawnStep, h]

/-- With a player texture at most 794 pixels wide, the first tick after
program start detects no collision: the only obstacle has just moved to
`x = 797`, and the right edge of the centred player is not beyond it. -/
theorem initialState_first_tick_miss (A : Assets) (r : Nat) (i : Input)
    (hg0 : 0 ≤ A.gopherDownTexture.Width) (hg1 : A.gopherDownTexture.Width ≤ 794)
    (ha0 : 0 ≤ A.asteroidTexture.Width) (ha1 : A.asteroidTexture.Width < 2147483648) :
    (tickScan A (initialState A r) i).hit = false := by
  have hspawn : spawnStep A ((initialState A r).score + 1) (initialState A r).asteroids i.rand =
      ((initialState A r).asteroids, i.rand) := by
    apply spawnStep_of_not_due
    simp [spawnDue, initialState, setupNewGame]
  have hl : (initialState A r).asteroids =
      [⟨SCREEN_WIDTH, getRandomYPos r, A.asteroidTexture.Width, A.asteroidTexture.Height,
        A.asteroidTexture⟩] := rfl
  have hgx : (moveGopher A (initialState A r).gopher i.spaceDown).xPos =
      400 - A.gopherDownTexture.Width / 2 := by
    simp only [moveGopher, GameEntity.update, initialState, setupNewGame, SCREEN_WIDTH]
    rw [Int.tdiv_eq_ediv hg0 (by decide), Int.tdiv_eq_ediv (by decide) (by decide)]
    simp only [toInt32]
    omega
  have hgw : (moveGopher A (initialState A r).gopher i.spaceDown).width =
      A.gopherDownTexture.Width := rfl
  have hmx : ∀ k : Nat, (moveAsteroid ⟨SCREEN_WIDTH, getRandomYPos r, A.asteroidTexture.Width,
      A.asteroidTexture.Height, A.asteroidTexture⟩ k).xPos = 797 := by
    intro k
    have hrec : recycles ⟨SCREEN_WIDTH, getRandomYPos r, A.asteroidTexture.Width,
        A.asteroidTexture.Height, A.asteroidTexture⟩ = false := by
      simp only [recycles, SCREEN_WIDTH, GRAVITY, toInt32, decide_eq_false_iff_not]
      omega
    simp only [moveAsteroid, hrec, GameEntity.update, Bool.false_eq_true, if_false]
    decide
  unfold tickScan
  simp only [hspawn, hl]
  apply scanAsteroids_singleton_miss
  apply collides_false_of_left
  · rw [hgx]; omega
  · rw [hgw]; omega
  · rw [hgx, hgw]; omega
  · rw [hmx]; omega
  · rw [hgx, hgw, hmx]; omega

/-! ## The scan and the spawn condition -/

/-- The scan reports a collision exactly when some obstacle, in the position
its move gives it, collides with the player. -/
theorem scanAsteroids_hit_iff (g : GameEntity) (l : List GameEntity) (rnd : Nat → Nat) :
    (scanAsteroids g l rnd).hit = true ↔ ∃ m ∈ movedAsteroids l rnd, collides g m = true := by
  induction l generalizing rnd with
  | nil => simp [scanAsteroids, movedAsteroids]
  | cons a rest ih =>
    unfold scanAsteroids movedAsteroids
    by_cases hc : collides g (moveAsteroid a (rnd 0)) = true
    · simp [hc]
    · simp only [hc, Bool.false_eq_true, if_false, List.mem_cons, exists_eq_or_imp, false_or]
      exact ih _

theorem updateBlock_screen (A : Assets) (s : GameState) (i : Input)
    (h : s.renderScreen = GamePlay) :
    (updateBlock A s i).1.renderScreen =
      if (tickScan A s i).hit then GameEnding else GamePlay := by
  cases hh : (tickScan A s i).hit
  · rw [updateBlock_miss A s i h hh]; simp [h]
  · rw [updateBlock_hit A s i h hh]; simp

theorem updateBlock_asteroids (A : Assets) (s : GameState) (i : Input)
    (h : s.renderScreen = GamePlay) :
    (updateBlock A s i).1.asteroids = (tickScan A s i).asteroids := by
  cases hh : (tickScan A s i).hit
  · rw [updateBlock_miss A s i h hh]
  · rw [updateBlock_hit A s i h hh]

theorem scoreValue_gt_one_iff (q : Int) : 1 < scoreValue q ↔ 4 < q := by
  simp only [scoreValue]
  constructor
  · intro h
    have h4 : (4 : ℚ) < (q : ℚ) := by linarith
    exact_mod_cast h4
  · intro h
    have h4 : (4 : ℚ) < (q : ℚ) := by exact_mod_cast h
    linarith

theorem scoreValue_multiple_iff (q : Int) :
    (∃ k : Int, scoreValue q = 100 * (k : ℚ)) ↔ Int.tmod q 400 = 0 := by
  simp only [scoreValue]
  constructor
  · rintro ⟨k, hk⟩
    have hq : (q : ℚ) = ((400 * k : Int) : ℚ) := by push_cast; linarith
    have hq2 : q = 400 * k := by exact_mod_cast hq
    rw [hq2]
    exact Int.mul_tmod_right 400 k
  · intro h
    obtain ⟨k, hk⟩ := Int.dvd_of_tmod_eq_zero h
    refine ⟨k, ?_⟩
    rw [hk]
    push_cast
    ring

/-- The condition of line 175, read on the value of the score. -/
theorem spawnDue_iff (q : Int) (l : List GameEntity) :
    spawnDue q l = true ↔
      1 < scoreValue q ∧ (∃ k : Int, scoreValue q = 100 * (k : ℚ)) ∧ l.length ≤ 15 := by
  rw [scoreValue_gt_one_iff, scoreValue_multiple_iff]
  simp only [spawnDue, Bool.and_eq_true, decide_eq_true_eq, gt_iff_lt, and_assoc]

/-! ## The quiet run of the concrete game -/

theorem keys_valid (e b : Bool) (r : Nat) (h : r < 350) : (keys e b r).valid := by
  intro k
  simp only [keys, randIntnArg_eq]
  exact_mod_cast h

theorem quietRun_reachable (n : Nat) : Reachable sampleAssets (quietRun n) := by
  unfold quietRun
  apply reachable_run
  · exact Reachable.start 200 (by simp [randIntnArg_eq])
  · intro i hi
    rcases List.mem_cons.1 hi with h | h
    · rw [h]; exact keys_valid _ _ _ (by decide)
    · rw [List.eq_of_mem_replicate h]; exact keys_valid _ _ _ (by decide)

theorem quietRun_add (m n : Nat) :
    quietRun (m + n) =
      run sampleAssets (quietRun m) (List.replicate n (keys false false 200)) := by
  unfold quietRun
  rw [List.replicate_add, ← List.cons_append, run_append]

theorem quietRun_200 : quietRun 200 =
    { highestScore := 0, renderScreen := GamePlay, score := 201,
      gopher := ⟨375, 250, 50, 50, ⟨3, 50, 50⟩⟩,
      asteroids := [⟨197, 250, 50, 50, ⟨4, 50, 50⟩⟩],
      gameEndingIterations := 0 } := by
  decide!

/-- The state of the quiet run before its 400th tick. -/
theorem quietRun_398 : quietRun 398 =
    { highestScore := 0, renderScreen := GamePlay, score := 399,
      gopher := ⟨375, 292, 50, 50, ⟨3, 50, 50⟩⟩,
      asteroids := [⟨505, 250, 50, 50, ⟨4, 50, 50⟩⟩],
      gameEndingIterations := 0 } := by
  rw [show (398 : Nat) = 200 + 198 from rfl, quietRun_add, quietRun_200]
  decide!

/-! ## C1: at most sixteen obstacles -/

/-- **C1.** From program start, after any sequence of frames, whatever the
keys and whatever the random results (in range or not), across any number of
restarts, the obstacle collection has at most 16 members; it also has at most
16 members inside the next frame, right after the update block, where the
spawn step has just run. -/
theorem asteroids_length_le_sixteen (A : Assets) (r : Nat) (inputs : List Input) :
    (run A (initialState A r) inputs).asteroids.length ≤ 16 ∧
    ∀ i : Input,
      (afterUpdate A (run A (initialState A r) inputs) i).1.asteroids.length ≤ 16 := by
  have hinv := inv_run A inputs (initialState A r) (inv_initialState A r)
  refine ⟨hinv.count, ?_⟩
  intro i
  unfold afterUpdate
  by_cases hp : (menuBlock (run A (initialState A r) inputs) i).renderScreen = GamePlay
  · rw [updateBlock_asteroids A _ i hp, tickScan_menuBlock]
    exact tickScan_length_le A _ i hinv.count
  · rw [updateBlock_of_ne A _ i hp, menuBlock_asteroids]
    exact hinv.count

/-! ## C2: the length of the explosion pause -/

/-- **C2, as stated, fails.** In the concrete game the collision frame is the
126th; it already counts as the first tick in `GameEnding`.  After 120 such
ticks (`sampleRun 244`) the counter is 120 and the screen is still
`GameEnding`, not `GameOver`; the screen is `GameOver` only after the 121st. -/
theorem gameEnding_not_over_after_120_ticks :
    (sampleRun 124).renderScreen = GamePlay ∧
    (sampleRun 125).renderScreen = GameEnding ∧
    (sampleRun 125).gameEndingIterations = 1 ∧
    (sampleRun 244).gameEndingIterations = 120 ∧
    (sampleRun 244).renderScreen = GameEnding ∧
    (sampleRun 244).renderScreen ≠ GameOver ∧
    (sampleRun 245).gameEndingIterations = 121 ∧
    (sampleRun 245).renderScreen = GameOver := by
  decide!

/-- **C2, amended.** Let a frame from a reachable state outside `GameEnding`
end in `GameEnding` (the collision frame).  It leaves the ending counter at 1.
Over any further frames, at most 119 of them and whatever their inputs, the
screen stays `GameEnding` and the counter is the number of ticks spent in
`GameEnding` so far, at most 120.  Once 120 ticks have been spent, the draw
block of the next frame, the 121st tick, raises the counter to 121 and sets
the screen to `GameOver`. -/
theorem gameEnding_lasts_121_ticks (A : Assets) (s : GameState) (i : Input)
    (hs : Reachable A s) (h0 : s.renderScreen ≠ GameEnding)
    (h1 : (frame A s i).renderScreen = GameEnding) :
    (frame A s i).gameEndingIterations = 1 ∧
    ∀ inputs : List Input, inputs.length ≤ 119 →
      (run A (frame A s i) inputs).renderScreen = GameEnding ∧
      (run A (frame A s i) inputs).gameEndingIterations = 1 + (inputs.length : Int) ∧
      (inputs.length = 119 → ∀ j : Input,
        (afterDraw A (run A (frame A s i) inputs) j).gameEndingIterations = 121 ∧
        (afterDraw A (run A (frame A s i) inputs) j).renderScreen = GameOver) := by
  have hinv := reachable_inv A s hs
  have hc1 : (frame A s i).gameEndingIterations = 1 := by
    by_cases hp : (menuBlock s i).renderScreen = GamePlay
    · rcases frame_play_cases A s i hinv hp with ⟨_, h2, _⟩ | ⟨_, _, h3⟩
      · rw [h2] at h1; cases h1
      · exact h3
    · exfalso
      cases hscr : s.renderScreen
      · cases he : i.enterPressed
        · rw [frame_menu_idle A s i hscr he, hscr] at h1; cases h1
        · exact hp ((menuBlock_play_iff s i).2 (Or.inr ⟨hscr, he⟩))
      · exact hp ((menuBlock_play_iff s i).2 (Or.inl hscr))
      · exact h0 hscr
      · rw [frame_over A s i hscr] at h1
        cases he : i.enterPressed <;> simp [gameOverBlock, hscr, he, setupNewGame] at h1
  refine ⟨hc1, ?_⟩
  intro inputs hlen
  have hlen2 : (inputs.length : Int) ≤ 119 := by exact_mod_cast hlen
  have hrun := run_ending A inputs (frame A s i) h1 (by rw [hc1]; omega)
  refine ⟨?_, ?_, ?_⟩
  · rw [hrun]; exact h1
  · rw [hrun]; simp [hc1]
  · intro h119 j
    have h119z : (inputs.length : Int) = 119 := by exact_mod_cast h119
    have hscr : (run A (frame A s i) inputs).renderScreen = GameEnding := by
      rw [hrun]; exact h1
    have hcnt : (run A (frame A s i) inputs).gameEndingIterations = 120 := by
      rw [hrun]; simp [hc1, h119z]
    rw [afterDraw_ending_finish A _ j hscr (by rw [hcnt]; decide)]
    simp [hcnt]

/-- The amended C2 at the collision frame of the concrete game. -/
theorem gameEnding_lasts_121_ticks_witness :
    Reachable sampleAssets (sampleRun 124) ∧
    (sampleRun 124).renderScreen ≠ GameEnding ∧
    (frame sampleAssets (sampleRun 124) noKeys).renderScreen = GameEnding ∧
    (frame sampleAssets (sampleRun 124) noKeys).gameEndingIterations = 1 :=
  ⟨sampleRun_reachable 124, by decide!, by decide!,
    (gameEnding_lasts_121_ticks sampleAssets (sampleRun 124) noKeys (sampleRun_reachable 124)
      (by decide!) (by decide!)).1⟩

/-! ## C3: the high score -/

/-- **C3.** Whatever the state and the input, a frame never lowers
`highestScore`.  In a reachable state a frame changes it only if the frame
starts in `GameEnding` and its draw block sets the screen to `GameOver`, and
then the new value is the truncated integer score of the session that ends;
on such a frame the new value is the result of the comparison of lines 229 to
231.  That comparison takes sessions ending with scores 40, 10 and 55 (160,
40 and 220 quarter units) from a high score of 0 to 40, 40 and 55. -/
theorem highestScore_changes_only_at_gameOver (A : Assets) :
    (∀ (s : GameState) (i : Input), s.highestScore ≤ (frame A s i).highestScore) ∧
    (∀ (s : GameState) (i : Input), Reachable A s →
      (frame A s i).highestScore ≠ s.highestScore →
        s.renderScreen = GameEnding ∧ (afterDraw A s i).renderScreen = GameOver ∧
        (frame A s i).highestScore = Int.tdiv s.score 4) ∧
    (∀ (s : GameState) (i : Input), s.renderScreen = GameEnding →
      (afterDraw A s i).renderScreen = GameOver →
        (frame A s i).highestScore = updateHighestScore s.score s.highestScore) ∧
    (scoreValue 160 = 40 ∧ scoreValue 40 = 10 ∧ scoreValue 220 = 55 ∧
      updateHighestScore 160 0 = 40 ∧ updateHighestScore 40 40 = 40 ∧
      updateHighestScore 220 40 = 55) := by
  refine ⟨?_, ?_, ?_, ?_⟩
  · intro s i
    have h := le_gameOverBlock_highestScore A (afterDraw A s i) i (afterUpdate A s i).2
    rw [afterDraw_highestScore] at h
    exact h
  · intro s i hs hne
    have hinv := reachable_inv A s hs
    cases hscr : s.renderScreen
    · exfalso
      cases he : i.enterPressed
      · rw [frame_menu_idle A s i hscr he] at hne; exact hne rfl
      · exact hne (frame_play_highestScore A s i hinv
          ((menuBlock_play_iff s i).2 (Or.inr ⟨hscr, he⟩)))
    · exact absurd (frame_play_highestScore A s i hinv
        ((menuBlock_play_iff s i).2 (Or.inl hscr))) hne
    · by_cases hlt : s.gameEndingIterations + 1 ≤ 120
      · rw [frame_ending_continue A s i hscr hlt] at hne
        exact absurd rfl hne
      · have hfin : 120 < s.gameEndingIterations + 1 := by omega
        have hd := afterDraw_ending_finish A s i hscr hfin
        have hf : (frame A s i).highestScore = updateHighestScore s.score s.highestScore := by
          rw [frame_ending_finish A s i hscr hfin, gameOverBlock_highestScore _ _ _ _ rfl]
        refine ⟨rfl, by rw [hd], ?_⟩
        rw [hf] at hne ⊢
        unfold updateHighestScore at hne ⊢
        split
        · rfl
        · rename_i hgt
          rw [if_neg hgt] at hne
          exact absurd rfl hne
    · exfalso
      apply hne
      rw [frame_over A s i hscr, gameOverBlock_highestScore A s i _ hscr]
      have hb := hinv.best_over hscr
      unfold updateHighestScore
      rw [if_neg (by omega)]
  · intro s i hscr hover
    have hfin : 120 < s.gameEndingIterations + 1 := by
      by_contra hcon
      have h0 : s.renderScreen ≠ MainMenu := by simp [hscr]
      have h1 : s.renderScreen ≠ GamePlay := by simp [hscr]
      simp only [afterDraw, afterUpdate, menuBlock_of_ne s i h0, updateBlock_of_ne A s i h1,
        drawBlock_continue s hscr (by omega)] at hover
      rw [hscr] at hover
      cases hover
    rw [frame_ending_finish A s i hscr hfin, gameOverBlock_highestScore _ _ _ _ rfl]
  · refine ⟨?_, ?_, ?_, by decide, by decide, by decide⟩ <;> norm_num [scoreValue]

/-- C3 at the frame of the concrete game that ends the first session: the
high score goes from 0 to 31, the truncation of the final score 31.5. -/
theorem highestScore_changes_only_at_gameOver_witness :
    Reachable sampleAssets (sampleRun 244) ∧
    (frame sampleAssets (sampleRun 244) noKeys).highestScore ≠ (sampleRun 244).highestScore ∧
    (sampleRun 244).renderScreen = GameEnding ∧
    (afterDraw sampleAssets (sampleRun 244) noKeys).renderScreen = GameOver ∧
    (frame sampleAssets (sampleRun 244) noKeys).highestScore =
      Int.tdiv (sampleRun 244).score 4 :=
  ⟨sampleRun_reachable 244, by decide!,
    (highestScore_changes_only_at_gameOver sampleAssets).2.1 (sampleRun 244) noKeys
      (sampleRun_reachable 244) (by decide!)⟩

/-! ## C4: restart -/

/-- **C4.** From any state whose screen is `GameOver`, a frame in which Enter
is newly pressed ends with the score at 0.0, with an obstacle collection of
exactly one member, placed at `x = SCREEN_WIDTH`, with the ending counter at
0, with the screen `GamePlay` and with the player as `setupNewGame` builds it:
centred, at `x = 400 - width / 2` and `y = 225 - height / 2` for texture
dimensions that are not negative.  `highestScore` has the value that the
comparison of this frame gave it, which is not below the previous one. -/
theorem restart_from_gameOver (A : Assets) (s : GameState) (i : Input)
    (h : s.renderScreen = GameOver) (he : i.enterPressed = true) :
    (frame A s i).score = 0 ∧ scoreValue (frame A s i).score = 0 ∧
    (frame A s i).asteroids =
      [{ xPos := SCREEN_WIDTH
         yPos := getRandomYPos (i.rand 0)
         width := A.asteroidTexture.Width
         height := A.asteroidTexture.Height
         texture := A.asteroidTexture }] ∧
    (frame A s i).asteroids.length = 1 ∧
    (frame A s i).gameEndingIterations = 0 ∧
    (frame A s i).renderScreen = GamePlay ∧
    (frame A s i).gopher =
      (setupNewGame A.gopherDownTexture A.asteroidTexture (i.rand 0)).gopher ∧
    (frame A s i).gopher.width = A.gopherDownTexture.Width ∧
    (frame A s i).gopher.height = A.gopherDownTexture.Height ∧
    (frame A s i).gopher.texture = A.gopherDownTexture ∧
    (0 ≤ A.gopherDownTexture.Width → A.gopherDownTexture.Width < 2147483648 →
      (frame A s i).gopher.xPos = 400 - A.gopherDownTexture.Width / 2) ∧
    (0 ≤ A.gopherDownTexture.Height → A.gopherDownTexture.Height < 2147483648 →
      (frame A s i).gopher.yPos = 225 - A.gopherDownTexture.Height / 2) ∧
    (frame A s i).highestScore = updateHighestScore s.score s.highestScore ∧
    s.highestScore ≤ (frame A s i).highestScore := by
  have hf : frame A s i =
      { highestScore := updateHighestScore s.score s.highestScore
        renderScreen := GamePlay
        score := 0
        gopher := (setupNewGame A.gopherDownTexture A.asteroidTexture (i.rand 0)).gopher
        asteroids := (setupNewGame A.gopherDownTexture A.asteroidTexture (i.rand 0)).asteroids
        gameEndingIterations := 0 } := by
    rw [frame_over A s i h]
    simp [gameOverBlock, h, he, setupNewGame]
  rw [hf]
  refine ⟨rfl, by simp [scoreValue], by simp [setupNewGame], by simp [setupNewGame], rfl, rfl,
    rfl, rfl, rfl, rfl, ?_, ?_, rfl, le_updateHighestScore _ _⟩
  · intro h1 h2
    simp only [setupNewGame, SCREEN_WIDTH]
    rw [Int.tdiv_eq_ediv h1 (by decide), Int.tdiv_eq_ediv (by decide) (by decide)]
    simp only [toInt32]
    omega
  · intro h1 h2
    simp only [setupNewGame, SCREEN_HEIGHT]
    rw [Int.tdiv_eq_ediv h1 (by decide), Int.tdiv_eq_ediv (by decide) (by decide)]
    simp only [toInt32]
    omega

/-- C4 at the first `GameOver` state of the concrete game. -/
theorem restart_from_gameOver_witness :
    (sampleRun 245).renderScreen = GameOver ∧ pressEnter.enterPressed = true ∧
    (frame sampleAssets (sampleRun 245) pressEnter).score = 0 :=
  ⟨by decide!, rfl,
    (restart_from_gameOver sampleAssets (sampleRun 245) pressEnter (by decide!) rfl).1⟩

/-! ## C5: the score during play -/

/-- **C5.** In every reachable state the score is not negative.  In a frame
from a reachable state whose update block runs with the screen equal to
`GamePlay`, the score after the update block, and also at the end of the
frame, is the score before the frame plus exactly 0.25, so it strictly
increases. -/
theorem score_gains_quarter_in_gamePlay (A : Assets) (s : GameState) (hs : Reachable A s) :
    0 ≤ s.score ∧ 0 ≤ scoreValue s.score ∧
    ∀ i : Input, (menuBlock s i).renderScreen = GamePlay →
      scoreValue (afterUpdate A s i).1.score = scoreValue s.score + 1 / 4 ∧
      scoreValue (frame A s i).score = scoreValue s.score + 1 / 4 ∧
      scoreValue s.score < scoreValue (afterUpdate A s i).1.score ∧
      scoreValue s.score < scoreValue (frame A s i).score := by
  have hinv := reachable_inv A s hs
  refine ⟨hinv.score_nonneg, scoreValue_nonneg _ hinv.score_nonneg, ?_⟩
  intro i hp
  have h1 : (afterUpdate A s i).1.score = s.score + 1 := by
    unfold afterUpdate
    rw [updateBlock_score A _ i hp, menuBlock_score]
  have h2 := frame_play_score A s i hinv hp
  rw [h1, h2, scoreValue_succ]
  refine ⟨rfl, rfl, ?_, ?_⟩ <;> linarith

/-- C5 at a state of the concrete game in `GamePlay`. -/
theorem score_gains_quarter_in_gamePlay_witness :
    Reachable sampleAssets (sampleRun 10) ∧
    (menuBlock (sampleRun 10) noKeys).renderScreen = GamePlay ∧
    scoreValue (frame sampleAssets (sampleRun 10) noKeys).score =
      scoreValue (sampleRun 10).score + 1 / 4 :=
  ⟨sampleRun_reachable 10, by decide!,
    ((score_gains_quarter_in_gamePlay sampleAssets (sampleRun 10)
      (sampleRun_reachable 10)).2.2 noKeys (by decide!)).2.1⟩

/-! ## C6: the player stays inside the wrap interval -/

/-- **C6.** Let the player texture have a height `h` with `0 ≤ h` and
`SCREEN_HEIGHT + h` an `int32`.  In every reachable state, so in every state
that GamePlay ticks with any Space input lead to from `setupNewGame`, the
player has height `h` and `-h ≤ y ≤ SCREEN_HEIGHT + h`.  The position a tick
computes is again in that interval, and when it is not the candidate
`y - GRAVITY` or `y + GRAVITY`, that is when a wrap correction assigned it,
it is one of the two endpoints. -/
theorem gopher_y_in_wrap_interval (A : Assets) (s : GameState) (hs : Reachable A s)
    (h0 : 0 ≤ A.gopherDownTexture.Height)
    (h1 : A.gopherDownTexture.Height + 450 < 2147483648) :
    s.gopher.height = A.gopherDownTexture.Height ∧
    -s.gopher.height ≤ s.gopher.yPos ∧ s.gopher.yPos ≤ SCREEN_HEIGHT + s.gopher.height ∧
    ∀ spaceDown : Bool,
      -s.gopher.height ≤ newGopherY s.gopher spaceDown ∧
      newGopherY s.gopher spaceDown ≤ SCREEN_HEIGHT + s.gopher.height ∧
      (newGopherY s.gopher spaceDown ≠
          (if spaceDown then toInt32 (s.gopher.yPos - GRAVITY)
            else toInt32 (s.gopher.yPos + GRAVITY)) →
        newGopherY s.gopher spaceDown = -s.gopher.height ∨
        newGopherY s.gopher spaceDown = SCREEN_HEIGHT + s.gopher.height) := by
  have hht := (reachable_inv A s hs).height
  have hy := reachable_gopher_y A s hs h0 h1
  rw [hht]
  refine ⟨rfl, hy.1, hy.2, ?_⟩
  intro b
  have hb := newGopherY_bounds s.gopher b (by omega) (by omega)
  rw [hht] at hb
  refine ⟨hb.1, hb.2, ?_⟩
  unfold newGopherY
  rw [hht, toInt32_of_range (-A.gopherDownTexture.Height) (by omega) (by omega),
    toInt32_of_range (SCREEN_HEIGHT + A.gopherDownTexture.Height)
      (by simp only [SCREEN_HEIGHT]; omega) (by simp only [SCREEN_HEIGHT]; omega)]
  dsimp only
  generalize (if b = true then toInt32 (s.gopher.yPos - GRAVITY)
    else toInt32 (s.gopher.yPos + GRAVITY)) = c
  intro hne
  by_cases hn1 : c < -A.gopherDownTexture.Height
  · right; rw [if_pos hn1]
  · by_cases hn2 : c > SCREEN_HEIGHT + A.gopherDownTexture.Height
    · left; rw [if_neg hn1, if_pos hn2]
    · rw [if_neg hn1, if_neg hn2] at hne
      exact absurd rfl hne

/-- C6 in the concrete game, in the state right after the wrap from the
bottom of the window to the top: the player is at the endpoint `-50`. -/
theorem gopher_y_in_wrap_interval_witness :
    Reachable sampleAssets (sampleRun 100) ∧
    (0 : Int) ≤ sampleAssets.gopherDownTexture.Height ∧
    sampleAssets.gopherDownTexture.Height + 450 < 2147483648 ∧
    (sampleRun 100).gopher.yPos = -50 ∧
    -(sampleRun 100).gopher.height ≤ (sampleRun 100).gopher.yPos ∧
    (sampleRun 100).gopher.yPos ≤ SCREEN_HEIGHT + (sampleRun 100).gopher.height :=
  ⟨sampleRun_reachable 100, by decide, by decide, by decide!,
    (gopher_y_in_wrap_interval sampleAssets (sampleRun 100) (sampleRun_reachable 100)
      (by decide) (by decide)).2.1,
    (gopher_y_in_wrap_interval sampleAssets (sampleRun 100) (sampleRun_reachable 100)
      (by decide) (by decide)).2.2.1⟩

/-! ## C7: the band of random vertical positions -/

/-- **C7.** The argument that `getRandomYPos` passes to `rand.Intn` is 350.
For every result `r` that the call can return, `getRandomYPos` returns `y`
with `50 ≤ y < SCREEN_HEIGHT - 50 = 400`.  Hence an obstacle that the move
recycles with that result, the obstacle that the spawn step appends with it
and the first obstacle of `setupNewGame` have their `y` in `[50, 400)`. -/
theorem getRandomYPos_in_band (r : Nat) (hr : (r : Int) < randIntnArg) :
    randIntnArg = 350 ∧ SCREEN_HEIGHT - 50 = 400 ∧
    50 ≤ getRandomYPos r ∧ getRandomYPos r < SCREEN_HEIGHT - 50 ∧
    (∀ asteroid : GameEntity, recycles asteroid = true →
      (moveAsteroid asteroid r).yPos = getRandomYPos r ∧
      50 ≤ (moveAsteroid asteroid r).yPos ∧ (moveAsteroid asteroid r).yPos < 400) ∧
    (∀ (A : Assets) (score : Int) (asteroids : List GameEntity) (rnd : Nat → Nat),
      rnd 0 = r → spawnDue score asteroids = true →
        ∃ a : GameEntity, (spawnStep A score asteroids rnd).1 = asteroids ++ [a] ∧
          50 ≤ a.yPos ∧ a.yPos < 400) ∧
    (∀ (gopherTexture asteroidTexture : Texture2D),
      ∀ a ∈ (setupNewGame gopherTexture asteroidTexture r).asteroids,
        50 ≤ a.yPos ∧ a.yPos < 400) := by
  have hb := getRandomYPos_bounds r hr
  refine ⟨randIntnArg_eq, by decide, hb.1, by simpa [SCREEN_HEIGHT] using hb.2, ?_, ?_, ?_⟩
  · intro a ha
    have : (moveAsteroid a r).yPos = getRandomYPos r := by
      simp [moveAsteroid, ha, GameEntity.update]
    rw [this]
    exact ⟨rfl, hb⟩
  · intro A score l rnd hr0 hd
    refine ⟨{ xPos := SCREEN_WIDTH
              yPos := getRandomYPos (rnd 0)
              width := A.asteroidTexture.Width
              height := A.asteroidTexture.Height
              texture := A.asteroidTexture }, by simp only [spawnStep, hd, if_true], ?_⟩
    rw [hr0]
    exact hb
  · intro g t a ha
    simp only [setupNewGame, List.nil_append, List.mem_singleton] at ha
    rw [ha]
    exact hb

/-- C7 at the largest result that `rand.Intn(350)` can return. -/
theorem getRandomYPos_in_band_witness :
    ((349 : Nat) : Int) < randIntnArg ∧ getRandomYPos 349 = 399 ∧
    50 ≤ getRandomYPos 349 ∧ getRandomYPos 349 < SCREEN_HEIGHT - 50 :=
  ⟨by decide, by decide, (getRandomYPos_in_band 349 (by decide)).2.2.1,
    (getRandomYPos_in_band 349 (by decide)).2.2.2.1⟩

/-! ## C8: the transitions of the screen -/

/-- **C8, as stated, fails.** In the concrete game the state `sampleRun 244`
is reachable, its screen is `GameEnding` and its ending counter is 120.  A
frame from it with Enter newly pressed raises the counter to 121, sets the
screen to `GameOver` in the draw block and restarts in the game-over block of
the same frame: the frame starts in `GameEnding` and ends in `GamePlay`. -/
theorem gameEnding_to_gamePlay_in_one_frame :
    Reachable sampleAssets (sampleRun 244) ∧ pressEnter.valid ∧
    (sampleRun 244).renderScreen = GameEnding ∧
    (sampleRun 244).gameEndingIterations = 120 ∧
    (afterDraw sampleAssets (sampleRun 244) pressEnter).renderScreen = GameOver ∧
    (frame sampleAssets (sampleRun 244) pressEnter).renderScreen = GamePlay :=
  ⟨sampleRun_reachable 244, pressEnter_valid, by decide!, by decide!, by decide!, by decide!⟩

/-- **C8, amended.** For every reachable state and every input, the screen at
the end of the frame is the screen at its start, or the change is one of
`MainMenu → GamePlay`, `GamePlay → GameEnding`, `GameEnding → GameOver`,
`GameOver → GamePlay`, or it is `GameEnding → GamePlay`, on the frame on which
the counter passes 120 while Enter is newly pressed, or it is
`MainMenu → GameEnding`, on a frame with Enter whose first tick detects a
collision.  The last one cannot happen when the player texture is at most 794
pixels wide and the obstacle texture has a width that is not negative.
`MainMenu` is never re-entered. -/
theorem screen_transitions (A : Assets) (s : GameState) (i : Input) (hs : Reachable A s) :
    ((frame A s i).renderScreen = s.renderScreen ∨
      (s.renderScreen = MainMenu ∧ (frame A s i).renderScreen = GamePlay) ∨
      (s.renderScreen = GamePlay ∧ (frame A s i).renderScreen = GameEnding) ∨
      (s.renderScreen = GameEnding ∧ (frame A s i).renderScreen = GameOver) ∨
      (s.renderScreen = GameOver ∧ (frame A s i).renderScreen = GamePlay) ∨
      (s.renderScreen = GameEnding ∧ (frame A s i).renderScreen = GamePlay ∧
        s.gameEndingIterations = 120 ∧ i.enterPressed = true) ∨
      (s.renderScreen = MainMenu ∧ (frame A s i).renderScreen = GameEnding ∧
        i.enterPressed = true ∧ (tickScan A s i).hit = true)) ∧
    ((frame A s i).renderScreen = MainMenu → s.renderScreen = MainMenu) ∧
    (0 ≤ A.gopherDownTexture.Width → A.gopherDownTexture.Width ≤ 794 →
      0 ≤ A.asteroidTexture.Width → A.asteroidTexture.Width < 2147483648 →
        ¬ (s.renderScreen = MainMenu ∧ (frame A s i).renderScreen = GameEnding)) := by
  have hinv := reachable_inv A s hs
  cases hscr : s.renderScreen
  · cases he : i.enterPressed
    · rw [frame_menu_idle A s i hscr he, hscr]
      simp
    · have hp := (menuBlock_play_iff s i).2 (Or.inr ⟨hscr, he⟩)
      rcases frame_play_cases A s i hinv hp with ⟨h1, h2, _⟩ | ⟨h1, h2, _⟩
      · rw [h2]; simp
      · rw [h2]
        refine ⟨by simp [h1], by simp, ?_⟩
        intro hg0 hg1 ha0 ha1 _
        obtain ⟨r, hr⟩ := reachable_menu A s hs hscr
        rw [hr, initialState_first_tick_miss A r i hg0 hg1 ha0 ha1] at h1
        cases h1
  · have hp := (menuBlock_play_iff s i).2 (Or.inl hscr)
    rcases frame_play_cases A s i hinv hp with ⟨_, h2, _⟩ | ⟨_, h2, _⟩ <;>
      · rw [h2]; simp
  · by_cases hlt : s.gameEndingIterations + 1 ≤ 120
    · rw [frame_ending_continue A s i hscr hlt]
      simp [hscr]
    · have hc := hinv.counter_ending hscr
      have h120 : s.gameEndingIterations = 120 := by omega
      rw [frame_ending_finish A s i hscr (by omega), gameOverBlock_screen _ _ _ _ rfl]
      cases he : i.enterPressed <;> simp [h120]
  · rw [frame_over A s i hscr, gameOverBlock_screen _ _ _ _ hscr]
    cases he : i.enterPressed <;> simp

/-- The amended C8 at the frame of the concrete game that goes from
`GameEnding` to `GamePlay`. -/
theorem screen_transitions_witness :
    Reachable sampleAssets (sampleRun 244) ∧
    ((frame sampleAssets (sampleRun 244) pressEnter).renderScreen = MainMenu →
      (sampleRun 244).renderScreen = MainMenu) ∧
    (sampleRun 244).renderScreen = GameEnding ∧
    (frame sampleAssets (sampleRun 244) pressEnter).renderScreen = GamePlay :=
  ⟨sampleRun_reachable 244,
    (screen_transitions sampleAssets (sampleRun 244) pressEnter (sampleRun_reachable 244)).2.1,
    by decide!, by decide!⟩

/-! ## C10: the spawn step -/

/-- **C10.** In a tick in `GamePlay`, with `score` the score already
incremented for this tick: the collection has one more member after the
update block than before it if and only if `score > 1`, `score` is a multiple
of 100 and the count is at most 15.  In that case the spawn step appends
exactly one obstacle at the end of the collection, with `x = SCREEN_WIDTH`,
the dimensions and texture of the obstacle texture, and `y` the value of
`getRandomYPos`, in `[50, 400)` for a random result in range; the members
already there stay in front of it in their order.  Otherwise the spawn step
leaves the collection and the random stream as they are and the count does
not change in the tick. -/
theorem spawn_iff_due (A : Assets) (s : GameState) (i : Input)
    (h : s.renderScreen = GamePlay) :
    ((updateBlock A s i).1.asteroids.length = s.asteroids.length + 1 ↔
      (1 < scoreValue (s.score + 1) ∧ (∃ k : Int, scoreValue (s.score + 1) = 100 * (k : ℚ)) ∧
        s.asteroids.length ≤ 15)) ∧
    ((1 < scoreValue (s.score + 1) ∧ (∃ k : Int, scoreValue (s.score + 1) = 100 * (k : ℚ)) ∧
        s.asteroids.length ≤ 15) →
      (spawnStep A (s.score + 1) s.asteroids i.rand).1 =
          s.asteroids ++ [{ xPos := SCREEN_WIDTH
                            yPos := getRandomYPos (i.rand 0)
                            width := A.asteroidTexture.Width
                            height := A.asteroidTexture.Height
                            texture := A.asteroidTexture }] ∧
        (i.valid → 50 ≤ getRandomYPos (i.rand 0) ∧ getRandomYPos (i.rand 0) < 400)) ∧
    (¬ (1 < scoreValue (s.score + 1) ∧ (∃ k : Int, scoreValue (s.score + 1) = 100 * (k : ℚ)) ∧
        s.asteroids.length ≤ 15) →
      spawnStep A (s.score + 1) s.asteroids i.rand = (s.asteroids, i.rand) ∧
        (updateBlock A s i).1.asteroids.length = s.asteroids.length) := by
  rw [← spawnDue_iff]
  have hlen : (updateBlock A s i).1.asteroids.length =
      (spawnStep A (s.score + 1) s.asteroids i.rand).1.length := by
    rw [updateBlock_asteroids A s i h]
    exact scanAsteroids_length _ _ _
  rw [hlen]
  cases hd : spawnDue (s.score + 1) s.asteroids
  · have hsp := spawnStep_of_not_due A (s.score + 1) s.asteroids i.rand hd
    rw [hsp]
    simp
  · have hsp : (spawnStep A (s.score + 1) s.asteroids i.rand).1 =
        s.asteroids ++ [{ xPos := SCREEN_WIDTH
                          yPos := getRandomYPos (i.rand 0)
                          width := A.asteroidTexture.Width
                          height := A.asteroidTexture.Height
                          texture := A.asteroidTexture }] := by
      simp only [spawnStep, hd, if_true]
    rw [hsp]
    refine ⟨by simp, ?_, by simp⟩
    intro _
    exact ⟨rfl, fun hv => getRandomYPos_bounds (i.rand 0) (hv 0)⟩

/-- C10 at the 400th tick of the quiet run of the concrete game, where the
score reaches 100.0 and the second obstacle is appended. -/
theorem spawn_iff_due_witness :
    Reachable sampleAssets (quietRun 398) ∧
    (quietRun 398).renderScreen = GamePlay ∧
    (updateBlock sampleAssets (quietRun 398) (keys false false 200)).1.asteroids.length =
      (quietRun 398).asteroids.length + 1 ∧
    (1 < scoreValue ((quietRun 398).score + 1) ∧
      (∃ k : Int, scoreValue ((quietRun 398).score + 1) = 100 * (k : ℚ)) ∧
      (quietRun 398).asteroids.length ≤ 15) :=
  ⟨quietRun_reachable 398, by rw [quietRun_398],
    by rw [quietRun_398]; decide!,
    (spawn_iff_due sampleAssets (quietRun 398) (keys false false 200)
      (by rw [quietRun_398])).1.mp (by rw [quietRun_398]; decide!)⟩

/-! ## The obstacles in reachable states -/

theorem drawBlock_asteroids (s : GameState) : (drawBlock s).asteroids = s.asteroids := by
  unfold drawBlock
  split
  · split
    · dsimp only
      split <;> rfl
    · rfl
  · rfl

theorem drawBlock_gopher (s : GameState) : (drawBlock s).gopher = s.gopher := by
  unfold drawBlock
  split
  · split
    · dsimp only
      split <;> rfl
    · rfl
  · rfl

theorem gameOverBlock_asteroids (A : Assets) (s : GameState) (i : Input) (rnd : Nat → Nat) :
    (gameOverBlock A s i rnd).asteroids = s.asteroids ∨
      (gameOverBlock A s i rnd).asteroids = [] ∨
      (gameOverBlock A s i rnd).asteroids =
        (setupNewGame A.gopherDownTexture A.asteroidTexture (rnd 0)).asteroids := by
  unfold gameOverBlock
  split
  · dsimp only
    split
    · right; right; rfl
    · right; left; rfl
  · left; rfl

theorem nextRand_valid (rnd : Nat → Nat) (h : ∀ k, (rnd k : Int) < randIntnArg) :
    ∀ k, (nextRand rnd k : Int) < randIntnArg :=
  fun k => h (k + 1)

theorem spawnStep_rand_valid (A : Assets) (score : Int) (l : List GameEntity) (rnd : Nat → Nat)
    (h : ∀ k, (rnd k : Int) < randIntnArg) :
    ∀ k, ((spawnStep A score l rnd).2 k : Int) < randIntnArg := by
  unfold spawnStep
  split
  · exact nextRand_valid rnd h
  · exact h

theorem scanAsteroids_rand_valid (g : GameEntity) (l : List GameEntity) (rnd : Nat → Nat)
    (h : ∀ k, (rnd k : Int) < randIntnArg) :
    ∀ k, ((scanAsteroids g l rnd).rand k : Int) < randIntnArg := by
  induction l generalizing rnd with
  | nil => exact h
  | cons a rest ih =>
    have h1 : ∀ k, ((if recycles a = true then nextRand rnd else rnd) k : Int) < randIntnArg := by
      split
      · exact nextRand_valid rnd h
      · exact h
    unfold scanAsteroids
    dsimp only
    split
    · exact h1
    · exact ih _ h1

theorem updateBlock_rand (A : Assets) (s : GameState) (i : Input)
    (h : s.renderScreen = GamePlay) : (updateBlock A s i).2 = (tickScan A s i).rand := by
  unfold updateBlock
  rw [if_pos h]
  dsimp only
  split <;> rfl

theorem tickScan_rand_valid (A : Assets) (s : GameState) (i : Input) (h : i.valid) :
    ∀ k, ((tickScan A s i).rand k : Int) < randIntnArg := by
  unfold tickScan
  exact scanAsteroids_rand_valid _ _ _ (spawnStep_rand_valid A _ _ _ h)

theorem afterUpdate_rand_valid (A : Assets) (s : GameState) (i : Input) (h : i.valid) :
    ∀ k, ((afterUpdate A s i).2 k : Int) < randIntnArg := by
  unfold afterUpdate
  by_cases hp : (menuBlock s i).renderScreen = GamePlay
  · rw [updateBlock_rand A _ i hp]
    exact tickScan_rand_valid A _ i h
  · rw [updateBlock_of_ne A _ i hp]
    exact h

/-- A property of obstacles that the move keeps is kept by the scan. -/
theorem scanAsteroids_forall (P : GameEntity → Prop) (g : GameEntity)
    (hmove : ∀ (a : GameEntity) (r : Nat), (r : Int) < randIntnArg → P a → P (moveAsteroid a r))
    (l : List GameEntity) (rnd : Nat → Nat) (hl : ∀ a ∈ l, P a)
    (h : ∀ k, (rnd k : Int) < randIntnArg) :
    ∀ a ∈ (scanAsteroids g l rnd).asteroids, P a := by
  induction l generalizing rnd with
  | nil => intro a ha; simp [scanAsteroids] at ha
  | cons b rest ih =>
    have hb : P (moveAsteroid b (rnd 0)) := hmove b (rnd 0) (h 0) (hl b (List.mem_cons_self b rest))
    have hrest : ∀ a ∈ rest, P a := fun a ha => hl a (List.mem_cons_of_mem b ha)
    have h1 : ∀ k, ((if recycles b = true then nextRand rnd else rnd) k : Int) < randIntnArg := by
      split
      · exact nextRand_valid rnd h
      · exact h
    unfold scanAsteroids
    dsimp only
    split
    · intro a ha
      rcases List.mem_cons.1 ha with h2 | h2
      · rw [h2]; exact hb
      · exact hrest a h2
    · intro a ha
      rcases List.mem_cons.1 ha with h2 | h2
      · rw [h2]; exact hb
      · exact ih _ hrest h1 a h2

/-- A property that holds of a freshly placed obstacle and that the move
keeps holds of the collection after the spawn step and the scan. -/
theorem tickScan_forall (A : Assets) (P : GameEntity → Prop)
    (hnew : ∀ r : Nat, (r : Int) < randIntnArg →
      P ⟨SCREEN_WIDTH, getRandomYPos r, A.asteroidTexture.Width, A.asteroidTexture.Height,
        A.asteroidTexture⟩)
    (hmove : ∀ (a : GameEntity) (r : Nat), (r : Int) < randIntnArg → P a → P (moveAsteroid a r))
    (s : GameState) (i : Input) (hi : i.valid) (hl : ∀ a ∈ s.asteroids, P a) :
    ∀ a ∈ (tickScan A s i).asteroids, P a := by
  unfold tickScan
  apply scanAsteroids_forall P _ hmove
  · unfold spawnStep
    split
    · intro a ha
      rcases List.mem_append.1 ha with h2 | h2
      · exact hl a h2
      · rw [List.mem_singleton.1 h2]; exact hnew _ (hi 0)
    · exact hl
  · exact spawnStep_rand_valid A _ _ _ hi

theorem frame_asteroids_forall (A : Assets) (P : GameEntity → Prop)
    (hnew : ∀ r : Nat, (r : Int) < randIntnArg →
      P ⟨SCREEN_WIDTH, getRandomYPos r, A.asteroidTexture.Width, A.asteroidTexture.Height,
        A.asteroidTexture⟩)
    (hmove : ∀ (a : GameEntity) (r : Nat), (r : Int) < randIntnArg → P a → P (moveAsteroid a r))
    (s : GameState) (i : Input) (hi : i.valid) (hl : ∀ a ∈ s.asteroids, P a) :
    ∀ a ∈ (frame A s i).asteroids, P a := by
  have hu : ∀ a ∈ (afterDraw A s i).asteroids, P a := by
    unfold afterDraw
    rw [drawBlock_asteroids]
    unfold afterUpdate
    by_cases hp : (menuBlock s i).renderScreen = GamePlay
    · rw [updateBlock_asteroids A _ i hp, tickScan_menuBlock]
      exact tickScan_forall A P hnew hmove s i hi hl
    · rw [updateBlock_of_ne A _ i hp, menuBlock_asteroids]
      exact hl
  unfold frame
  rcases gameOverBlock_asteroids A (afterDraw A s i) i (afterUpdate A s i).2 with h | h | h
  · rw [h]; exact hu
  · rw [h]; intro a ha; cases ha
  · rw [h]
    intro a ha
    simp only [setupNewGame, List.nil_append, List.mem_singleton] at ha
    rw [ha]
    exact hnew _ (afterUpdate_rand_valid A s i hi 0)

theorem reachable_asteroids_forall (A : Assets) (P : GameEntity → Prop)
    (hnew : ∀ r : Nat, (r : Int) < randIntnArg →
      P ⟨SCREEN_WIDTH, getRandomYPos r, A.asteroidTexture.Width, A.asteroidTexture.Height,
        A.asteroidTexture⟩)
    (hmove : ∀ (a : GameEntity) (r : Nat), (r : Int) < randIntnArg → P a → P (moveAsteroid a r))
    (s : GameState) (hs : Reachable A s) : ∀ a ∈ s.asteroids, P a := by
  induction hs with
  | start r hr =>
    intro a ha
    simp only [initialState, setupNewGame, List.nil_append, List.mem_singleton] at ha
    rw [ha]
    exact hnew r hr
  | step s i _ hi ih => exact frame_asteroids_forall A P hnew hmove s i hi ih

/-! ## C11: the motion of the player -/

theorem updateBlock_gopher_miss (A : Assets) (s : GameState) (i : Input)
    (h : s.renderScreen = GamePlay) (hh : (tickScan A s i).hit = false) :
    (updateBlock A s i).1.gopher = moveGopher A s.gopher i.spaceDown := by
  rw [updateBlock_miss A s i h hh]

theorem updateBlock_gopher_hit (A : Assets) (s : GameState) (i : Input)
    (h : s.renderScreen = GamePlay) (hh : (tickScan A s i).hit = true) :
    (updateBlock A s i).1.gopher =
      { moveGopher A s.gopher i.spaceDown with texture := A.explosionTexture } := by
  rw [updateBlock_hit A s i h hh]
  rfl

/-- **C11.** The motion step of a tick gives the player the ascending texture
and the candidate `y - GRAVITY` when Space is held, the descending texture and
the candidate `y + GRAVITY` otherwise; the new `y` is `SCREEN_HEIGHT + h` if
the candidate is below `-h`, is `-h` if the candidate is above
`SCREEN_HEIGHT + h`, and is the candidate otherwise; `x`, width and height
are unchanged.  This holds for every player with all expressions read as the
`int32` expressions of the source.  In a tick in `GamePlay` from a reachable
state, with a player texture of height `h`, `0 ≤ h`, small enough that
`SCREEN_HEIGHT + h + GRAVITY` is an `int32`, no expression wraps around and
it holds of the plain integers.  The update block leaves the player as the
motion step made it, except that a collision in this tick replaces the
texture. -/
theorem gopher_motion_step (A : Assets) :
    (∀ (g : GameEntity) (spaceDown : Bool),
      (moveGopher A g spaceDown).texture =
        (if spaceDown then A.gopherUpTexture else A.gopherDownTexture) ∧
      (moveGopher A g spaceDown).yPos =
        (if (if spaceDown then toInt32 (g.yPos - GRAVITY) else toInt32 (g.yPos + GRAVITY)) <
            toInt32 (-g.height) then toInt32 (SCREEN_HEIGHT + g.height)
          else if (if spaceDown then toInt32 (g.yPos - GRAVITY)
              else toInt32 (g.yPos + GRAVITY)) > toInt32 (SCREEN_HEIGHT + g.height) then
            toInt32 (-g.height)
          else (if spaceDown then toInt32 (g.yPos - GRAVITY)
            else toInt32 (g.yPos + GRAVITY))) ∧
      (moveGopher A g spaceDown).xPos = g.xPos ∧
      (moveGopher A g spaceDown).width = g.width ∧
      (moveGopher A g spaceDown).height = g.height) ∧
    (∀ (s : GameState) (i : Input), Reachable A s →
      (menuBlock s i).renderScreen = GamePlay →
      0 ≤ A.gopherDownTexture.Height → A.gopherDownTexture.Height + 453 < 2147483648 →
        (moveGopher A s.gopher i.spaceDown).texture =
          (if i.spaceDown then A.gopherUpTexture else A.gopherDownTexture) ∧
        (moveGopher A s.gopher i.spaceDown).yPos =
          (if (if i.spaceDown then s.gopher.yPos - GRAVITY else s.gopher.yPos + GRAVITY) <
              -s.gopher.height then SCREEN_HEIGHT + s.gopher.height
            else if (if i.spaceDown then s.gopher.yPos - GRAVITY
                else s.gopher.yPos + GRAVITY) > SCREEN_HEIGHT + s.gopher.height then
              -s.gopher.height
            else (if i.spaceDown then s.gopher.yPos - GRAVITY
              else s.gopher.yPos + GRAVITY)) ∧
        (moveGopher A s.gopher i.spaceDown).xPos = s.gopher.xPos ∧
        (moveGopher A s.gopher i.spaceDown).width = s.gopher.width ∧
        (moveGopher A s.gopher i.spaceDown).height = s.gopher.height ∧
        s.gopher.height = A.gopherDownTexture.Height ∧
        (afterUpdate A s i).1.gopher.xPos = s.gopher.xPos ∧
        (afterUpdate A s i).1.gopher.yPos = (moveGopher A s.gopher i.spaceDown).yPos ∧
        (afterUpdate A s i).1.gopher.width = s.gopher.width ∧
        (afterUpdate A s i).1.gopher.height = s.gopher.height ∧
        ((tickScan A s i).hit = false →
          (afterUpdate A s i).1.gopher.texture =
            (if i.spaceDown then A.gopherUpTexture else A.gopherDownTexture))) := by
  refine ⟨fun g b => ⟨rfl, rfl, rfl, rfl, rfl⟩, ?_⟩
  intro s i hs hp h0 h1
  have hht := (reachable_inv A s hs).height
  have hy := reachable_gopher_y A s hs h0 (by omega)
  simp only [SCREEN_HEIGHT] at hy
  have hgo : (afterUpdate A s i).1.gopher = moveGopher A s.gopher i.spaceDown ∨
      (afterUpdate A s i).1.gopher =
        { moveGopher A s.gopher i.spaceDown with texture := A.explosionTexture } := by
    unfold afterUpdate
    cases hh : (tickScan A s i).hit
    · left
      rw [updateBlock_gopher_miss A _ i hp (by simpa using hh), menuBlock_gopher]
    · right
      rw [updateBlock_gopher_hit A _ i hp (by simpa using hh), menuBlock_gopher]
  refine ⟨rfl, ?_, rfl, rfl, rfl, hht, ?_, ?_, ?_, ?_, ?_⟩
  · simp only [moveGopher, GameEntity.update, newGopherY, SCREEN_HEIGHT, GRAVITY, hht]
    rw [toInt32_of_range (-A.gopherDownTexture.Height) (by omega) (by omega),
      toInt32_of_range (450 + A.gopherDownTexture.Height) (by omega) (by omega),
      toInt32_of_range (s.gopher.yPos - 3) (by omega) (by omega),
      toInt32_of_range (s.gopher.yPos + 3) (by omega) (by omega)]
  · rcases hgo with h | h <;> rw [h] <;> rfl
  · rcases hgo with h | h <;> rw [h]
  · rcases hgo with h | h <;> rw [h] <;> rfl
  · rcases hgo with h | h <;> rw [h] <;> rfl
  · intro hh
    unfold afterUpdate
    rw [updateBlock_gopher_miss A _ i hp (by simpa using hh), menuBlock_gopher]
    rfl

/-- C11 in the concrete game on the tick that wraps the falling player from
the bottom to the top: the old `y` is 500, the candidate 503 is above
`SCREEN_HEIGHT + h = 500`, the new `y` is `-50`. -/
theorem gopher_motion_step_witness :
    Reachable sampleAssets (sampleRun 99) ∧
    (menuBlock (sampleRun 99) noKeys).renderScreen = GamePlay ∧
    (sampleRun 99).gopher.yPos = 500 ∧
    (moveGopher sampleAssets (sampleRun 99).gopher noKeys.spaceDown).yPos = -50 ∧
    (moveGopher sampleAssets (sampleRun 99).gopher noKeys.spaceDown).texture =
      (if noKeys.spaceDown then sampleAssets.gopherUpTexture
        else sampleAssets.gopherDownTexture) :=
  ⟨sampleRun_reachable 99, by decide!, by decide!, by decide!,
    ((gopher_motion_step sampleAssets).2 (sampleRun 99) noKeys (sampleRun_reachable 99)
      (by decide!) (by decide) (by decide)).1⟩

/-! ## C12: the motion of the obstacles -/

/-- The move keeps the width, the height and the texture of an obstacle. -/
theorem moveAsteroid_dims (a : GameEntity) (r : Nat) :
    (moveAsteroid a r).width = a.width ∧ (moveAsteroid a r).height = a.height ∧
      (moveAsteroid a r).texture = a.texture := by
  unfold moveAsteroid
  split <;> exact ⟨rfl, rfl, rfl⟩

/-- The move of one obstacle, read without `int32` wrap-around: for an
obstacle of width `w` with `0 ≤ w`, `SCREEN_WIDTH + w` an `int32` and
`-w ≤ x`. -/
theorem moveAsteroid_spec (a : GameEntity) (r : Nat) (hr : (r : Int) < randIntnArg)
    (hw0 : 0 ≤ a.width) (hw1 : a.width + 800 < 2147483648)
    (hx0 : -a.width ≤ a.xPos) (hx1 : a.xPos ≤ 800 + a.width) :
    (a.xPos - GRAVITY ≥ -a.width →
      (moveAsteroid a r).xPos = a.xPos - GRAVITY ∧ (moveAsteroid a r).yPos = a.yPos) ∧
    (a.xPos - GRAVITY < -a.width →
      (moveAsteroid a r).xPos = SCREEN_WIDTH + a.width ∧
      (moveAsteroid a r).yPos = getRandomYPos r ∧
      50 ≤ (moveAsteroid a r).yPos ∧ (moveAsteroid a r).yPos < 400) := by
  have h1 : toInt32 (a.xPos - GRAVITY) = a.xPos - GRAVITY :=
    toInt32_of_range _ (by simp only [GRAVITY]; omega) (by simp only [GRAVITY]; omega)
  have h2 : toInt32 (-a.width) = -a.width := toInt32_of_range _ (by omega) (by omega)
  have h3 : toInt32 (SCREEN_WIDTH + a.width) = SCREEN_WIDTH + a.width :=
    toInt32_of_range _ (by simp only [SCREEN_WIDTH]; omega) (by simp only [SCREEN_WIDTH]; omega)
  have hb := getRandomYPos_bounds r hr
  constructor
  · intro h
    have hrec : recycles a = false := by
      simp only [recycles, h1, h2, decide_eq_false_iff_not]
      omega
    simp only [moveAsteroid, hrec, GameEntity.update, h1, Bool.false_eq_true, if_false,
      and_self]
  · intro h
    have hrec : recycles a = true := by
      simp only [recycles, h1, h2, decide_eq_true_eq]
      exact h
    simp only [moveAsteroid, hrec, GameEntity.update, h3, if_true, true_and]
    exact hb

/-- The bounds on an obstacle of the texture's width, as a property kept by
the move. -/
theorem moveAsteroid_bounds (w : Int) (hw0 : 0 ≤ w) (hw1 : w + 800 < 2147483648)
    (a : GameEntity) (r : Nat) (hr : (r : Int) < randIntnArg)
    (h : a.width = w ∧ -w ≤ a.xPos ∧ a.xPos ≤ SCREEN_WIDTH + w ∧ 50 ≤ a.yPos ∧ a.yPos < 400) :
    (moveAsteroid a r).width = w ∧ -w ≤ (moveAsteroid a r).xPos ∧
      (moveAsteroid a r).xPos ≤ SCREEN_WIDTH + w ∧ 50 ≤ (moveAsteroid a r).yPos ∧
      (moveAsteroid a r).yPos < 400 := by
  obtain ⟨hw, hx0, hx1, hy0, hy1⟩ := h
  simp only [SCREEN_WIDTH] at hx1
  have hspec := moveAsteroid_spec a r hr (by omega) (by omega) (by omega) (by omega)
  have hd := (moveAsteroid_dims a r).1
  simp only [SCREEN_WIDTH, GRAVITY] at hspec ⊢
  refine ⟨by omega, ?_⟩
  by_cases hc : a.xPos - 3 ≥ -a.width
  · have := hspec.1 hc
    omega
  · have := hspec.2 (by omega)
    omega

theorem newAsteroid_bounds (A : Assets) (hw0 : 0 ≤ A.asteroidTexture.Width) (r : Nat)
    (hr : (r : Int) < randIntnArg) :
    (⟨SCREEN_WIDTH, getRandomYPos r, A.asteroidTexture.Width, A.asteroidTexture.Height,
        A.asteroidTexture⟩ : GameEntity).width = A.asteroidTexture.Width ∧
      -A.asteroidTexture.Width ≤ (⟨SCREEN_WIDTH, getRandomYPos r, A.asteroidTexture.Width,
        A.asteroidTexture.Height, A.asteroidTexture⟩ : GameEntity).xPos ∧
      (⟨SCREEN_WIDTH, getRandomYPos r, A.asteroidTexture.Width, A.asteroidTexture.Height,
        A.asteroidTexture⟩ : GameEntity).xPos ≤ SCREEN_WIDTH + A.asteroidTexture.Width ∧
      50 ≤ (⟨SCREEN_WIDTH, getRandomYPos r, A.asteroidTexture.Width, A.asteroidTexture.Height,
        A.asteroidTexture⟩ : GameEntity).yPos ∧
      (⟨SCREEN_WIDTH, getRandomYPos r, A.asteroidTexture.Width, A.asteroidTexture.Height,
        A.asteroidTexture⟩ : GameEntity).yPos < 400 := by
  have hb := getRandomYPos_bounds r hr
  refine ⟨rfl, ?_, ?_, hb.1, hb.2⟩
  · simp only [SCREEN_WIDTH]; omega
  · simp only [SCREEN_WIDTH]; omega

/-- In every reachable state every obstacle has the width of the obstacle
texture and lies inside the bounds. -/
theorem reachable_asteroid_bounds (A : Assets) (s : GameState) (hs : Reachable A s)
    (hw0 : 0 ≤ A.asteroidTexture.Width) (hw1 : A.asteroidTexture.Width + 800 < 2147483648) :
    ∀ a ∈ s.asteroids, a.width = A.asteroidTexture.Width ∧ -A.asteroidTexture.Width ≤ a.xPos ∧
      a.xPos ≤ SCREEN_WIDTH + A.asteroidTexture.Width ∧ 50 ≤ a.yPos ∧ a.yPos < 400 :=
  reachable_asteroids_forall A _ (newAsteroid_bounds A hw0)
    (moveAsteroid_bounds A.asteroidTexture.Width hw0 hw1) s hs

theorem spawnStep_forall (A : Assets) (P : GameEntity → Prop)
    (hnew : ∀ r : Nat, (r : Int) < randIntnArg →
      P ⟨SCREEN_WIDTH, getRandomYPos r, A.asteroidTexture.Width, A.asteroidTexture.Height,
        A.asteroidTexture⟩)
    (score : Int) (l : List GameEntity) (rnd : Nat → Nat)
    (hr : ∀ k, (rnd k : Int) < randIntnArg) (hl : ∀ a ∈ l, P a) :
    ∀ a ∈ (spawnStep A score l rnd).1, P a := by
  unfold spawnStep
  split
  · intro a ha
    rcases List.mem_append.1 ha with h2 | h2
    · exact hl a h2
    · rw [List.mem_singleton.1 h2]; exact hnew _ (hr 0)
  · exact hl

/-- A scan without collision moves every obstacle. -/
theorem scanAsteroids_miss (g : GameEntity) (l : List GameEntity) (rnd : Nat → Nat)
    (h : (scanAsteroids g l rnd).hit = false) :
    (scanAsteroids g l rnd).asteroids = movedAsteroids l rnd := by
  induction l generalizing rnd with
  | nil => rfl
  | cons a rest ih =>
    unfold scanAsteroids at h ⊢
    unfold movedAsteroids
    by_cases hc : collides g (moveAsteroid a (rnd 0)) = true
    · simp [hc] at h
    · simp only [hc, Bool.false_eq_true, if_false] at h ⊢
      rw [ih _ h]

/-- A relation that the move establishes between an obstacle and its moved
self relates the collection to its moved self, member by member in order. -/
theorem movedAsteroids_forall₂ (P : GameEntity → Prop) (R : GameEntity → GameEntity → Prop)
    (hR : ∀ (a : GameEntity) (r : Nat), (r : Int) < randIntnArg → P a → R a (moveAsteroid a r))
    (l : List GameEntity) (rnd : Nat → Nat) (hl : ∀ a ∈ l, P a)
    (h : ∀ k, (rnd k : Int) < randIntnArg) :
    List.Forall₂ R l (movedAsteroids l rnd) := by
  induction l generalizing rnd with
  | nil => exact List.Forall₂.nil
  | cons a rest ih =>
    unfold movedAsteroids
    refine List.Forall₂.cons (hR a (rnd 0) (h 0) (hl a (List.mem_cons_self a rest))) ?_
    apply ih _ (fun b hb => hl b (List.mem_cons_of_mem a hb))
    split
    · exact nextRand_valid rnd h
    · exact h

/-- The move of one obstacle, with all expressions read as the `int32`
expressions of the source. -/
theorem moveAsteroid_int32 (a : GameEntity) (r : Nat) (hr : (r : Int) < randIntnArg) :
    (moveAsteroid a r).width = a.width ∧ (moveAsteroid a r).height = a.height ∧
    (moveAsteroid a r).texture = a.texture ∧
    (¬ toInt32 (a.xPos - GRAVITY) < toInt32 (-a.width) →
      (moveAsteroid a r).xPos = toInt32 (a.xPos - GRAVITY) ∧
      (moveAsteroid a r).yPos = a.yPos) ∧
    (toInt32 (a.xPos - GRAVITY) < toInt32 (-a.width) →
      (moveAsteroid a r).xPos = toInt32 (SCREEN_WIDTH + a.width) ∧
      50 ≤ (moveAsteroid a r).yPos ∧ (moveAsteroid a r).yPos < 400 ∧
      ∃ r' : Nat, (r' : Int) < randIntnArg ∧ (moveAsteroid a r).yPos = getRandomYPos r') := by
  have hd := moveAsteroid_dims a r
  have hb := getRandomYPos_bounds r hr
  refine ⟨hd.1, hd.2.1, hd.2.2, ?_, ?_⟩
  · intro h
    have hrec : recycles a = false := by
      simp only [recycles, decide_eq_false_iff_not]
      exact h
    simp only [moveAsteroid, hrec, GameEntity.update, Bool.false_eq_true, if_false, and_self]
  · intro h
    have hrec : recycles a = true := by
      simp only [recycles, decide_eq_true_eq]
      exact h
    simp only [moveAsteroid, hrec, GameEntity.update, if_true, true_and]
    exact ⟨hb.1, hb.2, r, hr, rfl⟩

/-- **C12.** In a tick in `GamePlay` with random results in range the scan
leaves the number of obstacles as the spawn step made it, whether or not it
detects a collision.  If it detects none, the collection after the tick
matches the collection before the scan member by member, in the same order,
and each obstacle, of width `w` and old position `x`, `y`, keeps its width,
height and texture and ends at `x - GRAVITY` with `y` unchanged when
`x - GRAVITY ≥ -w`, and at `x = SCREEN_WIDTH + w` with `y` a fresh value of
`getRandomYPos`, in `[50, 400)`, when `x - GRAVITY < -w`.  This holds in every
state with all expressions read as the `int32` expressions of the source.  In
a reachable state, with an obstacle texture of width `w`, `0 ≤ w`, small
enough that `SCREEN_WIDTH + w` is an `int32`, no expression wraps around and
it holds of the plain integers. -/
theorem asteroids_motion_without_collision (A : Assets) :
    (∀ (s : GameState) (i : Input), i.valid → s.renderScreen = GamePlay →
      (updateBlock A s i).1.asteroids.length =
        (spawnStep A (s.score + 1) s.asteroids i.rand).1.length ∧
      ((tickScan A s i).hit = false →
        List.Forall₂
          (fun a m : GameEntity =>
            m.width = a.width ∧ m.height = a.height ∧ m.texture = a.texture ∧
            (¬ toInt32 (a.xPos - GRAVITY) < toInt32 (-a.width) →
              m.xPos = toInt32 (a.xPos - GRAVITY) ∧ m.yPos = a.yPos) ∧
            (toInt32 (a.xPos - GRAVITY) < toInt32 (-a.width) →
              m.xPos = toInt32 (SCREEN_WIDTH + a.width) ∧ 50 ≤ m.yPos ∧ m.yPos < 400 ∧
              ∃ r : Nat, (r : Int) < randIntnArg ∧ m.yPos = getRandomYPos r))
          (spawnStep A (s.score + 1) s.asteroids i.rand).1
          (updateBlock A s i).1.asteroids)) ∧
    (∀ (s : GameState) (i : Input), Reachable A s → i.valid →
      (menuBlock s i).renderScreen = GamePlay →
      0 ≤ A.asteroidTexture.Width → A.asteroidTexture.Width + 800 < 2147483648 →
        (afterUpdate A s i).1.asteroids.length =
          (spawnStep A (s.score + 1) s.asteroids i.rand).1.length ∧
        ((tickScan A s i).hit = false →
          List.Forall₂
            (fun a m : GameEntity =>
              a.width = A.asteroidTexture.Width ∧
              m.width = a.width ∧ m.height = a.height ∧ m.texture = a.texture ∧
              (a.xPos - GRAVITY ≥ -a.width → m.xPos = a.xPos - GRAVITY ∧ m.yPos = a.yPos) ∧
              (a.xPos - GRAVITY < -a.width →
                m.xPos = SCREEN_WIDTH + a.width ∧ 50 ≤ m.yPos ∧ m.yPos < 400 ∧
                ∃ r : Nat, (r : Int) < randIntnArg ∧ m.yPos = getRandomYPos r))
            (spawnStep A (s.score + 1) s.asteroids i.rand).1
            (afterUpdate A s i).1.asteroids)) := by
  constructor
  · intro s i hi h
    rw [updateBlock_asteroids A s i h]
    refine ⟨scanAsteroids_length _ _ _, ?_⟩
    intro hmiss
    have hm : (tickScan A s i).asteroids =
        movedAsteroids (spawnStep A (s.score + 1) s.asteroids i.rand).1
          (spawnStep A (s.score + 1) s.asteroids i.rand).2 :=
      scanAsteroids_miss _ _ _ hmiss
    rw [hm]
    exact movedAsteroids_forall₂ (fun _ => True) _
      (fun a r hr _ => moveAsteroid_int32 a r hr) _ _ (fun _ _ => trivial)
      (spawnStep_rand_valid A _ _ _ hi)
  intro s i hs hi hp hw0 hw1
  have hast : (afterUpdate A s i).1.asteroids = (tickScan A s i).asteroids := by
    unfold afterUpdate
    rw [updateBlock_asteroids A _ i hp, tickScan_menuBlock]
  rw [hast]
  refine ⟨scanAsteroids_length _ _ _, ?_⟩
  intro hmiss
  have hl := spawnStep_forall A _ (newAsteroid_bounds A hw0) (s.score + 1) s.asteroids i.rand hi
    (reachable_asteroid_bounds A s hs hw0 hw1)
  have hm : (tickScan A s i).asteroids =
      movedAsteroids (spawnStep A (s.score + 1) s.asteroids i.rand).1
        (spawnStep A (s.score + 1) s.asteroids i.rand).2 :=
    scanAsteroids_miss _ _ _ hmiss
  rw [hm]
  apply movedAsteroids_forall₂ _ _ _ _ _ hl (spawnStep_rand_valid A _ _ _ hi)
  intro a r hr ⟨hw, hx0, hx1, _, _⟩
  simp only [SCREEN_WIDTH] at hx1
  have hspec := moveAsteroid_spec a r hr (by omega) (by omega) (by omega) (by omega)
  have hd := moveAsteroid_dims a r
  refine ⟨hw, hd.1, hd.2.1, hd.2.2, hspec.1, ?_⟩
  intro hc
  have h2 := hspec.2 hc
  exact ⟨h2.1, h2.2.2.1, h2.2.2.2, r, hr, h2.2.1⟩

/-- The state of the quiet run before the tick that recycles the obstacle. -/
theorem quietRun_282 : quietRun 282 =
    { highestScore := 0, renderScreen := GamePlay, score := 283,
      gopher := ⟨375, 496, 50, 50, ⟨3, 50, 50⟩⟩,
      asteroids := [⟨-49, 250, 50, 50, ⟨4, 50, 50⟩⟩],
      gameEndingIterations := 0 } := by
  rw [show (282 : Nat) = 200 + 82 from rfl, quietRun_add, quietRun_200]
  decide!

/-- C12 at the 284th tick of the quiet run of the concrete game: the only
obstacle, at `x = -49` with width 50, would move to `-52 < -50` and is
recycled to `x = 850`. -/
theorem asteroids_motion_without_collision_witness :
    Reachable sampleAssets (quietRun 282) ∧ (keys false false 200).valid ∧
    (menuBlock (quietRun 282) (keys false false 200)).renderScreen = GamePlay ∧
    (0 : Int) ≤ sampleAssets.asteroidTexture.Width ∧
    sampleAssets.asteroidTexture.Width + 800 < 2147483648 ∧
    (tickScan sampleAssets (quietRun 282) (keys false false 200)).hit = false ∧
    (afterUpdate sampleAssets (quietRun 282) (keys false false 200)).1.asteroids =
      [⟨850, 250, 50, 50, ⟨4, 50, 50⟩⟩] ∧
    (afterUpdate sampleAssets (quietRun 282) (keys false false 200)).1.asteroids.length =
      (spawnStep sampleAssets ((quietRun 282).score + 1) (quietRun 282).asteroids
        (keys false false 200).rand).1.length :=
  ⟨quietRun_reachable 282, keys_valid _ _ _ (by decide), by rw [quietRun_282]; decide!,
    by decide, by decide, by rw [quietRun_282]; decide!, by rw [quietRun_282]; decide!,
    ((asteroids_motion_without_collision sampleAssets).2 (quietRun 282)
      (keys false false 200) (quietRun_reachable 282) (keys_valid _ _ _ (by decide))
      (by rw [quietRun_282]; decide!) (by decide) (by decide)).1⟩

/-! ## C13: the tick that detects a collision -/

theorem movedAsteroids_length (l : List GameEntity) (rnd : Nat → Nat) :
    (movedAsteroids l rnd).length = l.length := by
  induction l generalizing rnd with
  | nil => rfl
  | cons a rest ih => simp [movedAsteroids, ih]

/-- A scan that detects a collision stops at the first obstacle whose moved
self collides with the player: the obstacles up to it are moved, the others
are as they were, and the random results consumed are those that the scan of
the obstacles up to it consumes. -/
theorem scanAsteroids_hit_split (g : GameEntity) (l : List GameEntity) (rnd : Nat → Nat)
    (h : (scanAsteroids g l rnd).hit = true) :
    ∃ k : Nat, k < l.length ∧
      (∃ m, (movedAsteroids l rnd)[k]? = some m ∧ collides g m = true) ∧
      (∀ j : Nat, j < k → ∀ m, (movedAsteroids l rnd)[j]? = some m → collides g m = false) ∧
      (scanAsteroids g l rnd).asteroids =
        (movedAsteroids l rnd).take (k + 1) ++ l.drop (k + 1) ∧
      (scanAsteroids g l rnd).rand = (scanAsteroids g (l.take (k + 1)) rnd).rand := by
  induction l generalizing rnd with
  | nil => simp [scanAsteroids] at h
  | cons a rest ih =>
    unfold scanAsteroids at h
    by_cases hc : collides g (moveAsteroid a (rnd 0)) = true
    · refine ⟨0, by simp, ⟨_, by simp [movedAsteroids], hc⟩, ?_, ?_, ?_⟩
      · intro j hj; omega
      · simp [scanAsteroids, movedAsteroids, hc]
      · simp [scanAsteroids, hc]
    · simp only [hc, Bool.false_eq_true, if_false] at h
      obtain ⟨k, hk, ⟨m, hm, hcm⟩, hmin, hsplit, hrand⟩ := ih _ h
      refine ⟨k + 1, by simp [hk], ⟨m, by simpa [movedAsteroids] using hm, hcm⟩, ?_, ?_, ?_⟩
      · intro j hj m' hm'
        cases j with
        | zero =>
          simp only [movedAsteroids, List.getElem?_cons_zero, Option.some.injEq] at hm'
          rw [← hm']
          simpa using hc
        | succ j =>
          simp only [movedAsteroids, List.getElem?_cons_succ] at hm'
          exact hmin j (by omega) m' hm'
      · simp only [scanAsteroids, movedAsteroids, hc, Bool.false_eq_true, if_false]
        rw [hsplit]
        simp
      · simp only [List.take_succ_cons, scanAsteroids, hc, Bool.false_eq_true, if_false]
        exact hrand

/-- The state after 824 ticks of the concrete game, computed in three
stretches of frames from `quietRun 398`. -/
theorem crowdedRun_eq : crowdedRun =
    { highestScore := 0, renderScreen := GamePlay, score := 824,
      gopher := ⟨375, 295, 50, 50, ⟨3, 50, 50⟩⟩,
      asteroids := [⟨133, 250, 50, 50, ⟨4, 50, 50⟩⟩, ⟨427, 250, 50, 50, ⟨4, 50, 50⟩⟩,
        ⟨725, 250, 50, 50, ⟨4, 50, 50⟩⟩],
      gameEndingIterations := 0 } := by
  have h1 : run sampleAssets
      { highestScore := 0, renderScreen := GamePlay, score := 399,
        gopher := ⟨375, 292, 50, 50, ⟨3, 50, 50⟩⟩,
        asteroids := [⟨505, 250, 50, 50, ⟨4, 50, 50⟩⟩],
        gameEndingIterations := 0 }
      (List.replicate 100 (keys false false 200)) =
      { highestScore := 0, renderScreen := GamePlay, score := 499,
        gopher := ⟨375, 40, 50, 50, ⟨3, 50, 50⟩⟩,
        asteroids := [⟨205, 250, 50, 50, ⟨4, 50, 50⟩⟩, ⟨500, 250, 50, 50, ⟨4, 50, 50⟩⟩],
        gameEndingIterations := 0 } := by decide!
  have h2 : run sampleAssets
      { highestScore := 0, renderScreen := GamePlay, score := 499,
        gopher := ⟨375, 40, 50, 50, ⟨3, 50, 50⟩⟩,
        asteroids := [⟨205, 250, 50, 50, ⟨4, 50, 50⟩⟩, ⟨500, 250, 50, 50, ⟨4, 50, 50⟩⟩],
        gameEndingIterations := 0 }
      (List.replicate 120 (keys false true 200)) =
      { highestScore := 0, renderScreen := GamePlay, score := 619,
        gopher := ⟨375, 233, 50, 50, ⟨2, 50, 50⟩⟩,
        asteroids := [⟨748, 250, 50, 50, ⟨4, 50, 50⟩⟩, ⟨140, 250, 50, 50, ⟨4, 50, 50⟩⟩],
        gameEndingIterations := 0 } := by decide!
  have h3 : run sampleAssets
      { highestScore := 0, renderScreen := GamePlay, score := 619,
        gopher := ⟨375, 233, 50, 50, ⟨2, 50, 50⟩⟩,
        asteroids := [⟨748, 250, 50, 50, ⟨4, 50, 50⟩⟩, ⟨140, 250, 50, 50, ⟨4, 50, 50⟩⟩],
        gameEndingIterations := 0 }
      (List.replicate 205 (keys false false 200)) =
      { highestScore := 0, renderScreen := GamePlay, score := 824,
        gopher := ⟨375, 295, 50, 50, ⟨3, 50, 50⟩⟩,
        asteroids := [⟨133, 250, 50, 50, ⟨4, 50, 50⟩⟩, ⟨427, 250, 50, 50, ⟨4, 50, 50⟩⟩,
          ⟨725, 250, 50, 50, ⟨4, 50, 50⟩⟩],
        gameEndingIterations := 0 } := by decide!
  unfold crowdedRun crowdedInputs
  rw [run_append, run_append, quietRun_398, h1, h2, h3]

theorem crowdedRun_reachable : Reachable sampleAssets crowdedRun := by
  unfold crowdedRun
  apply reachable_run _ _ _ (quietRun_reachable 398)
  intro i hi
  unfold crowdedInputs at hi
  rcases List.mem_append.1 hi with h | h
  · rw [List.eq_of_mem_replicate h]; exact keys_valid _ _ 200 (by decide)
  · rcases List.mem_append.1 h with h | h
    · rw [List.eq_of_mem_replicate h]; exact keys_valid _ _ 200 (by decide)
    · rw [List.eq_of_mem_replicate h]; exact keys_valid _ _ 200 (by decide)

/-- **C13.** In a tick in `GamePlay` that detects a collision there is an
index `k` into the collection such that the obstacle at `k`, in the position
its move gives it, collides with the moved player while no obstacle at a
smaller index does, the collision being the test of lines 197 to 200 on the
`float32` conversions; the collection after the tick consists of the moved
obstacles at the indices up to `k` followed by the obstacles at the indices
above `k` exactly as they were before the scan, and the random results that
the tick has consumed are those of the spawn step and of the scan of the
obstacles up to `k` alone; the player is as the motion step left it except
that its texture is the explosion texture; the screen is `GameEnding`. -/
theorem collision_tick_stops_scan (A : Assets) (s : GameState) (i : Input)
    (h : s.renderScreen = GamePlay) (hh : (tickScan A s i).hit = true) :
    (∃ k : Nat, k < (spawnStep A (s.score + 1) s.asteroids i.rand).1.length ∧
      (∃ m, (movedAsteroids (spawnStep A (s.score + 1) s.asteroids i.rand).1
            (spawnStep A (s.score + 1) s.asteroids i.rand).2)[k]? = some m ∧
          collides (moveGopher A s.gopher i.spaceDown) m = true) ∧
      (∀ j : Nat, j < k → ∀ m,
        (movedAsteroids (spawnStep A (s.score + 1) s.asteroids i.rand).1
            (spawnStep A (s.score + 1) s.asteroids i.rand).2)[j]? = some m →
          collides (moveGopher A s.gopher i.spaceDown) m = false) ∧
      (updateBlock A s i).1.asteroids =
        (movedAsteroids (spawnStep A (s.score + 1) s.asteroids i.rand).1
            (spawnStep A (s.score + 1) s.asteroids i.rand).2).take (k + 1) ++
          (spawnStep A (s.score + 1) s.asteroids i.rand).1.drop (k + 1) ∧
      (updateBlock A s i).2 =
        (scanAsteroids (moveGopher A s.gopher i.spaceDown)
          ((spawnStep A (s.score + 1) s.asteroids i.rand).1.take (k + 1))
          (spawnStep A (s.score + 1) s.asteroids i.rand).2).rand) ∧
    (updateBlock A s i).1.gopher.texture = A.explosionTexture ∧
    (updateBlock A s i).1.gopher.xPos = (moveGopher A s.gopher i.spaceDown).xPos ∧
    (updateBlock A s i).1.gopher.yPos = (moveGopher A s.gopher i.spaceDown).yPos ∧
    (updateBlock A s i).1.gopher.xPos = s.gopher.xPos ∧
    (updateBlock A s i).1.gopher.width = s.gopher.width ∧
    (updateBlock A s i).1.gopher.height = s.gopher.height ∧
    (updateBlock A s i).1.renderScreen = GameEnding := by
  have hg := updateBlock_gopher_hit A s i h hh
  have hscr := updateBlock_screen A s i h
  rw [hh] at hscr
  refine ⟨?_, by rw [hg], by rw [hg], by rw [hg], by rw [hg]; rfl, by rw [hg]; rfl,
    by rw [hg]; rfl, by simpa using hscr⟩
  rw [updateBlock_asteroids A s i h, updateBlock_rand A s i h]
  exact scanAsteroids_hit_split _ _ _ hh

/-- C13 at a reachable state of the concrete game with three obstacles, at
`x = 133`, `427` and `725`, in a tick without keys.  The first obstacle moves
to `x = 130` and does not collide; the second one moves to `x = 424` and
collides with the player, at `x = 375` and 50 pixels wide; the third one is
still at `x = 725` after the tick.  The player keeps the position `(375, 298)`
of the motion step and has the explosion texture. -/
theorem collision_tick_stops_scan_witness :
    Reachable sampleAssets crowdedRun ∧
    crowdedRun.renderScreen = GamePlay ∧
    (tickScan sampleAssets crowdedRun (keys false false 200)).hit = true ∧
    crowdedRun.asteroids =
      [⟨133, 250, 50, 50, ⟨4, 50, 50⟩⟩, ⟨427, 250, 50, 50, ⟨4, 50, 50⟩⟩,
        ⟨725, 250, 50, 50, ⟨4, 50, 50⟩⟩] ∧
    (spawnStep sampleAssets (crowdedRun.score + 1) crowdedRun.asteroids
      (keys false false 200).rand).1 = crowdedRun.asteroids ∧
    moveGopher sampleAssets crowdedRun.gopher (keys false false 200).spaceDown =
      ⟨375, 298, 50, 50, ⟨3, 50, 50⟩⟩ ∧
    collides (moveGopher sampleAssets crowdedRun.gopher (keys false false 200).spaceDown)
      ⟨130, 250, 50, 50, ⟨4, 50, 50⟩⟩ = false ∧
    collides (moveGopher sampleAssets crowdedRun.gopher (keys false false 200).spaceDown)
      ⟨424, 250, 50, 50, ⟨4, 50, 50⟩⟩ = true ∧
    (updateBlock sampleAssets crowdedRun (keys false false 200)).1.asteroids =
      [⟨130, 250, 50, 50, ⟨4, 50, 50⟩⟩, ⟨424, 250, 50, 50, ⟨4, 50, 50⟩⟩,
        ⟨725, 250, 50, 50, ⟨4, 50, 50⟩⟩] ∧
    (updateBlock sampleAssets crowdedRun (keys false false 200)).1.gopher =
      ⟨375, 298, 50, 50, ⟨1, 64, 64⟩⟩ ∧
    (updateBlock sampleAssets crowdedRun (keys false false 200)).1.gopher.texture =
      sampleAssets.explosionTexture ∧
    (updateBlock sampleAssets crowdedRun (keys false false 200)).1.renderScreen = GameEnding :=
  ⟨crowdedRun_reachable,
    by rw [crowdedRun_eq],
    by rw [crowdedRun_eq]; decide!,
    by rw [crowdedRun_eq],
    by rw [crowdedRun_eq]; decide!,
    by rw [crowdedRun_eq]; decide!,
    by rw [crowdedRun_eq]; decide!,
    by rw [crowdedRun_eq]; decide!,
    by rw [crowdedRun_eq]; decide!,
    by rw [crowdedRun_eq]; decide!,
    (collision_tick_stops_scan sampleAssets crowdedRun (keys false false 200)
      (by rw [crowdedRun_eq]) (by rw [crowdedRun_eq]; decide!)).2.1,
    (collision_tick_stops_scan sampleAssets crowdedRun (keys false false 200)
      (by rw [crowdedRun_eq]) (by rw [crowdedRun_eq]; decide!)).2.2.2.2.2.2.2⟩

/-! ## C14: the ending counter -/

theorem gameOverBlock_gameEndingIterations (A : Assets) (s : GameState) (i : Input)
    (rnd : Nat → Nat) :
    (gameOverBlock A s i rnd).gameEndingIterations =
      if s.renderScreen = GameOver ∧ i.enterPressed = true then 0
      else s.gameEndingIterations := by
  by_cases h : s.renderScreen = GameOver
  · cases he : i.enterPressed <;> simp [gameOverBlock, h, he, setupNewGame]
  · rw [gameOverBlock_of_ne A s i rnd h]
    simp [h]

theorem afterUpdate_gameEndingIterations (A : Assets) (s : GameState) (i : Input) :
    (afterUpdate A s i).1.gameEndingIterations = s.gameEndingIterations := by
  simp [afterUpdate]

/-- **C14.** On a frame whose draw block runs with the screen equal to
`GameEnding`, the draw block raises the ending counter by exactly one and
sets the screen to `GameOver` if and only if the raised counter is greater
than `2 * TARGET_FPS = 120`; otherwise the screen stays `GameEnding`.  On a
frame whose draw block runs with another screen, the draw block changes
neither the counter nor the screen.  In both cases the counter at the end of
the frame is the one the draw block left, unless the game-over block restarts
in that frame (screen `GameOver` after the draw block, Enter newly pressed),
which sets it to 0.  On a frame that starts in `GameEnding` the state after
the draw block is the same for every input. -/
theorem ending_counter_step (A : Assets) (s : GameState) (i : Input) :
    TARGET_FPS * 2 = 120 ∧
    ((afterUpdate A s i).1.renderScreen = GameEnding →
      (afterDraw A s i).gameEndingIterations = s.gameEndingIterations + 1 ∧
      ((afterDraw A s i).renderScreen = GameOver ↔
        s.gameEndingIterations + 1 > TARGET_FPS * 2) ∧
      ((afterDraw A s i).renderScreen ≠ GameOver →
        (afterDraw A s i).renderScreen = GameEnding)) ∧
    ((afterUpdate A s i).1.renderScreen ≠ GameEnding →
      (afterDraw A s i).gameEndingIterations = s.gameEndingIterations ∧
      (afterDraw A s i).renderScreen = (afterUpdate A s i).1.renderScreen) ∧
    ((frame A s i).gameEndingIterations =
      if (afterDraw A s i).renderScreen = GameOver ∧ i.enterPressed = true then 0
      else (afterDraw A s i).gameEndingIterations) ∧
    (s.renderScreen = GameEnding → ∀ j : Input, afterDraw A s j = afterDraw A s i) := by
  have hcnt := afterUpdate_gameEndingIterations A s i
  refine ⟨by decide, ?_, ?_, ?_, ?_⟩
  · intro h
    unfold afterDraw
    by_cases hc : (afterUpdate A s i).1.gameEndingIterations + 1 ≤ 120
    · rw [drawBlock_continue _ h hc]
      simp only [h, hcnt, TARGET_FPS]
      rw [hcnt] at hc
      refine ⟨trivial, ?_, fun _ => trivial⟩
      constructor
      · intro h2; cases h2
      · intro h2; omega
    · rw [drawBlock_finish _ h (by omega)]
      simp only [hcnt, TARGET_FPS]
      rw [hcnt] at hc
      refine ⟨trivial, ?_, fun h2 => absurd rfl h2⟩
      constructor
      · intro _; omega
      · intro _; trivial
  · intro h
    unfold afterDraw
    rw [drawBlock_of_ne _ h]
    exact ⟨hcnt, rfl⟩
  · unfold frame
    exact gameOverBlock_gameEndingIterations A _ i _
  · intro h j
    have h0 : s.renderScreen ≠ MainMenu := by simp [h]
    have h1 : s.renderScreen ≠ GamePlay := by simp [h]
    simp only [afterDraw, afterUpdate, menuBlock_of_ne s _ h0, updateBlock_of_ne A s _ h1]

/-- C14 at the frame of the concrete game on which the counter passes the
threshold: it goes from 120 to 121 and the screen becomes `GameOver`. -/
theorem ending_counter_step_witness :
    (afterUpdate sampleAssets (sampleRun 244) noKeys).1.renderScreen = GameEnding ∧
    (sampleRun 244).gameEndingIterations = 120 ∧
    (afterDraw sampleAssets (sampleRun 244) noKeys).gameEndingIterations =
      (sampleRun 244).gameEndingIterations + 1 ∧
    (afterDraw sampleAssets (sampleRun 244) noKeys).renderScreen = GameOver :=
  ⟨by decide!, by decide!,
    ((ending_counter_step sampleAssets (sampleRun 244) noKeys).2.1 (by decide!)).1,
    ((ending_counter_step sampleAssets (sampleRun 244) noKeys).2.1 (by decide!)).2.1.2
      (by decide!)⟩

/-! ## C15: the score outside `GamePlay` -/

theorem gameOverBlock_score (A : Assets) (s : GameState) (i : Input) (rnd : Nat → Nat) :
    (gameOverBlock A s i rnd).score =
      if s.renderScreen = GameOver ∧ i.enterPressed = true then 0 else s.score := by
  by_cases h : s.renderScreen = GameOver
  · cases he : i.enterPressed <;> simp [gameOverBlock, h, he, setupNewGame]
  · rw [gameOverBlock_of_ne A s i rnd h]
    simp [h]

/-- **C15.** The update block does not run in `GamePlay` exactly on a frame
that starts on the main menu without Enter, in `GameEnding` or in `GameOver`.
On such a frame the score is not incremented: it is unchanged after the
update block and after the draw block, and at the end of the frame it is
unchanged too, except that it is 0.0 when the game-over block restarts in
that frame (screen `GameOver` after the draw block, Enter newly pressed).
The screen is `GameOver` after the draw block of such a frame only if the
frame starts in `GameOver`, or starts in `GameEnding` with the counter about
to pass 120. -/
theorem score_frozen_outside_gamePlay (A : Assets) (s : GameState) (i : Input)
    (hp : (menuBlock s i).renderScreen ≠ GamePlay) :
    ((s.renderScreen = MainMenu ∧ i.enterPressed = false) ∨ s.renderScreen = GameEnding ∨
      s.renderScreen = GameOver) ∧
    (afterUpdate A s i).1.score = s.score ∧
    (afterDraw A s i).score = s.score ∧
    (¬ ((afterDraw A s i).renderScreen = GameOver ∧ i.enterPressed = true) →
      (frame A s i).score = s.score) ∧
    ((afterDraw A s i).renderScreen = GameOver ∧ i.enterPressed = true →
      (frame A s i).score = 0 ∧ scoreValue (frame A s i).score = 0) ∧
    ((afterDraw A s i).renderScreen = GameOver →
      s.renderScreen = GameOver ∨
        (s.renderScreen = GameEnding ∧ 120 < s.gameEndingIterations + 1)) := by
  have hu : (afterUpdate A s i).1.score = s.score := by
    unfold afterUpdate
    rw [updateBlock_of_ne A _ i hp, menuBlock_score]
  have hd : (afterDraw A s i).score = s.score := by
    unfold afterDraw
    rw [drawBlock_score, hu]
  have hf : (frame A s i).score =
      if (afterDraw A s i).renderScreen = GameOver ∧ i.enterPressed = true then 0
      else (afterDraw A s i).score := gameOverBlock_score A _ i _
  have hcases : (s.renderScreen = MainMenu ∧ i.enterPressed = false) ∨
      s.renderScreen = GameEnding ∨ s.renderScreen = GameOver := by
    have hiff := menuBlock_play_iff s i
    cases hscr : s.renderScreen
    · cases he : i.enterPressed
      · simp
      · exact absurd (hiff.2 (Or.inr ⟨hscr, he⟩)) hp
    · exact absurd (hiff.2 (Or.inl hscr)) hp
    · simp
    · simp
  refine ⟨hcases, hu, hd, ?_, ?_, ?_⟩
  · intro h
    rw [hf, if_neg h, hd]
  · intro h
    rw [hf, if_pos h]
    exact ⟨rfl, by simp [scoreValue]⟩
  · intro hover
    rcases hcases with ⟨hm, he⟩ | hend | hov
    · exfalso
      have h1 : s.renderScreen ≠ GamePlay := by simp [hm]
      have h2 : s.renderScreen ≠ GameEnding := by simp [hm]
      simp only [afterDraw, afterUpdate, menuBlock_idle s i he, updateBlock_of_ne A s i h1,
        drawBlock_of_ne s h2] at hover
      rw [hm] at hover
      cases hover
    · right
      refine ⟨hend, ?_⟩
      by_contra hcon
      have h0 : s.renderScreen ≠ MainMenu := by simp [hend]
      have h1 : s.renderScreen ≠ GamePlay := by simp [hend]
      simp only [afterDraw, afterUpdate, menuBlock_of_ne s i h0, updateBlock_of_ne A s i h1,
        drawBlock_continue s hend (by omega)] at hover
      rw [hend] at hover
      cases hover
    · exact Or.inl hov

/-- C15 in the concrete game: a frame of the explosion pause leaves the score
at 31.5. -/
theorem score_frozen_outside_gamePlay_witness :
    (menuBlock (sampleRun 200) noKeys).renderScreen ≠ GamePlay ∧
    (sampleRun 200).renderScreen = GameEnding ∧
    (sampleRun 200).score = 126 ∧
    (frame sampleAssets (sampleRun 200) noKeys).score = (sampleRun 200).score :=
  ⟨by decide!, by decide!, by decide!,
    (score_frozen_outside_gamePlay sampleAssets (sampleRun 200) noKeys (by decide!)).2.2.2.1
      (by decide!)⟩

/-! ## C16: widths and heights -/

theorem updateBlock_gopher_dims (A : Assets) (s : GameState) (i : Input) :
    (updateBlock A s i).1.gopher.width = s.gopher.width ∧
      (updateBlock A s i).1.gopher.height = s.gopher.height := by
  unfold updateBlock
  split
  · dsimp only
    split <;> exact ⟨rfl, rfl⟩
  · exact ⟨rfl, rfl⟩

/-- The scan keeps the width and the height of every obstacle, in order,
whether or not it stops at a collision. -/
theorem scanAsteroids_dims (g : GameEntity) (l : List GameEntity) (rnd : Nat → Nat) :
    List.Forall₂ (fun a m : GameEntity => m.width = a.width ∧ m.height = a.height) l
      (scanAsteroids g l rnd).asteroids := by
  induction l generalizing rnd with
  | nil => exact List.Forall₂.nil
  | cons a rest ih =>
    have hd := moveAsteroid_dims a (rnd 0)
    unfold scanAsteroids
    dsimp only
    split
    · refine List.Forall₂.cons ⟨hd.1, hd.2.1⟩ ?_
      exact List.forall₂_same.2 (fun _ _ => ⟨rfl, rfl⟩)
    · exact List.Forall₂.cons ⟨hd.1, hd.2.1⟩ (ih _)

theorem spawnStep_take_length (A : Assets) (score : Int) (l : List GameEntity) (rnd : Nat → Nat) :
    (spawnStep A score l rnd).1.take l.length = l := by
  unfold spawnStep
  split
  · simp
  · simp

/-- In every reachable state the player has the width of its texture. -/
theorem reachable_gopher_width (A : Assets) (s : GameState) (hs : Reachable A s) :
    s.gopher.width = A.gopherDownTexture.Width := by
  induction hs with
  | start r _ => rfl
  | step s i _ _ ih =>
    have hd : (afterDraw A s i).gopher.width = s.gopher.width := by
      unfold afterDraw afterUpdate
      rw [drawBlock_gopher, (updateBlock_gopher_dims A _ i).1, menuBlock_gopher]
    have hfr : (frame A s i).gopher =
        (gameOverBlock A (afterDraw A s i) i (afterUpdate A s i).2).gopher := rfl
    rcases gameOverBlock_gopher A (afterDraw A s i) i (afterUpdate A s i).2 with hg | hg
    · rw [hfr, hg, hd]; exact ih
    · rw [hfr, hg]; rfl

/-- **C16.** `GameEntity.update` sets `xPos`, `yPos` and `texture` to its
arguments and leaves `width` and `height` as they are.  Consequently the
update block of a tick in `GamePlay` leaves the width and the height of the
player, and of every obstacle that was in the collection before the tick, in
its place in the collection, as they were; and in every reachable state the
player and every obstacle have the width and the height of the texture they
were constructed with. -/
theorem update_keeps_dimensions (A : Assets) :
    (∀ (e : GameEntity) (x y : Int) (t : Texture2D),
      (e.update x y t).xPos = x ∧ (e.update x y t).yPos = y ∧ (e.update x y t).texture = t ∧
      (e.update x y t).width = e.width ∧ (e.update x y t).height = e.height) ∧
    (∀ (s : GameState) (i : Input), s.renderScreen = GamePlay →
      (updateBlock A s i).1.gopher.width = s.gopher.width ∧
      (updateBlock A s i).1.gopher.height = s.gopher.height ∧
      s.asteroids.length ≤ (updateBlock A s i).1.asteroids.length ∧
      List.Forall₂ (fun a m : GameEntity => m.width = a.width ∧ m.height = a.height)
        s.asteroids ((updateBlock A s i).1.asteroids.take s.asteroids.length)) ∧
    (∀ s : GameState, Reachable A s →
      s.gopher.width = A.gopherDownTexture.Width ∧
      s.gopher.height = A.gopherDownTexture.Height ∧
      ∀ a ∈ s.asteroids, a.width = A.asteroidTexture.Width ∧
        a.height = A.asteroidTexture.Height) := by
  refine ⟨fun e x y t => ⟨rfl, rfl, rfl, rfl, rfl⟩, ?_, ?_⟩
  · intro s i h
    have hg := updateBlock_gopher_dims A s i
    refine ⟨hg.1, hg.2, ?_, ?_⟩
    · rw [updateBlock_asteroids A s i h]
      unfold tickScan
      rw [scanAsteroids_length]
      unfold spawnStep
      split <;> simp
    · rw [updateBlock_asteroids A s i h]
      have hd := scanAsteroids_dims (moveGopher A s.gopher i.spaceDown)
        (spawnStep A (s.score + 1) s.asteroids i.rand).1
        (spawnStep A (s.score + 1) s.asteroids i.rand).2
      have ht := List.forall₂_take s.asteroids.length hd
      rw [spawnStep_take_length] at ht
      exact ht
  · intro s hs
    refine ⟨reachable_gopher_width A s hs, (reachable_inv A s hs).height, ?_⟩
    apply reachable_asteroids_forall A
      (fun a => a.width = A.asteroidTexture.Width ∧ a.height = A.asteroidTexture.Height)
      (fun _ _ => ⟨rfl, rfl⟩) _ s hs
    intro a r _ h
    have hd := moveAsteroid_dims a r
    exact ⟨hd.1.trans h.1, hd.2.1.trans h.2⟩

/-- C16 in the concrete game, in the state after the collision frame. -/
theorem update_keeps_dimensions_witness :
    Reachable sampleAssets (sampleRun 125) ∧
    (sampleRun 125).gopher.width = sampleAssets.gopherDownTexture.Width ∧
    (sampleRun 124).renderScreen = GamePlay ∧
    (updateBlock sampleAssets (sampleRun 124) noKeys).1.gopher.width =
      (sampleRun 124).gopher.width :=
  ⟨sampleRun_reachable 125,
    ((update_keeps_dimensions sampleAssets).2.2 (sampleRun 125) (sampleRun_reachable 125)).1,
    by decide!,
    ((update_keeps_dimensions sampleAssets).2.1 (sampleRun 124) noKeys (by decide!)).1⟩

/-! ## C17: the number of obstacles over a session -/

theorem spawnStep_length (A : Assets) (score : Int) (l : List GameEntity) (rnd : Nat → Nat) :
    (spawnStep A score l rnd).1.length = if spawnDue score l = true then l.length + 1
      else l.length := by
  unfold spawnStep
  split <;> simp

theorem spawnDue_nat (n : Nat) (l : List GameEntity) :
    spawnDue ((n : Int) + 1) l = true ↔ (n + 1) % 400 = 0 ∧ l.length ≤ 15 := by
  have hmod : Int.tmod ((n : Int) + 1) 400 = ((n : Int) + 1) % 400 :=
    Int.tmod_eq_emod (by omega) (by decide)
  simp only [spawnDue, Bool.and_eq_true, decide_eq_true_eq, hmod]
  omega

/-- One tick of a session without collision: if the frame starts after `n`
ticks of the session and ends in `GamePlay`, it ends after `n + 1` ticks. -/
theorem session_step (A : Assets) (s : GameState) (i : Input) (n : Nat)
    (hscr : s.renderScreen = GamePlay ∨ (n = 0 ∧ s.renderScreen = MainMenu))
    (hsc : s.score = (n : Int)) (hlen : s.asteroids.length = min 16 (1 + n / 400))
    (hc : s.gameEndingIterations = 0) (hnext : (frame A s i).renderScreen = GamePlay) :
    (frame A s i).score = ((n + 1 : Nat) : Int) ∧
      (frame A s i).asteroids.length = min 16 (1 + (n + 1) / 400) ∧
      (frame A s i).gameEndingIterations = 0 ∧
      (tickScan A s i).hit = false ∧ (menuBlock s i).renderScreen = GamePlay := by
  have hp : (menuBlock s i).renderScreen = GamePlay := by
    rcases hscr with h | ⟨_, h⟩
    · exact (menuBlock_play_iff s i).2 (Or.inl h)
    · cases he : i.enterPressed
      · rw [frame_menu_idle A s i h he, h] at hnext
        cases hnext
      · exact (menuBlock_play_iff s i).2 (Or.inr ⟨h, he⟩)
  have hmiss : (tickScan A s i).hit = false := by
    cases hh : (tickScan A s i).hit
    · rfl
    · rw [frame_play_hit A s i hp (by simpa using hh) (by simp [hc])] at hnext
      cases hnext
  have hspawn := spawnDue_nat n s.asteroids
  have hl : (tickScan A s i).asteroids.length =
      if spawnDue ((n : Int) + 1) s.asteroids = true then s.asteroids.length + 1
      else s.asteroids.length := by
    unfold tickScan
    rw [scanAsteroids_length, spawnStep_length, hsc]
  rw [frame_play_miss A s i hp (by simpa using hmiss)]
  simp only [menuBlock_score, menuBlock_gameEndingIterations, tickScan_menuBlock]
  refine ⟨by rw [hsc]; push_cast; rfl, ?_, hc, hmiss, hp⟩
  rw [hl]
  by_cases hd : spawnDue ((n : Int) + 1) s.asteroids = true
  · rw [if_pos hd]
    have := hspawn.1 hd
    omega
  · rw [if_neg hd]
    have : ¬ ((n + 1) % 400 = 0 ∧ s.asteroids.length ≤ 15) := fun h => hd (hspawn.2 h)
    omega

theorem session_run (A : Assets) (inputs : List Input) (s : GameState) (n : Nat)
    (hscr : s.renderScreen = GamePlay ∨ (n = 0 ∧ s.renderScreen = MainMenu))
    (hsc : s.score = (n : Int)) (hlen : s.asteroids.length = min 16 (1 + n / 400))
    (hc : s.gameEndingIterations = 0)
    (hplay : ∀ k, 1 ≤ k → k ≤ inputs.length →
      (run A s (inputs.take k)).renderScreen = GamePlay) :
    (run A s inputs).score = ((n + inputs.length : Nat) : Int) ∧
      (run A s inputs).asteroids.length = min 16 (1 + (n + inputs.length) / 400) := by
  induction inputs generalizing s n with
  | nil => exact ⟨by simpa using hsc, by simpa using hlen⟩
  | cons i rest ih =>
    have h1 : (frame A s i).renderScreen = GamePlay := by
      have := hplay 1 (le_refl 1) (by simp)
      simpa [run] using this
    obtain ⟨hsc', hlen', hc', _, _⟩ := session_step A s i n hscr hsc hlen hc h1
    have hrest := ih (frame A s i) (n + 1) (Or.inl h1) hsc' hlen' hc' (by
      intro k hk1 hk2
      have := hplay (k + 1) (by omega) (by simp; omega)
      simpa [run] using this)
    have hrun : run A s (i :: rest) = run A (frame A s i) rest := rfl
    rw [hrun]
    have hlen2 : n + (i :: rest).length = n + 1 + rest.length := by simp; omega
    rw [hlen2]
    exact hrest

/-- **C17.** Take a session as `setupNewGame` starts it: score 0, one
obstacle, ending counter 0, on the screen `GamePlay` (after a restart) or
`MainMenu` (at program start).  If each of `n` frames ends with the screen
`GamePlay`, so that each is a tick in `GamePlay` that detects no collision,
then after them the score is `n` quarter units and the obstacle count is
`min(16, 1 + ⌊n / 400⌋)`.  Among these ticks the count grows, by one, exactly
on the ticks 400, 800, …, 6000. -/
theorem obstacle_count_after_ticks (A : Assets) (s : GameState) (inputs : List Input)
    (hscr : s.renderScreen = GamePlay ∨ s.renderScreen = MainMenu)
    (hsc : s.score = 0) (hlen : s.asteroids.length = 1) (hc : s.gameEndingIterations = 0)
    (hplay : ∀ k, 1 ≤ k → k ≤ inputs.length →
      (run A s (inputs.take k)).renderScreen = GamePlay) :
    (run A s inputs).score = (inputs.length : Int) ∧
    scoreValue (run A s inputs).score = (inputs.length : ℚ) / 4 ∧
    (run A s inputs).asteroids.length = min 16 (1 + inputs.length / 400) ∧
    ∀ m, 1 ≤ m → m ≤ inputs.length →
      ((run A s (inputs.take m)).asteroids.length =
          (run A s (inputs.take (m - 1))).asteroids.length + 1 ↔
        (m % 400 = 0 ∧ m ≤ 6000)) ∧
      (¬ (m % 400 = 0 ∧ m ≤ 6000) →
        (run A s (inputs.take m)).asteroids.length =
          (run A s (inputs.take (m - 1))).asteroids.length) := by
  have hscr0 : s.renderScreen = GamePlay ∨ (0 = 0 ∧ s.renderScreen = MainMenu) := by
    rcases hscr with h | h
    · exact Or.inl h
    · exact Or.inr ⟨rfl, h⟩
  have hpre : ∀ m, m ≤ inputs.length →
      (run A s (inputs.take m)).score = (m : Int) ∧
      (run A s (inputs.take m)).asteroids.length = min 16 (1 + m / 400) := by
    intro m hm
    have hl : (inputs.take m).length = m := by simp [hm]
    have h := session_run A (inputs.take m) s 0 hscr0 (by simpa using hsc)
      (by simpa using hlen) hc (by
        intro k hk1 hk2
        rw [hl] at hk2
        rw [List.take_take, min_eq_left hk2]
        exact hplay k hk1 (by omega))
    rw [hl] at h
    simpa using h
  have hall := hpre inputs.length (le_refl _)
  rw [List.take_length] at hall
  refine ⟨hall.1, ?_, hall.2, ?_⟩
  · rw [hall.1]
    simp [scoreValue]
  · intro m hm1 hm2
    have ha := (hpre m hm2).2
    have hb := (hpre (m - 1) (by omega)).2
    rw [ha, hb]
    constructor
    · omega
    · omega

theorem staysInGamePlay_take (A : Assets) (inputs : List Input) (s : GameState)
    (h : staysInGamePlay A s inputs = true) :
    ∀ k, 1 ≤ k → k ≤ inputs.length → (run A s (inputs.take k)).renderScreen = GamePlay := by
  induction inputs generalizing s with
  | nil => intro k hk1 hk2; simp at hk2; omega
  | cons i rest ih =>
    simp only [staysInGamePlay, Bool.and_eq_true, decide_eq_true_eq] at h
    intro k hk1 hk2
    obtain ⟨j, rfl⟩ : ∃ j, k = j + 1 := ⟨k - 1, by omega⟩
    have hrun : run A s ((i :: rest).take (j + 1)) = run A (frame A s i) (rest.take j) := rfl
    rw [hrun]
    cases j with
    | zero => simpa [run] using h.1
    | succ j =>
      exact ih (frame A s i) h.2 (j + 1) (by omega) (by simp at hk2; omega)

/-- C17 on the first 400 ticks of the quiet run of the concrete game: every
frame ends in `GamePlay`, and the count after the 400th tick is
`min(16, 1 + 400 / 400) = 2`. -/
theorem obstacle_count_after_ticks_witness :
    ((initialState sampleAssets 200).renderScreen = GamePlay ∨
      (initialState sampleAssets 200).renderScreen = MainMenu) ∧
    (initialState sampleAssets 200).score = 0 ∧
    (initialState sampleAssets 200).asteroids.length = 1 ∧
    (initialState sampleAssets 200).gameEndingIterations = 0 ∧
    staysInGamePlay sampleAssets (initialState sampleAssets 200) (quietInputs 399) = true ∧
    (quietInputs 399).length = 400 ∧
    (run sampleAssets (initialState sampleAssets 200) (quietInputs 399)).asteroids.length =
      min 16 (1 + (quietInputs 399).length / 400) :=
  ⟨Or.inr rfl, rfl, rfl, rfl, by decide!,
    by rw [quietInputs, List.length_cons, List.length_replicate],
    (obstacle_count_after_ticks sampleAssets (initialState sampleAssets 200) (quietInputs 399)
      (Or.inr rfl) rfl rfl rfl
      (staysInGamePlay_take sampleAssets (quietInputs 399) (initialState sampleAssets 200)
        (by decide!))).2.2.1⟩

/-! ## The game with the wide obstacle texture -/

/-- Entities of height 0 do not collide.  The vertical positions are below
`2^24`, where `float32` holds them exactly. -/
theorem collides_false_of_flat (g m : GameEntity) (hg : g.height = 0) (hm : m.height = 0)
    (hgy : -16777216 < g.yPos ∧ g.yPos < 16777216)
    (hmy : -16777216 < m.yPos ∧ m.yPos < 16777216) :
    collides g m = false := by
  simp only [collides, CheckCollisionRecs, NewRectangle, hg, hm, Bool.and_eq_false_iff,
    decide_eq_false_iff_not]
  right
  simp only [float32_of_small g.yPos hgy.1 hgy.2, float32_of_small m.yPos hmy.1 hmy.2,
    float32_of_small 0 (by decide) (by decide), Float32.add_def, add_zero, gt_iff_lt,
    Float32.lt_def]
  omega

/-- The move leaves an obstacle inside the vertical band of `getRandomYPos`. -/
theorem moveAsteroid_y_band (a : GameEntity) (r : Nat) (hr : (r : Int) < randIntnArg)
    (h : 50 ≤ a.yPos ∧ a.yPos < 400) :
    50 ≤ (moveAsteroid a r).yPos ∧ (moveAsteroid a r).yPos < 400 := by
  unfold moveAsteroid
  split
  · exact getRandomYPos_bounds r hr
  · exact h

/-- Entities of height 0 never collide: the scan detects nothing. -/
theorem scanAsteroids_flat_miss (g : GameEntity) (l : List GameEntity) (rnd : Nat → Nat)
    (hg : g.height = 0) (hgy : -16777216 < g.yPos ∧ g.yPos < 16777216)
    (hl : ∀ a ∈ l, a.height = 0 ∧ 50 ≤ a.yPos ∧ a.yPos < 400)
    (hr : ∀ k, (rnd k : Int) < randIntnArg) : (scanAsteroids g l rnd).hit = false := by
  induction l generalizing rnd with
  | nil => rfl
  | cons a rest ih =>
    have ha := hl a (List.mem_cons_self a rest)
    have hy := moveAsteroid_y_band a (rnd 0) (hr 0) ha.2
    have hc : collides g (moveAsteroid a (rnd 0)) = false :=
      collides_false_of_flat g _ hg ((moveAsteroid_dims a (rnd 0)).2.1.trans ha.1) hgy
        ⟨by omega, by omega⟩
    have h1 : ∀ k, ((if recycles a = true then nextRand rnd else rnd) k : Int) < randIntnArg := by
      split
      · exact nextRand_valid rnd hr
      · exact hr
    unfold scanAsteroids
    simp only [hc, Bool.false_eq_true, if_false]
    exact ih _ (fun b hb => hl b (List.mem_cons_of_mem a hb)) h1

theorem run_concat (A : Assets) (s : GameState) (l : List Input) (i : Input) :
    run A s (l ++ [i]) = frame A (run A s l) i := by
  simp [run, List.foldl_append]

theorem wideRun_succ (n : Nat) : wideRun (n + 1) = frame wideAssets (wideRun n) noKeys := by
  unfold wideRun
  rw [List.replicate_succ', ← List.cons_append, run_concat]

theorem wideRun_reachable (n : Nat) : Reachable wideAssets (wideRun n) := by
  unfold wideRun
  apply reachable_run
  · exact Reachable.start 0 (by simp [randIntnArg_eq])
  · intro i hi
    rcases List.mem_cons.1 hi with h | h
    · rw [h]; exact pressEnter_valid
    · rw [List.eq_of_mem_replicate h]; exact noKeys_valid

/-- A frame without keys from a state in `GamePlay` of the game with the wide
texture, whose first obstacle is at `x`: no collision is detected, and the
first obstacle of the next state is the moved first obstacle. -/
theorem wide_frame (s : GameState) (x : Int)
    (h1 : s.renderScreen = GamePlay) (h2 : s.gameEndingIterations = 0)
    (h3 : s.gopher.height = 0)
    (h4 : ∀ a ∈ s.asteroids, a.height = 0 ∧ a.width = 2147483048 ∧ 50 ≤ a.yPos ∧ a.yPos < 400)
    (h5 : ∃ a rest, s.asteroids = a :: rest ∧ a.xPos = x) :
    (frame wideAssets s noKeys).renderScreen = GamePlay ∧
    (frame wideAssets s noKeys).gameEndingIterations = 0 ∧
    (frame wideAssets s noKeys).gopher.height = 0 ∧
    (∀ a ∈ (frame wideAssets s noKeys).asteroids, a.height = 0 ∧ a.width = 2147483048 ∧ 50 ≤ a.yPos ∧ a.yPos < 400) ∧
    (∃ a rest, (frame wideAssets s noKeys).asteroids = a :: rest ∧
      a.xPos = if toInt32 (x - GRAVITY) < toInt32 (-2147483048) then
        toInt32 (SCREEN_WIDTH + 2147483048) else toInt32 (x - GRAVITY)) := by
  have hp : (menuBlock s noKeys).renderScreen = GamePlay :=
    (menuBlock_play_iff s noKeys).2 (Or.inl h1)
  have hall : ∀ a ∈ (tickScan wideAssets s noKeys).asteroids,
      a.height = 0 ∧ a.width = 2147483048 ∧ 50 ≤ a.yPos ∧ a.yPos < 400 :=
    tickScan_forall wideAssets
      (fun a => a.height = 0 ∧ a.width = 2147483048 ∧ 50 ≤ a.yPos ∧ a.yPos < 400)
      (fun r hr => ⟨rfl, rfl, getRandomYPos_bounds r hr⟩)
      (fun a r hr h => ⟨(moveAsteroid_dims a r).2.1.trans h.1,
        (moveAsteroid_dims a r).1.trans h.2.1, moveAsteroid_y_band a r hr h.2.2⟩)
      s noKeys noKeys_valid h4
  obtain ⟨a, rest, hcons, hx⟩ := h5
  have hspawn : ∃ rest', (spawnStep wideAssets (s.score + 1) s.asteroids noKeys.rand).1 =
      a :: rest' ∧ ∀ b ∈ a :: rest', b.height = 0 ∧ 50 ≤ b.yPos ∧ b.yPos < 400 := by
    unfold spawnStep
    split
    · refine ⟨rest ++ [_], by rw [hcons]; rfl, ?_⟩
      intro b hb
      rw [← List.cons_append, ← hcons] at hb
      rcases List.mem_append.1 hb with hb | hb
      · exact ⟨(h4 b hb).1, (h4 b hb).2.2⟩
      · rw [List.mem_singleton.1 hb]
        exact ⟨rfl, getRandomYPos_bounds _ (noKeys_valid 0)⟩
    · refine ⟨rest, hcons, ?_⟩
      intro b hb
      rw [← hcons] at hb
      exact ⟨(h4 b hb).1, (h4 b hb).2.2⟩
  obtain ⟨rest', hsp, hflat⟩ := hspawn
  have hts : tickScan wideAssets s noKeys =
      scanAsteroids (moveGopher wideAssets s.gopher noKeys.spaceDown)
        (spawnStep wideAssets (s.score + 1) s.asteroids noKeys.rand).1
        (spawnStep wideAssets (s.score + 1) s.asteroids noKeys.rand).2 := rfl
  have hmiss : (tickScan wideAssets s noKeys).hit = false := by
    rw [hts]
    have hy := newGopherY_bounds s.gopher noKeys.spaceDown (by rw [h3]) (by rw [h3]; decide)
    rw [h3] at hy
    simp only [SCREEN_HEIGHT] at hy
    have hgy : (moveGopher wideAssets s.gopher noKeys.spaceDown).yPos =
        newGopherY s.gopher noKeys.spaceDown := rfl
    apply scanAsteroids_flat_miss
    · exact h3
    · rw [hgy]; omega
    · rw [hsp]; exact hflat
    · exact spawnStep_rand_valid wideAssets _ _ _ noKeys_valid
  have hhead : ∃ rest'', (tickScan wideAssets s noKeys).asteroids =
      moveAsteroid a ((spawnStep wideAssets (s.score + 1) s.asteroids noKeys.rand).2 0) ::
        rest'' := by
    rw [hts, scanAsteroids_miss _ _ _ (by rw [← hts]; exact hmiss), hsp]
    exact ⟨_, rfl⟩
  obtain ⟨rest'', hh⟩ := hhead
  rw [frame_play_miss wideAssets s noKeys hp (by simpa using hmiss)]
  simp only [menuBlock_gameEndingIterations, tickScan_menuBlock, menuBlock_gopher]
  refine ⟨hp, h2, h3, hall, _, rest'', hh, ?_⟩
  have hw := (h4 a (by rw [hcons]; exact List.mem_cons_self a rest)).2.1
  have hv : ((spawnStep wideAssets (s.score + 1) s.asteroids noKeys.rand).2 0 : Int) <
      randIntnArg := spawnStep_rand_valid wideAssets _ _ _ noKeys_valid 0
  have hm := moveAsteroid_int32 a _ hv
  rw [hx, hw] at hm
  by_cases hc : toInt32 (x - GRAVITY) < toInt32 (-2147483048)
  · rw [if_pos hc]; exact (hm.2.2.2.2 hc).1
  · rw [if_neg hc]; exact (hm.2.2.2.1 hc).1

theorem wideRun_zero : wideRun 0 =
    { highestScore := 0, renderScreen := GamePlay, score := 1,
      gopher := ⟨400, 228, 0, 0, ⟨3, 0, 0⟩⟩,
      asteroids := [⟨797, 50, 2147483048, 0, ⟨4, 2147483048, 0⟩⟩],
      gameEndingIterations := 0 } := by
  decide!

/-- While the obstacle has not reached the left bound, the state after `n + 1`
ticks is in `GamePlay` and its first obstacle is at `x = 800 - 3 (n + 1)`. -/
theorem wideRun_approach (n : Nat) (h : 3 * (n + 1) ≤ 2147483848) :
    (wideRun n).renderScreen = GamePlay ∧ (wideRun n).gameEndingIterations = 0 ∧
    (wideRun n).gopher.height = 0 ∧
    (∀ a ∈ (wideRun n).asteroids, a.height = 0 ∧ a.width = 2147483048 ∧ 50 ≤ a.yPos ∧ a.yPos < 400) ∧
    (∃ a rest, (wideRun n).asteroids = a :: rest ∧ a.xPos = 800 - 3 * ((n : Int) + 1)) := by
  induction n with
  | zero =>
    rw [wideRun_zero]
    refine ⟨rfl, rfl, rfl, ?_, _, _, rfl, rfl⟩
    intro a ha
    rw [List.mem_singleton.1 ha]
    exact ⟨rfl, rfl, by decide, by decide⟩
  | succ n ih =>
    obtain ⟨h1, h2, h3, h4, h5⟩ := ih (by omega)
    have hf := wide_frame (wideRun n) _ h1 h2 h3 h4 h5
    rw [← wideRun_succ] at hf
    obtain ⟨f1, f2, f3, f4, a, rest, f5, f6⟩ := hf
    refine ⟨f1, f2, f3, f4, a, rest, f5, ?_⟩
    have e1 : toInt32 (800 - 3 * ((n : Int) + 1) - GRAVITY) =
        800 - 3 * ((n : Int) + 1) - GRAVITY :=
      toInt32_of_range _ (by simp only [GRAVITY]; omega) (by simp only [GRAVITY]; omega)
    have e2 : toInt32 (-2147483048) = -2147483048 := by decide
    rw [f6, e1, e2, if_neg (by simp only [GRAVITY]; omega)]
    simp only [GRAVITY]
    push_cast
    omega

/-- The tick that takes the first obstacle past the left bound recycles it to
`int32(SCREEN_WIDTH + width)`, which has wrapped around. -/
theorem wideRun_recycled (n : Nat) (h1 : 3 * (n + 1) ≤ 2147483848)
    (h2 : 2147483848 < 3 * (n + 2)) :
    ∃ a ∈ (wideRun (n + 1)).asteroids, a.width = 2147483048 ∧ a.xPos = -2147483448 := by
  obtain ⟨g1, g2, g3, g4, g5⟩ := wideRun_approach n h1
  have hf := wide_frame (wideRun n) _ g1 g2 g3 g4 g5
  rw [← wideRun_succ] at hf
  obtain ⟨_, _, _, f4, a, rest, f5, f6⟩ := hf
  refine ⟨a, by rw [f5]; exact List.mem_cons_self a rest,
    (f4 a (by rw [f5]; exact List.mem_cons_self a rest)).2.1, ?_⟩
  have e1 : toInt32 (800 - 3 * ((n : Int) + 1) - GRAVITY) =
      800 - 3 * ((n : Int) + 1) - GRAVITY :=
    toInt32_of_range _ (by simp only [GRAVITY]; omega) (by simp only [GRAVITY]; omega)
  have e2 : toInt32 (-2147483048) = -2147483048 := by decide
  rw [f6, e1, e2, if_pos (by simp only [GRAVITY]; omega)]
  decide

/-! ## C18: the obstacles stay inside their bounds -/

/-- **C18, as stated, fails.** Take an obstacle texture of width
`w = 2147483048`, which is not negative, and of height 0, with a player of
height 0, so that no collision ever ends the session.  Without keys the first
obstacle moves left by 3 pixels per tick from `x = 800`; on tick 715827950 it
would pass `-w` and is recycled to `int32(SCREEN_WIDTH + w)`, which wraps
around to `-2147483448`.  The state is reachable and its obstacle is to the
left of `-w`. -/
theorem asteroid_left_of_bound_with_wide_texture :
    Reachable wideAssets (wideRun 715827949) ∧
    (0 : Int) ≤ wideAssets.asteroidTexture.Width ∧
    ∃ a ∈ (wideRun 715827949).asteroids, a.width = wideAssets.asteroidTexture.Width ∧
      a.xPos = -2147483448 ∧ ¬ (-wideAssets.asteroidTexture.Width ≤ a.xPos) := by
  refine ⟨wideRun_reachable 715827949, by decide, ?_⟩
  obtain ⟨a, ha, hw, hx⟩ := wideRun_recycled 715827948 (by decide) (by decide)
  refine ⟨a, ha, hw, hx, ?_⟩
  rw [hx]
  decide

/-- **C18, amended.** Let the obstacle texture have a width `w` with `0 ≤ w`,
small enough that `SCREEN_WIDTH + w` is an `int32`.  In every reachable state, so in
every state that GamePlay ticks with any input and random results in range
lead to from `setupNewGame`, every obstacle of the collection has width `w`
and satisfies `-w ≤ x ≤ SCREEN_WIDTH + w` and `50 ≤ y < SCREEN_HEIGHT - 50`;
the same holds right after the update block of the next frame, that is at the
end of each tick. -/
theorem asteroids_within_bounds (A : Assets) (s : GameState) (hs : Reachable A s)
    (hw0 : 0 ≤ A.asteroidTexture.Width)
    (hw1 : A.asteroidTexture.Width + 800 < 2147483648) :
    (∀ a ∈ s.asteroids, a.width = A.asteroidTexture.Width ∧
      -A.asteroidTexture.Width ≤ a.xPos ∧ a.xPos ≤ SCREEN_WIDTH + A.asteroidTexture.Width ∧
      50 ≤ a.yPos ∧ a.yPos < SCREEN_HEIGHT - 50) ∧
    (∀ i : Input, i.valid → ∀ a ∈ (afterUpdate A s i).1.asteroids,
      a.width = A.asteroidTexture.Width ∧
      -A.asteroidTexture.Width ≤ a.xPos ∧ a.xPos ≤ SCREEN_WIDTH + A.asteroidTexture.Width ∧
      50 ≤ a.yPos ∧ a.yPos < SCREEN_HEIGHT - 50) := by
  have h400 : SCREEN_HEIGHT - 50 = 400 := by decide
  rw [h400]
  have hb := reachable_asteroid_bounds A s hs hw0 hw1
  refine ⟨hb, ?_⟩
  intro i hi
  unfold afterUpdate
  by_cases hp : (menuBlock s i).renderScreen = GamePlay
  · rw [updateBlock_asteroids A _ i hp, tickScan_menuBlock]
    exact tickScan_forall A _ (newAsteroid_bounds A hw0)
      (moveAsteroid_bounds A.asteroidTexture.Width hw0 hw1) s i hi hb
  · rw [updateBlock_of_ne A _ i hp, menuBlock_asteroids]
    exact hb

/-- The amended C18 in the quiet run of the concrete game, in the state whose only
obstacle is at `x = -49`, one pixel inside the left bound `-50`. -/
theorem asteroids_within_bounds_witness :
    Reachable sampleAssets (quietRun 282) ∧
    (0 : Int) ≤ sampleAssets.asteroidTexture.Width ∧
    sampleAssets.asteroidTexture.Width + 800 < 2147483648 ∧
    (quietRun 282).asteroids = [⟨-49, 250, 50, 50, ⟨4, 50, 50⟩⟩] ∧
    ∀ a ∈ (quietRun 282).asteroids, a.width = sampleAssets.asteroidTexture.Width ∧
      -sampleAssets.asteroidTexture.Width ≤ a.xPos ∧
      a.xPos ≤ SCREEN_WIDTH + sampleAssets.asteroidTexture.Width ∧
      50 ≤ a.yPos ∧ a.yPos < SCREEN_HEIGHT - 50 :=
  ⟨quietRun_reachable 282, by decide, by decide, by rw [quietRun_282],
    (asteroids_within_bounds sampleAssets (quietRun 282) (quietRun_reachable 282) (by decide)
      (by decide)).1⟩

/-! ## C19: the high score as a maximum -/

theorem updateHighestScore_eq_max (score highestScore : Int) :
    updateHighestScore score highestScore = max highestScore (Int.tdiv score 4) := by
  unfold updateHighestScore
  split <;> omega

theorem afterDraw_of_over (A : Assets) (s : GameState) (i : Input)
    (h : s.renderScreen = GameOver) : afterDraw A s i = s := by
  have h0 : s.renderScreen ≠ MainMenu := by simp [h]
  have h1 : s.renderScreen ≠ GamePlay := by simp [h]
  have h2 : s.renderScreen ≠ GameEnding := by simp [h]
  simp only [afterDraw, afterUpdate, menuBlock_of_ne s i h0, updateBlock_of_ne A s i h1,
    drawBlock_of_ne s h2]

/-- The high score after a frame: raised to the final score if the frame
takes a session to `GameOver`, unchanged otherwise. -/
theorem frame_highestScore (A : Assets) (s : GameState) (i : Input) (h : Inv A s) :
    (frame A s i).highestScore =
      if endsSession A s i = true then max s.highestScore (Int.tdiv (afterDraw A s i).score 4)
      else s.highestScore := by
  have hfr : (frame A s i).highestScore =
      (gameOverBlock A (afterDraw A s i) i (afterUpdate A s i).2).highestScore := rfl
  by_cases hover : (afterDraw A s i).renderScreen = GameOver
  · rw [hfr, gameOverBlock_highestScore A _ i _ hover, afterDraw_highestScore,
      updateHighestScore_eq_max]
    by_cases hs : s.renderScreen = GameOver
    · have hend : endsSession A s i = false := by simp [endsSession, hs]
      rw [hend, afterDraw_of_over A s i hs]
      have := h.best_over hs
      simp only [Bool.false_eq_true, if_false]
      omega
    · have hend : endsSession A s i = true := by simp [endsSession, hs, hover]
      rw [hend, if_pos rfl]
  · have hend : endsSession A s i = false := by simp [endsSession, hover]
    rw [hfr, gameOverBlock_of_ne A _ i _ hover, afterDraw_highestScore, hend]
    simp

theorem finalScores_cons (A : Assets) (s : GameState) (i : Input) (rest : List Input) :
    finalScores A s (i :: rest) =
      if endsSession A s i = true then
        Int.tdiv (afterDraw A s i).score 4 :: finalScores A (frame A s i) rest
      else finalScores A (frame A s i) rest := rfl

/-- In a reachable state, the draw block of a frame whose update block runs in
`GamePlay` leaves the screen `GamePlay` or `GameEnding`. -/
theorem afterDraw_play_screen (A : Assets) (s : GameState) (i : Input) (h : Inv A s)
    (hp : (menuBlock s i).renderScreen = GamePlay) :
    (afterDraw A s i).renderScreen = GamePlay ∨ (afterDraw A s i).renderScreen = GameEnding := by
  have hc0 : s.gameEndingIterations = 0 := by
    rcases (menuBlock_play_iff s i).1 hp with h1 | ⟨h1, _⟩
    · exact h.counter_idle (Or.inr h1)
    · exact h.counter_idle (Or.inl h1)
  unfold afterDraw afterUpdate
  cases hh : (tickScan A (menuBlock s i) i).hit
  · left
    rw [updateBlock_miss A _ i hp hh, drawBlock_of_ne _ (by simp [hp])]
    exact hp
  · right
    rw [updateBlock_hit A _ i hp hh, drawBlock_continue _ rfl (by simp [hc0])]

theorem run_highestScore (A : Assets) (inputs : List Input) (s : GameState) (h : Inv A s) :
    (run A s inputs).highestScore = (finalScores A s inputs).foldl max s.highestScore := by
  induction inputs generalizing s with
  | nil => rfl
  | cons i rest ih =>
    have hrun : run A s (i :: rest) = run A (frame A s i) rest := rfl
    rw [hrun, ih (frame A s i) (inv_frame A s i h), frame_highestScore A s i h,
      finalScores_cons]
    by_cases hend : endsSession A s i = true
    · rw [if_pos hend, if_pos hend, List.foldl_cons]
    · rw [if_neg hend, if_neg hend]

/-- **C19.** After any sequence of frames from program start, `highestScore`
is the maximum of 0 and the truncated integer final scores of all the
sessions that have reached `GameOver` so far; it is 0 as long as no session
has reached `GameOver`; and a frame that does not take a session to
`GameOver`, such as any frame of a session still in `GamePlay` or
`GameEnding`, leaves it as it is.  In a reachable state a frame takes a
session to `GameOver` only from `GameEnding`, and the final score is then the
score the frame starts with. -/
theorem highestScore_is_max_of_final_scores (A : Assets) (r : Nat) (inputs : List Input) :
    (run A (initialState A r) inputs).highestScore =
      (finalScores A (initialState A r) inputs).foldl max 0 ∧
    (finalScores A (initialState A r) inputs = [] →
      (run A (initialState A r) inputs).highestScore = 0) ∧
    (∀ i : Input, endsSession A (run A (initialState A r) inputs) i = false →
      (frame A (run A (initialState A r) inputs) i).highestScore =
        (run A (initialState A r) inputs).highestScore) ∧
    (∀ i : Input, endsSession A (run A (initialState A r) inputs) i = true →
      (run A (initialState A r) inputs).renderScreen = GameEnding ∧
      (afterDraw A (run A (initialState A r) inputs) i).score =
        (run A (initialState A r) inputs).score ∧
      (frame A (run A (initialState A r) inputs) i).highestScore =
        max (run A (initialState A r) inputs).highestScore
          (Int.tdiv (run A (initialState A r) inputs).score 4)) := by
  have h0 := inv_initialState A r
  have hinv := inv_run A inputs (initialState A r) h0
  have hmax := run_highestScore A inputs (initialState A r) h0
  refine ⟨hmax, ?_, ?_, ?_⟩
  · intro hnil
    rw [hmax, hnil]
    rfl
  · intro i hend
    rw [frame_highestScore A _ i hinv, hend]
    simp
  · intro i hend
    have hfr := frame_highestScore A _ i hinv
    rw [hend, if_pos rfl] at hfr
    simp only [endsSession, Bool.and_eq_true, decide_eq_true_eq] at hend
    obtain ⟨hne, hover⟩ := hend
    have hscr : (run A (initialState A r) inputs).renderScreen = GameEnding := by
      by_cases hp : (menuBlock (run A (initialState A r) inputs) i).renderScreen = GamePlay
      · exfalso
        rcases afterDraw_play_screen A _ i hinv hp with h2 | h2 <;>
          · rw [h2] at hover; cases hover
      · cases hs : (run A (initialState A r) inputs).renderScreen
        · exfalso
          have h1 : (run A (initialState A r) inputs).renderScreen ≠ GameEnding := by
            simp [hs]
          have hm : (menuBlock (run A (initialState A r) inputs) i).renderScreen = MainMenu := by
            cases he : i.enterPressed
            · rw [menuBlock_idle _ i he]; exact hs
            · exact absurd ((menuBlock_play_iff _ i).2 (Or.inr ⟨hs, he⟩)) hp
          unfold afterDraw afterUpdate at hover
          rw [updateBlock_of_ne A _ i hp, drawBlock_of_ne _ (by rw [hm]; simp), hm] at hover
          cases hover
        · exact absurd ((menuBlock_play_iff _ i).2 (Or.inl hs)) hp
        · rfl
        · exact absurd hs hne
    have hsc : (afterDraw A (run A (initialState A r) inputs) i).score =
        (run A (initialState A r) inputs).score := by
      have h1 : (menuBlock (run A (initialState A r) inputs) i).renderScreen ≠ GamePlay := by
        rw [menuBlock_of_ne _ i (by simp [hscr]), hscr]
        simp
      unfold afterDraw afterUpdate
      rw [drawBlock_score, updateBlock_of_ne A _ i h1, menuBlock_score]
    refine ⟨hscr, hsc, ?_⟩
    rw [hfr, hsc]

/-- C19 on the first session of the concrete game and a wait on the
game-over screen: one session has reached `GameOver`, with final score 31. -/
theorem highestScore_is_max_of_final_scores_witness :
    finalScores sampleAssets (initialState sampleAssets 0)
      (pressEnter :: List.replicate 260 noKeys) = [31] ∧
    (run sampleAssets (initialState sampleAssets 0)
      (pressEnter :: List.replicate 260 noKeys)).highestScore =
      (finalScores sampleAssets (initialState sampleAssets 0)
        (pressEnter :: List.replicate 260 noKeys)).foldl max 0 :=
  ⟨by decide!,
    (highestScore_is_max_of_final_scores sampleAssets 0
      (pressEnter :: List.replicate 260 noKeys)).1⟩

/-! ## C9: collision detection -/

/-- The update block leaves the player's horizontal position as it is. -/
theorem updateBlock_gopher_xPos (A : Assets) (s : GameState) (i : Input) :
    (updateBlock A s i).1.gopher.xPos = s.gopher.xPos := by
  unfold updateBlock
  split
  · dsimp only
    split <;> rfl
  · rfl

/-- In every reachable state the player is at the horizontal position that
`setupNewGame` gives it. -/
theorem reachable_gopher_xPos (A : Assets) (s : GameState) (hs : Reachable A s) :
    s.gopher.xPos =
      toInt32 (toInt32 (Int.tdiv SCREEN_WIDTH 2) -
        toInt32 (Int.tdiv A.gopherDownTexture.Width 2)) := by
  induction hs with
  | start r _ => rfl
  | step s i _ _ ih =>
    have hd : (afterDraw A s i).gopher.xPos = s.gopher.xPos := by
      unfold afterDraw afterUpdate
      rw [drawBlock_gopher, updateBlock_gopher_xPos A _ i, menuBlock_gopher]
    have hfr : (frame A s i).gopher =
        (gameOverBlock A (afterDraw A s i) i (afterUpdate A s i).2).gopher := rfl
    rcases gameOverBlock_gopher A (afterDraw A s i) i (afterUpdate A s i).2 with hg | hg
    · rw [hfr, hg, hd]; exact ih
    · rw [hfr, hg]; rfl

/-- A property of obstacles that the move establishes holds of every moved
obstacle. -/
theorem movedAsteroids_forall (P Q : GameEntity → Prop)
    (hmove : ∀ (a : GameEntity) (r : Nat), (r : Int) < randIntnArg → P a → Q (moveAsteroid a r))
    (l : List GameEntity) (rnd : Nat → Nat) (hl : ∀ a ∈ l, P a)
    (h : ∀ k, (rnd k : Int) < randIntnArg) :
    ∀ m ∈ movedAsteroids l rnd, Q m := by
  induction l generalizing rnd with
  | nil => intro m hm; simp [movedAsteroids] at hm
  | cons a rest ih =>
    intro m hm
    unfold movedAsteroids at hm
    rcases List.mem_cons.1 hm with h1 | h1
    · rw [h1]; exact hmove a (rnd 0) (h 0) (hl a (List.mem_cons_self a rest))
    · refine ih _ (fun b hb => hl b (List.mem_cons_of_mem a hb)) ?_ m h1
      split
      · exact nextRand_valid rnd h
      · exact h

/-- In a tick from a reachable state of a game whose textures are at most
8000000 pixels wide and high, `float32` holds the positions, the sizes and
the far edges of the moved player and of every moved obstacle exactly. -/
theorem reachable_tick_exactInFloat32 (A : Assets) (s : GameState) (i : Input)
    (hs : Reachable A s) (hi : i.valid)
    (hgw : 0 ≤ A.gopherDownTexture.Width ∧ A.gopherDownTexture.Width ≤ 8000000)
    (hgh : 0 ≤ A.gopherDownTexture.Height ∧ A.gopherDownTexture.Height ≤ 8000000)
    (haw : 0 ≤ A.asteroidTexture.Width ∧ A.asteroidTexture.Width ≤ 8000000)
    (hah : 0 ≤ A.asteroidTexture.Height ∧ A.asteroidTexture.Height ≤ 8000000) :
    exactInFloat32 (moveGopher A s.gopher i.spaceDown) ∧
    ∀ m ∈ movedAsteroids (spawnStep A (s.score + 1) s.asteroids i.rand).1
        (spawnStep A (s.score + 1) s.asteroids i.rand).2, exactInFloat32 m := by
  constructor
  · have hx := reachable_gopher_xPos A s hs
    have hw := reachable_gopher_width A s hs
    have hh := (reachable_inv A s hs).height
    have hy := newGopherY_bounds s.gopher i.spaceDown (by rw [hh]; exact hgh.1)
      (by rw [hh]; omega)
    have e1 : (moveGopher A s.gopher i.spaceDown).xPos = s.gopher.xPos := rfl
    have e2 : (moveGopher A s.gopher i.spaceDown).yPos = newGopherY s.gopher i.spaceDown := rfl
    have e3 : (moveGopher A s.gopher i.spaceDown).width = s.gopher.width := rfl
    have e4 : (moveGopher A s.gopher i.spaceDown).height = s.gopher.height := rfl
    have hx2 : s.gopher.xPos = 400 - A.gopherDownTexture.Width / 2 := by
      rw [hx]
      simp only [SCREEN_WIDTH]
      rw [Int.tdiv_eq_ediv hgw.1 (by decide), Int.tdiv_eq_ediv (by decide) (by decide)]
      simp only [toInt32]
      omega
    simp only [exactInFloat32, e1, e2, e3, e4, hx2, hw, hh]
    simp only [SCREEN_HEIGHT, hh] at hy
    omega
  · have hall : ∀ a ∈ s.asteroids, a.height = A.asteroidTexture.Height ∧
        (a.width = A.asteroidTexture.Width ∧ -A.asteroidTexture.Width ≤ a.xPos ∧
          a.xPos ≤ SCREEN_WIDTH + A.asteroidTexture.Width ∧ 50 ≤ a.yPos ∧ a.yPos < 400) := by
      exact reachable_asteroids_forall A
        (fun a => a.height = A.asteroidTexture.Height ∧
          (a.width = A.asteroidTexture.Width ∧ -A.asteroidTexture.Width ≤ a.xPos ∧
            a.xPos ≤ SCREEN_WIDTH + A.asteroidTexture.Width ∧ 50 ≤ a.yPos ∧ a.yPos < 400))
        (fun r hr => ⟨rfl, newAsteroid_bounds A haw.1 r hr⟩)
        (fun a r hr h => ⟨(moveAsteroid_dims a r).2.1.trans h.1,
          moveAsteroid_bounds A.asteroidTexture.Width haw.1 (by omega) a r hr h.2⟩) s hs
    have hsp := spawnStep_forall A
      (fun a => a.height = A.asteroidTexture.Height ∧
        (a.width = A.asteroidTexture.Width ∧ -A.asteroidTexture.Width ≤ a.xPos ∧
          a.xPos ≤ SCREEN_WIDTH + A.asteroidTexture.Width ∧ 50 ≤ a.yPos ∧ a.yPos < 400))
      (fun r hr => ⟨rfl, newAsteroid_bounds A haw.1 r hr⟩) (s.score + 1) s.asteroids i.rand
      hi hall
    apply movedAsteroids_forall _ exactInFloat32 _ _ _ hsp
      (spawnStep_rand_valid A _ _ _ hi)
    intro a r hr h
    have hb := moveAsteroid_bounds A.asteroidTexture.Width haw.1 (by omega) a r hr h.2
    have hd := (moveAsteroid_dims a r).2.1.trans h.1
    simp only [SCREEN_WIDTH] at hb
    simp only [exactInFloat32, hd, hb.1]
    omega
/-- **C9.** The update block of a tick in `GamePlay` sets the screen to
`GameEnding` if and only if some obstacle of the collection, in the position
its move gives it, and the player, in the position its move gives it, collide
under `CheckCollisionRecs`, applied as in lines 197 to 200 to the rectangles
of the `float32` conversions of their positions and sizes; otherwise the
screen stays `GamePlay`.  In a reachable state the same holds of the screen
at the end of the frame.  In a reachable state of a game whose textures are
at most 8000000 pixels wide and high, the screen is set to `GameEnding` if
and only if the rectangle of some moved obstacle and the rectangle of the
moved player overlap as rectangles of integers; in general the test is that
overlap for a player and an obstacle whose positions, sizes and far edges are
below `2^24`.  The rectangles (100,100,30,30) and (100,100,30,30) collide;
(0,0,10,10) and (50,50,10,10) do not. -/
theorem collision_iff_overlap (A : Assets) (s : GameState) (i : Input)
    (h : s.renderScreen = GamePlay) :
    ((updateBlock A s i).1.renderScreen = GameEnding ↔
      ∃ m ∈ movedAsteroids (spawnStep A (s.score + 1) s.asteroids i.rand).1
          (spawnStep A (s.score + 1) s.asteroids i.rand).2,
        CheckCollisionRecs
          (NewRectangle (float32 (moveGopher A s.gopher i.spaceDown).xPos)
            (float32 (moveGopher A s.gopher i.spaceDown).yPos)
            (float32 (moveGopher A s.gopher i.spaceDown).width)
            (float32 (moveGopher A s.gopher i.spaceDown).height))
          (NewRectangle (float32 m.xPos) (float32 m.yPos) (float32 m.width)
            (float32 m.height)) = true) ∧
    ((updateBlock A s i).1.renderScreen ≠ GameEnding →
      (updateBlock A s i).1.renderScreen = GamePlay) ∧
    (Reachable A s →
      ((frame A s i).renderScreen = GameEnding ↔
        (updateBlock A s i).1.renderScreen = GameEnding) ∧
      ((frame A s i).renderScreen ≠ GameEnding → (frame A s i).renderScreen = GamePlay)) ∧
    (Reachable A s → i.valid →
      0 ≤ A.gopherDownTexture.Width ∧ A.gopherDownTexture.Width ≤ 8000000 →
      0 ≤ A.gopherDownTexture.Height ∧ A.gopherDownTexture.Height ≤ 8000000 →
      0 ≤ A.asteroidTexture.Width ∧ A.asteroidTexture.Width ≤ 8000000 →
      0 ≤ A.asteroidTexture.Height ∧ A.asteroidTexture.Height ≤ 8000000 →
      ((updateBlock A s i).1.renderScreen = GameEnding ↔
        ∃ m ∈ movedAsteroids (spawnStep A (s.score + 1) s.asteroids i.rand).1
            (spawnStep A (s.score + 1) s.asteroids i.rand).2,
          rectanglesOverlap (moveGopher A s.gopher i.spaceDown) m)) ∧
    (∀ g m : GameEntity, exactInFloat32 g → exactInFloat32 m →
      (CheckCollisionRecs
          (NewRectangle (float32 g.xPos) (float32 g.yPos) (float32 g.width) (float32 g.height))
          (NewRectangle (float32 m.xPos) (float32 m.yPos) (float32 m.width)
            (float32 m.height)) = true ↔
        rectanglesOverlap g m)) ∧
    CheckCollisionRecs (NewRectangle (float32 100) (float32 100) (float32 30) (float32 30))
      (NewRectangle (float32 100) (float32 100) (float32 30) (float32 30)) = true ∧
    CheckCollisionRecs (NewRectangle (float32 0) (float32 0) (float32 10) (float32 10))
      (NewRectangle (float32 50) (float32 50) (float32 10) (float32 10)) = false := by
  have hscr := updateBlock_screen A s i h
  have hiff := scanAsteroids_hit_iff (moveGopher A s.gopher i.spaceDown)
    (spawnStep A (s.score + 1) s.asteroids i.rand).1
    (spawnStep A (s.score + 1) s.asteroids i.rand).2
  have ht : tickScan A s i = scanAsteroids (moveGopher A s.gopher i.spaceDown)
    (spawnStep A (s.score + 1) s.asteroids i.rand).1
    (spawnStep A (s.score + 1) s.asteroids i.rand).2 := rfl
  rw [← ht] at hiff
  have hend : (updateBlock A s i).1.renderScreen = GameEnding ↔ (tickScan A s i).hit = true := by
    rw [hscr]
    cases (tickScan A s i).hit <;> simp
  refine ⟨?_, ?_, ?_, ?_, ?_, by decide, by decide⟩
  · rw [hend, hiff]
    simp only [collides]
  · rw [hscr]
    cases (tickScan A s i).hit <;> simp
  · intro hs
    have hinv := reachable_inv A s hs
    have hp := (menuBlock_play_iff s i).2 (Or.inl h)
    rw [hscr]
    rcases frame_play_cases A s i hinv hp with ⟨h1, h2, _⟩ | ⟨h1, h2, _⟩ <;>
      · rw [h1, h2]; simp
  · intro hs hi hgw hgh haw hah
    have hex := reachable_tick_exactInFloat32 A s i hs hi hgw hgh haw hah
    rw [hend, hiff]
    constructor
    · rintro ⟨m, hm, hc⟩
      exact ⟨m, hm, (collides_iff_rectanglesOverlap _ m hex.1 (hex.2 m hm)).1 hc⟩
    · rintro ⟨m, hm, ho⟩
      exact ⟨m, hm, (collides_iff_rectanglesOverlap _ m hex.1 (hex.2 m hm)).2 ho⟩
  · intro g m hg hm
    have hc := collides_iff_rectanglesOverlap g m hg hm
    simp only [collides] at hc
    exact hc

/-- C9 at the collision frame of the concrete game: the screen becomes
`GameEnding`, and the obstacle that collides, moved to `(422, 50)`, overlaps
the player, moved to `(375, 25)`, as a rectangle of integers. -/
theorem collision_iff_overlap_witness :
    (sampleRun 124).renderScreen = GamePlay ∧
    (updateBlock sampleAssets (sampleRun 124) noKeys).1.renderScreen = GameEnding ∧
    (∃ m ∈ movedAsteroids
        (spawnStep sampleAssets ((sampleRun 124).score + 1) (sampleRun 124).asteroids
          noKeys.rand).1
        (spawnStep sampleAssets ((sampleRun 124).score + 1) (sampleRun 124).asteroids
          noKeys.rand).2,
      CheckCollisionRecs
        (NewRectangle
          (float32 (moveGopher sampleAssets (sampleRun 124).gopher noKeys.spaceDown).xPos)
          (float32 (moveGopher sampleAssets (sampleRun 124).gopher noKeys.spaceDown).yPos)
          (float32 (moveGopher sampleAssets (sampleRun 124).gopher noKeys.spaceDown).width)
          (float32 (moveGopher sampleAssets (sampleRun 124).gopher noKeys.spaceDown).height))
        (NewRectangle (float32 m.xPos) (float32 m.yPos) (float32 m.width)
          (float32 m.height)) = true) ∧
    (∃ m ∈ movedAsteroids
        (spawnStep sampleAssets ((sampleRun 124).score + 1) (sampleRun 124).asteroids
          noKeys.rand).1
        (spawnStep sampleAssets ((sampleRun 124).score + 1) (sampleRun 124).asteroids
          noKeys.rand).2,
      rectanglesOverlap (moveGopher sampleAssets (sampleRun 124).gopher noKeys.spaceDown) m) ∧
    movedAsteroids
        (spawnStep sampleAssets ((sampleRun 124).score + 1) (sampleRun 124).asteroids
          noKeys.rand).1
        (spawnStep sampleAssets ((sampleRun 124).score + 1) (sampleRun 124).asteroids
          noKeys.rand).2 = [⟨422, 50, 50, 50, ⟨4, 50, 50⟩⟩] ∧
    moveGopher sampleAssets (sampleRun 124).gopher noKeys.spaceDown =
      ⟨375, 25, 50, 50, ⟨3, 50, 50⟩⟩ :=
  ⟨by decide!, by decide!,
    (collision_iff_overlap sampleAssets (sampleRun 124) noKeys (by decide!)).1.1 (by decide!),
    ((collision_iff_overlap sampleAssets (sampleRun 124) noKeys (by decide!)).2.2.2.1
      (sampleRun_reachable 124) noKeys_valid (by decide) (by decide) (by decide)
      (by decide)).1 (by decide!),
    by decide!, by decide!⟩

end FlappyGopher
